import Mathlib

/-!
# Talent-hub form: the conditional field visibility resolver

A shallow embedding of `src/js/complexityCalculator.js` and
`src/js/adaptiveConditionalLogic.js`, and the properties of the
visibility resolver proved over it.

JavaScript strings are Lean strings; `undefined` is `none`.  An object
literal or a CSV row is an association list of its own properties.
-/

namespace TalentHub

/-! ## JavaScript strings -/

/-- Value of `s.split(sep)` on the characters of `s`, for a one-character separator:
the pieces between the separators, so the empty string gives one empty piece. -/
def splitChars (sep : Char) : List Char → List (List Char)
  | [] => [[]]
  | c :: cs =>
    if c = sep then [] :: splitChars sep cs
    else
      match splitChars sep cs with
      | [] => [[c]]
      | piece :: pieces => (c :: piece) :: pieces

/-- Value of `s.split(sep)` for a one-character separator. -/
def jsSplit (sep : Char) (s : String) : List String :=
  (splitChars sep s.data).map String.mk

/-- Value of `xs.join(sep)`. -/
def jsJoin (sep : String) : List String → String
  | [] => ""
  | [x] => x
  | x :: y :: rest => x ++ sep ++ jsJoin sep (y :: rest)

/-- Value of a template literal hole: a string is itself, `undefined` prints as
the text "undefined". -/
def templateString : Option String → String
  | some s => s
  | none => "undefined"

/-! ## Field configuration rows -/

/-- One row of the field catalog: the own properties of the object built by
`parseCSV`, every value a string. -/
abbrev FieldConfig := List (String × String)

/-- Value of `fieldConfig[key]`: the own property, `none` for `undefined`.  The keys
read by the resolver (`is_universal`, `depends_on_field`, `depends_on_values`,
`form_label`, `complexity_…`, `type_…`) are not members of `Object.prototype`, so
the lookup never falls through to an inherited member. -/
def FieldConfig.get (cfg : FieldConfig) (key : String) : Option String :=
  cfg.lookup key

/-! ## ComplexityCalculator -/

namespace ComplexityCalculator

/-- The `budgetComplexityMap` object literal. -/
def budgetComplexityMap : List (String × String) :=
  [("Under $5K", "simple"), ("$5K-15K", "simple"), ("$15K-50K", "standard"),
   ("$50K-100K", "standard"), ("$100K-250K", "complex"), ("$250K+", "complex")]

/-- The `durationComplexityMap` object literal. -/
def durationComplexityMap : List (String × String) :=
  [("1-2 weeks", "simple"), ("3-4 weeks", "simple"), ("1-3 months", "standard"),
   ("3-6 months", "standard"), ("6-12 months", "complex"), ("12+ months", "complex")]

/-- The `complexityOrder` array. -/
def complexityOrder : List String := ["simple", "standard", "complex"]

/-- Names every object literal inherits from `Object.prototype`; reading one of
them on a plain object yields a function or object, never `undefined`. -/
def objectPrototypeKeys : List String :=
  ["constructor", "__defineGetter__", "__defineSetter__", "hasOwnProperty",
   "__lookupGetter__", "__lookupSetter__", "isPrototypeOf", "propertyIsEnumerable",
   "toString", "valueOf", "__proto__", "toLocaleString"]

/-- Result of reading a property of an object literal whose own values are strings. -/
inductive MapValue where
  | str (s : String)
  | inherited (key : String)
  | undefined
  deriving DecidableEq, Repr

/-- Value of `map[key]` on an object literal: the own property when there is one,
else the member inherited from `Object.prototype`, else `undefined`. -/
def lookupProperty (map : List (String × String)) (key : String) : MapValue :=
  match map.lookup key with
  | some v => MapValue.str v
  | none => if key ∈ objectPrototypeKeys then MapValue.inherited key else MapValue.undefined

/-- Value of `v || "simple"`: `undefined` and the empty string are falsy, an
inherited function or object is truthy. -/
def orSimple : MapValue → MapValue
  | MapValue.str s => if s = "" then MapValue.str "simple" else MapValue.str s
  | MapValue.inherited k => MapValue.inherited k
  | MapValue.undefined => MapValue.str "simple"

/-- Value of `complexityOrder.indexOf(v)`: the position of a listed string, else -1. -/
def indexOfLevel : MapValue → Int
  | MapValue.str s =>
    match complexityOrder.indexOf? s with
    | some i => (i : Int)
    | none => -1
  | _ => -1

/-- Value of `complexityOrder[i]`: `none` is `undefined`, for an index out of range. -/
def levelAt (i : Int) : Option String :=
  if i < 0 then none else complexityOrder.get? i.toNat

/-- The method `calculateComplexity(budgetRange, projectDuration)`. -/
def calculateComplexity (budgetRange projectDuration : String) : Option String :=
  let budgetComplexity := orSimple (lookupProperty budgetComplexityMap budgetRange)
  let durationComplexity := orSimple (lookupProperty durationComplexityMap projectDuration)
  let budgetIndex := indexOfLevel budgetComplexity
  let durationIndex := indexOfLevel durationComplexity
  let finalComplexityIndex := max budgetIndex durationIndex
  levelAt finalComplexityIndex

/-- The method `shouldShowField(fieldConfig, complexity, projectType)`; the two
state arguments are given as the text they contribute to the property names. -/
def shouldShowField (fieldConfig : FieldConfig) (complexity projectType : String) : Bool :=
  if fieldConfig.get "is_universal" = some "TRUE" then true
  else
    let complexityVisible :=
      decide (fieldConfig.get ("complexity_" ++ complexity) = some "TRUE")
    let typeVisible := decide (fieldConfig.get ("type_" ++ projectType) = some "TRUE")
    complexityVisible && typeVisible

end ComplexityCalculator

/-- The lower-case mappings of the Unicode Character Database, version 14.0, outside
ASCII, as runs `(first, last, step, target)`: the code points `first`,
`first + step`, … up to `last` map to `target`, `target + step`, …  The one mapping
to more than one code point, that of U+0130, is in `toLowerCaseChar`. -/
def lowerCaseRuns : List (Nat × Nat × Nat × Nat) :=
  [(0xC0, 0xD6, 1, 0xE0), (0xD8, 0xDE, 1, 0xF8), (0x100, 0x12E, 2, 0x101),
   (0x132, 0x136, 2, 0x133), (0x139, 0x147, 2, 0x13A), (0x14A, 0x176, 2, 0x14B),
   (0x178, 0x178, 1, 0xFF), (0x179, 0x17D, 2, 0x17A), (0x181, 0x181, 1, 0x253),
   (0x182, 0x184, 2, 0x183), (0x186, 0x186, 1, 0x254), (0x187, 0x187, 1, 0x188),
   (0x189, 0x18A, 1, 0x256), (0x18B, 0x18B, 1, 0x18C), (0x18E, 0x18E, 1, 0x1DD),
   (0x18F, 0x18F, 1, 0x259), (0x190, 0x190, 1, 0x25B), (0x191, 0x191, 1, 0x192),
   (0x193, 0x193, 1, 0x260), (0x194, 0x194, 1, 0x263), (0x196, 0x196, 1, 0x269),
   (0x197, 0x197, 1, 0x268), (0x198, 0x198, 1, 0x199), (0x19C, 0x19C, 1, 0x26F),
   (0x19D, 0x19D, 1, 0x272), (0x19F, 0x19F, 1, 0x275), (0x1A0, 0x1A4, 2, 0x1A1),
   (0x1A6, 0x1A6, 1, 0x280), (0x1A7, 0x1A7, 1, 0x1A8), (0x1A9, 0x1A9, 1, 0x283),
   (0x1AC, 0x1AC, 1, 0x1AD), (0x1AE, 0x1AE, 1, 0x288), (0x1AF, 0x1AF, 1, 0x1B0),
   (0x1B1, 0x1B2, 1, 0x28A), (0x1B3, 0x1B5, 2, 0x1B4), (0x1B7, 0x1B7, 1, 0x292),
   (0x1B8, 0x1B8, 1, 0x1B9), (0x1BC, 0x1BC, 1, 0x1BD), (0x1C4, 0x1C4, 1, 0x1C6),
   (0x1C5, 0x1C5, 1, 0x1C6), (0x1C7, 0x1C7, 1, 0x1C9), (0x1C8, 0x1C8, 1, 0x1C9),
   (0x1CA, 0x1CA, 1, 0x1CC), (0x1CB, 0x1DB, 2, 0x1CC), (0x1DE, 0x1EE, 2, 0x1DF),
   (0x1F1, 0x1F1, 1, 0x1F3), (0x1F2, 0x1F4, 2, 0x1F3), (0x1F6, 0x1F6, 1, 0x195),
   (0x1F7, 0x1F7, 1, 0x1BF), (0x1F8, 0x21E, 2, 0x1F9), (0x220, 0x220, 1, 0x19E),
   (0x222, 0x232, 2, 0x223), (0x23A, 0x23A, 1, 0x2C65), (0x23B, 0x23B, 1, 0x23C),
   (0x23D, 0x23D, 1, 0x19A), (0x23E, 0x23E, 1, 0x2C66), (0x241, 0x241, 1, 0x242),
   (0x243, 0x243, 1, 0x180), (0x244, 0x244, 1, 0x289), (0x245, 0x245, 1, 0x28C),
   (0x246, 0x24E, 2, 0x247), (0x370, 0x372, 2, 0x371), (0x376, 0x376, 1, 0x377),
   (0x37F, 0x37F, 1, 0x3F3), (0x386, 0x386, 1, 0x3AC), (0x388, 0x38A, 1, 0x3AD),
   (0x38C, 0x38C, 1, 0x3CC), (0x38E, 0x38F, 1, 0x3CD), (0x391, 0x3A1, 1, 0x3B1),
   (0x3A3, 0x3AB, 1, 0x3C3), (0x3CF, 0x3CF, 1, 0x3D7), (0x3D8, 0x3EE, 2, 0x3D9),
   (0x3F4, 0x3F4, 1, 0x3B8), (0x3F7, 0x3F7, 1, 0x3F8), (0x3F9, 0x3F9, 1, 0x3F2),
   (0x3FA, 0x3FA, 1, 0x3FB), (0x3FD, 0x3FF, 1, 0x37B), (0x400, 0x40F, 1, 0x450),
   (0x410, 0x42F, 1, 0x430), (0x460, 0x480, 2, 0x461), (0x48A, 0x4BE, 2, 0x48B),
   (0x4C0, 0x4C0, 1, 0x4CF), (0x4C1, 0x4CD, 2, 0x4C2), (0x4D0, 0x52E, 2, 0x4D1),
   (0x531, 0x556, 1, 0x561), (0x10A0, 0x10C5, 1, 0x2D00), (0x10C7, 0x10C7, 1, 0x2D27),
   (0x10CD, 0x10CD, 1, 0x2D2D), (0x13A0, 0x13EF, 1, 0xAB70), (0x13F0, 0x13F5, 1, 0x13F8),
   (0x1C90, 0x1CBA, 1, 0x10D0), (0x1CBD, 0x1CBF, 1, 0x10FD), (0x1E00, 0x1E94, 2, 0x1E01),
   (0x1E9E, 0x1E9E, 1, 0xDF), (0x1EA0, 0x1EFE, 2, 0x1EA1), (0x1F08, 0x1F0F, 1, 0x1F00),
   (0x1F18, 0x1F1D, 1, 0x1F10), (0x1F28, 0x1F2F, 1, 0x1F20), (0x1F38, 0x1F3F, 1, 0x1F30),
   (0x1F48, 0x1F4D, 1, 0x1F40), (0x1F59, 0x1F5F, 2, 0x1F51), (0x1F68, 0x1F6F, 1, 0x1F60),
   (0x1F88, 0x1F8F, 1, 0x1F80), (0x1F98, 0x1F9F, 1, 0x1F90), (0x1FA8, 0x1FAF, 1, 0x1FA0),
   (0x1FB8, 0x1FB9, 1, 0x1FB0), (0x1FBA, 0x1FBB, 1, 0x1F70), (0x1FBC, 0x1FBC, 1, 0x1FB3),
   (0x1FC8, 0x1FCB, 1, 0x1F72), (0x1FCC, 0x1FCC, 1, 0x1FC3), (0x1FD8, 0x1FD9, 1, 0x1FD0),
   (0x1FDA, 0x1FDB, 1, 0x1F76), (0x1FE8, 0x1FE9, 1, 0x1FE0), (0x1FEA, 0x1FEB, 1, 0x1F7A),
   (0x1FEC, 0x1FEC, 1, 0x1FE5), (0x1FF8, 0x1FF9, 1, 0x1F78), (0x1FFA, 0x1FFB, 1, 0x1F7C),
   (0x1FFC, 0x1FFC, 1, 0x1FF3), (0x2126, 0x2126, 1, 0x3C9), (0x212A, 0x212A, 1, 0x6B),
   (0x212B, 0x212B, 1, 0xE5), (0x2132, 0x2132, 1, 0x214E), (0x2160, 0x216F, 1, 0x2170),
   (0x2183, 0x2183, 1, 0x2184), (0x24B6, 0x24CF, 1, 0x24D0), (0x2C00, 0x2C2F, 1, 0x2C30),
   (0x2C60, 0x2C60, 1, 0x2C61), (0x2C62, 0x2C62, 1, 0x26B), (0x2C63, 0x2C63, 1, 0x1D7D),
   (0x2C64, 0x2C64, 1, 0x27D), (0x2C67, 0x2C6B, 2, 0x2C68), (0x2C6D, 0x2C6D, 1, 0x251),
   (0x2C6E, 0x2C6E, 1, 0x271), (0x2C6F, 0x2C6F, 1, 0x250), (0x2C70, 0x2C70, 1, 0x252),
   (0x2C72, 0x2C72, 1, 0x2C73), (0x2C75, 0x2C75, 1, 0x2C76), (0x2C7E, 0x2C7F, 1, 0x23F),
   (0x2C80, 0x2CE2, 2, 0x2C81), (0x2CEB, 0x2CED, 2, 0x2CEC), (0x2CF2, 0x2CF2, 1, 0x2CF3),
   (0xA640, 0xA66C, 2, 0xA641), (0xA680, 0xA69A, 2, 0xA681), (0xA722, 0xA72E, 2, 0xA723),
   (0xA732, 0xA76E, 2, 0xA733), (0xA779, 0xA77B, 2, 0xA77A), (0xA77D, 0xA77D, 1, 0x1D79),
   (0xA77E, 0xA786, 2, 0xA77F), (0xA78B, 0xA78B, 1, 0xA78C), (0xA78D, 0xA78D, 1, 0x265),
   (0xA790, 0xA792, 2, 0xA791), (0xA796, 0xA7A8, 2, 0xA797), (0xA7AA, 0xA7AA, 1, 0x266),
   (0xA7AB, 0xA7AB, 1, 0x25C), (0xA7AC, 0xA7AC, 1, 0x261), (0xA7AD, 0xA7AD, 1, 0x26C),
   (0xA7AE, 0xA7AE, 1, 0x26A), (0xA7B0, 0xA7B0, 1, 0x29E), (0xA7B1, 0xA7B1, 1, 0x287),
   (0xA7B2, 0xA7B2, 1, 0x29D), (0xA7B3, 0xA7B3, 1, 0xAB53), (0xA7B4, 0xA7C2, 2, 0xA7B5),
   (0xA7C4, 0xA7C4, 1, 0xA794), (0xA7C5, 0xA7C5, 1, 0x282), (0xA7C6, 0xA7C6, 1, 0x1D8E),
   (0xA7C7, 0xA7C9, 2, 0xA7C8), (0xA7D0, 0xA7D0, 1, 0xA7D1), (0xA7D6, 0xA7D8, 2, 0xA7D7),
   (0xA7F5, 0xA7F5, 1, 0xA7F6), (0xFF21, 0xFF3A, 1, 0xFF41), (0x10400, 0x10427, 1, 0x10428),
   (0x104B0, 0x104D3, 1, 0x104D8), (0x10570, 0x1057A, 1, 0x10597),
   (0x1057C, 0x1058A, 1, 0x105A3), (0x1058C, 0x10592, 1, 0x105B3),
   (0x10594, 0x10595, 1, 0x105BB), (0x10C80, 0x10CB2, 1, 0x10CC0),
   (0x118A0, 0x118BF, 1, 0x118C0), (0x16E40, 0x16E5F, 1, 0x16E60),
   (0x1E900, 0x1E921, 1, 0x1E922)]

/-- The code points with the property Case_Ignorable (Unicode 14.0), as ranges
`(first, last)`. -/
def caseIgnorableRanges : List (Nat × Nat) :=
  [(0x27, 0x27), (0x2E, 0x2E), (0x3A, 0x3A), (0x5E, 0x5E), (0x60, 0x60), (0xA8, 0xA8),
   (0xAD, 0xAD), (0xAF, 0xAF), (0xB4, 0xB4), (0xB7, 0xB8), (0x2B0, 0x36F), (0x374, 0x375),
   (0x37A, 0x37A), (0x384, 0x385), (0x387, 0x387), (0x483, 0x489), (0x559, 0x559),
   (0x55F, 0x55F), (0x591, 0x5BD), (0x5BF, 0x5BF), (0x5C1, 0x5C2), (0x5C4, 0x5C5),
   (0x5C7, 0x5C7), (0x5F4, 0x5F4), (0x600, 0x605), (0x610, 0x61A), (0x61C, 0x61C),
   (0x640, 0x640), (0x64B, 0x65F), (0x670, 0x670), (0x6D6, 0x6DD), (0x6DF, 0x6E8),
   (0x6EA, 0x6ED), (0x70F, 0x70F), (0x711, 0x711), (0x730, 0x74A), (0x7A6, 0x7B0),
   (0x7EB, 0x7F5), (0x7FA, 0x7FA), (0x7FD, 0x7FD), (0x816, 0x82D), (0x859, 0x85B),
   (0x888, 0x888), (0x890, 0x891), (0x898, 0x89F), (0x8C9, 0x902), (0x93A, 0x93A),
   (0x93C, 0x93C), (0x941, 0x948), (0x94D, 0x94D), (0x951, 0x957), (0x962, 0x963),
   (0x971, 0x971), (0x981, 0x981), (0x9BC, 0x9BC), (0x9C1, 0x9C4), (0x9CD, 0x9CD),
   (0x9E2, 0x9E3), (0x9FE, 0x9FE), (0xA01, 0xA02), (0xA3C, 0xA3C), (0xA41, 0xA42),
   (0xA47, 0xA48), (0xA4B, 0xA4D), (0xA51, 0xA51), (0xA70, 0xA71), (0xA75, 0xA75),
   (0xA81, 0xA82), (0xABC, 0xABC), (0xAC1, 0xAC5), (0xAC7, 0xAC8), (0xACD, 0xACD),
   (0xAE2, 0xAE3), (0xAFA, 0xAFF), (0xB01, 0xB01), (0xB3C, 0xB3C), (0xB3F, 0xB3F),
   (0xB41, 0xB44), (0xB4D, 0xB4D), (0xB55, 0xB56), (0xB62, 0xB63), (0xB82, 0xB82),
   (0xBC0, 0xBC0), (0xBCD, 0xBCD), (0xC00, 0xC00), (0xC04, 0xC04), (0xC3C, 0xC3C),
   (0xC3E, 0xC40), (0xC46, 0xC48), (0xC4A, 0xC4D), (0xC55, 0xC56), (0xC62, 0xC63),
   (0xC81, 0xC81), (0xCBC, 0xCBC), (0xCBF, 0xCBF), (0xCC6, 0xCC6), (0xCCC, 0xCCD),
   (0xCE2, 0xCE3), (0xD00, 0xD01), (0xD3B, 0xD3C), (0xD41, 0xD44), (0xD4D, 0xD4D),
   (0xD62, 0xD63), (0xD81, 0xD81), (0xDCA, 0xDCA), (0xDD2, 0xDD4), (0xDD6, 0xDD6),
   (0xE31, 0xE31), (0xE34, 0xE3A), (0xE46, 0xE4E), (0xEB1, 0xEB1), (0xEB4, 0xEBC),
   (0xEC6, 0xEC6), (0xEC8, 0xECD), (0xF18, 0xF19), (0xF35, 0xF35), (0xF37, 0xF37),
   (0xF39, 0xF39), (0xF71, 0xF7E), (0xF80, 0xF84), (0xF86, 0xF87), (0xF8D, 0xF97),
   (0xF99, 0xFBC), (0xFC6, 0xFC6), (0x102D, 0x1030), (0x1032, 0x1037), (0x1039, 0x103A),
   (0x103D, 0x103E), (0x1058, 0x1059), (0x105E, 0x1060), (0x1071, 0x1074), (0x1082, 0x1082),
   (0x1085, 0x1086), (0x108D, 0x108D), (0x109D, 0x109D), (0x10FC, 0x10FC), (0x135D, 0x135F),
   (0x1712, 0x1714), (0x1732, 0x1733), (0x1752, 0x1753), (0x1772, 0x1773), (0x17B4, 0x17B5),
   (0x17B7, 0x17BD), (0x17C6, 0x17C6), (0x17C9, 0x17D3), (0x17D7, 0x17D7), (0x17DD, 0x17DD),
   (0x180B, 0x180F), (0x1843, 0x1843), (0x1885, 0x1886), (0x18A9, 0x18A9), (0x1920, 0x1922),
   (0x1927, 0x1928), (0x1932, 0x1932), (0x1939, 0x193B), (0x1A17, 0x1A18), (0x1A1B, 0x1A1B),
   (0x1A56, 0x1A56), (0x1A58, 0x1A5E), (0x1A60, 0x1A60), (0x1A62, 0x1A62), (0x1A65, 0x1A6C),
   (0x1A73, 0x1A7C), (0x1A7F, 0x1A7F), (0x1AA7, 0x1AA7), (0x1AB0, 0x1ACE), (0x1B00, 0x1B03),
   (0x1B34, 0x1B34), (0x1B36, 0x1B3A), (0x1B3C, 0x1B3C), (0x1B42, 0x1B42), (0x1B6B, 0x1B73),
   (0x1B80, 0x1B81), (0x1BA2, 0x1BA5), (0x1BA8, 0x1BA9), (0x1BAB, 0x1BAD), (0x1BE6, 0x1BE6),
   (0x1BE8, 0x1BE9), (0x1BED, 0x1BED), (0x1BEF, 0x1BF1), (0x1C2C, 0x1C33), (0x1C36, 0x1C37),
   (0x1C78, 0x1C7D), (0x1CD0, 0x1CD2), (0x1CD4, 0x1CE0), (0x1CE2, 0x1CE8), (0x1CED, 0x1CED),
   (0x1CF4, 0x1CF4), (0x1CF8, 0x1CF9), (0x1D2C, 0x1D6A), (0x1D78, 0x1D78), (0x1D9B, 0x1DFF),
   (0x1FBD, 0x1FBD), (0x1FBF, 0x1FC1), (0x1FCD, 0x1FCF), (0x1FDD, 0x1FDF), (0x1FED, 0x1FEF),
   (0x1FFD, 0x1FFE), (0x200B, 0x200F), (0x2018, 0x2019), (0x2024, 0x2024), (0x2027, 0x2027),
   (0x202A, 0x202E), (0x2060, 0x2064), (0x2066, 0x206F), (0x2071, 0x2071), (0x207F, 0x207F),
   (0x2090, 0x209C), (0x20D0, 0x20F0), (0x2C7C, 0x2C7D), (0x2CEF, 0x2CF1), (0x2D6F, 0x2D6F),
   (0x2D7F, 0x2D7F), (0x2DE0, 0x2DFF), (0x2E2F, 0x2E2F), (0x3005, 0x3005), (0x302A, 0x302D),
   (0x3031, 0x3035), (0x303B, 0x303B), (0x3099, 0x309E), (0x30FC, 0x30FE), (0xA015, 0xA015),
   (0xA4F8, 0xA4FD), (0xA60C, 0xA60C), (0xA66F, 0xA672), (0xA674, 0xA67D), (0xA67F, 0xA67F),
   (0xA69C, 0xA69F), (0xA6F0, 0xA6F1), (0xA700, 0xA721), (0xA770, 0xA770), (0xA788, 0xA78A),
   (0xA7F2, 0xA7F4), (0xA7F8, 0xA7F9), (0xA802, 0xA802), (0xA806, 0xA806), (0xA80B, 0xA80B),
   (0xA825, 0xA826), (0xA82C, 0xA82C), (0xA8C4, 0xA8C5), (0xA8E0, 0xA8F1), (0xA8FF, 0xA8FF),
   (0xA926, 0xA92D), (0xA947, 0xA951), (0xA980, 0xA982), (0xA9B3, 0xA9B3), (0xA9B6, 0xA9B9),
   (0xA9BC, 0xA9BD), (0xA9CF, 0xA9CF), (0xA9E5, 0xA9E6), (0xAA29, 0xAA2E), (0xAA31, 0xAA32),
   (0xAA35, 0xAA36), (0xAA43, 0xAA43), (0xAA4C, 0xAA4C), (0xAA70, 0xAA70), (0xAA7C, 0xAA7C),
   (0xAAB0, 0xAAB0), (0xAAB2, 0xAAB4), (0xAAB7, 0xAAB8), (0xAABE, 0xAABF), (0xAAC1, 0xAAC1),
   (0xAADD, 0xAADD), (0xAAEC, 0xAAED), (0xAAF3, 0xAAF4), (0xAAF6, 0xAAF6), (0xAB5B, 0xAB5F),
   (0xAB69, 0xAB6B), (0xABE5, 0xABE5), (0xABE8, 0xABE8), (0xABED, 0xABED), (0xFB1E, 0xFB1E),
   (0xFBB2, 0xFBC2), (0xFE00, 0xFE0F), (0xFE13, 0xFE13), (0xFE20, 0xFE2F), (0xFE52, 0xFE52),
   (0xFE55, 0xFE55), (0xFEFF, 0xFEFF), (0xFF07, 0xFF07), (0xFF0E, 0xFF0E), (0xFF1A, 0xFF1A),
   (0xFF3E, 0xFF3E), (0xFF40, 0xFF40), (0xFF70, 0xFF70), (0xFF9E, 0xFF9F), (0xFFE3, 0xFFE3),
   (0xFFF9, 0xFFFB), (0x101FD, 0x101FD), (0x102E0, 0x102E0), (0x10376, 0x1037A),
   (0x10780, 0x10785), (0x10787, 0x107B0), (0x107B2, 0x107BA), (0x10A01, 0x10A03),
   (0x10A05, 0x10A06), (0x10A0C, 0x10A0F), (0x10A38, 0x10A3A), (0x10A3F, 0x10A3F),
   (0x10AE5, 0x10AE6), (0x10D24, 0x10D27), (0x10EAB, 0x10EAC), (0x10F46, 0x10F50),
   (0x10F82, 0x10F85), (0x11001, 0x11001), (0x11038, 0x11046), (0x11070, 0x11070),
   (0x11073, 0x11074), (0x1107F, 0x11081), (0x110B3, 0x110B6), (0x110B9, 0x110BA),
   (0x110BD, 0x110BD), (0x110C2, 0x110C2), (0x110CD, 0x110CD), (0x11100, 0x11102),
   (0x11127, 0x1112B), (0x1112D, 0x11134), (0x11173, 0x11173), (0x11180, 0x11181),
   (0x111B6, 0x111BE), (0x111C9, 0x111CC), (0x111CF, 0x111CF), (0x1122F, 0x11231),
   (0x11234, 0x11234), (0x11236, 0x11237), (0x1123E, 0x1123E), (0x112DF, 0x112DF),
   (0x112E3, 0x112EA), (0x11300, 0x11301), (0x1133B, 0x1133C), (0x11340, 0x11340),
   (0x11366, 0x1136C), (0x11370, 0x11374), (0x11438, 0x1143F), (0x11442, 0x11444),
   (0x11446, 0x11446), (0x1145E, 0x1145E), (0x114B3, 0x114B8), (0x114BA, 0x114BA),
   (0x114BF, 0x114C0), (0x114C2, 0x114C3), (0x115B2, 0x115B5), (0x115BC, 0x115BD),
   (0x115BF, 0x115C0), (0x115DC, 0x115DD), (0x11633, 0x1163A), (0x1163D, 0x1163D),
   (0x1163F, 0x11640), (0x116AB, 0x116AB), (0x116AD, 0x116AD), (0x116B0, 0x116B5),
   (0x116B7, 0x116B7), (0x1171D, 0x1171F), (0x11722, 0x11725), (0x11727, 0x1172B),
   (0x1182F, 0x11837), (0x11839, 0x1183A), (0x1193B, 0x1193C), (0x1193E, 0x1193E),
   (0x11943, 0x11943), (0x119D4, 0x119D7), (0x119DA, 0x119DB), (0x119E0, 0x119E0),
   (0x11A01, 0x11A0A), (0x11A33, 0x11A38), (0x11A3B, 0x11A3E), (0x11A47, 0x11A47),
   (0x11A51, 0x11A56), (0x11A59, 0x11A5B), (0x11A8A, 0x11A96), (0x11A98, 0x11A99),
   (0x11C30, 0x11C36), (0x11C38, 0x11C3D), (0x11C3F, 0x11C3F), (0x11C92, 0x11CA7),
   (0x11CAA, 0x11CB0), (0x11CB2, 0x11CB3), (0x11CB5, 0x11CB6), (0x11D31, 0x11D36),
   (0x11D3A, 0x11D3A), (0x11D3C, 0x11D3D), (0x11D3F, 0x11D45), (0x11D47, 0x11D47),
   (0x11D90, 0x11D91), (0x11D95, 0x11D95), (0x11D97, 0x11D97), (0x11EF3, 0x11EF4),
   (0x13430, 0x13438), (0x16AF0, 0x16AF4), (0x16B30, 0x16B36), (0x16B40, 0x16B43),
   (0x16F4F, 0x16F4F), (0x16F8F, 0x16F9F), (0x16FE0, 0x16FE1), (0x16FE3, 0x16FE4),
   (0x1AFF0, 0x1AFF3), (0x1AFF5, 0x1AFFB), (0x1AFFD, 0x1AFFE), (0x1BC9D, 0x1BC9E),
   (0x1BCA0, 0x1BCA3), (0x1CF00, 0x1CF2D), (0x1CF30, 0x1CF46), (0x1D167, 0x1D169),
   (0x1D173, 0x1D182), (0x1D185, 0x1D18B), (0x1D1AA, 0x1D1AD), (0x1D242, 0x1D244),
   (0x1DA00, 0x1DA36), (0x1DA3B, 0x1DA6C), (0x1DA75, 0x1DA75), (0x1DA84, 0x1DA84),
   (0x1DA9B, 0x1DA9F), (0x1DAA1, 0x1DAAF), (0x1E000, 0x1E006), (0x1E008, 0x1E018),
   (0x1E01B, 0x1E021), (0x1E023, 0x1E024), (0x1E026, 0x1E02A), (0x1E130, 0x1E13D),
   (0x1E2AE, 0x1E2AE), (0x1E2EC, 0x1E2EF), (0x1E8D0, 0x1E8D6), (0x1E944, 0x1E94B),
   (0x1F3FB, 0x1F3FF), (0xE0001, 0xE0001), (0xE0020, 0xE007F), (0xE0100, 0xE01EF)]

/-- The code points with the property Cased (Unicode 14.0), as ranges
`(first, last)`. -/
def casedRanges : List (Nat × Nat) :=
  [(0x41, 0x5A), (0x61, 0x7A), (0xAA, 0xAA), (0xB5, 0xB5), (0xBA, 0xBA), (0xC0, 0xD6),
   (0xD8, 0xF6), (0xF8, 0x1BA), (0x1BC, 0x1BF), (0x1C4, 0x293), (0x295, 0x2B8), (0x2C0, 0x2C1),
   (0x2E0, 0x2E4), (0x345, 0x345), (0x370, 0x373), (0x376, 0x377), (0x37A, 0x37D),
   (0x37F, 0x37F), (0x386, 0x386), (0x388, 0x38A), (0x38C, 0x38C), (0x38E, 0x3A1),
   (0x3A3, 0x3F5), (0x3F7, 0x481), (0x48A, 0x52F), (0x531, 0x556), (0x560, 0x588),
   (0x10A0, 0x10C5), (0x10C7, 0x10C7), (0x10CD, 0x10CD), (0x10D0, 0x10FA), (0x10FD, 0x10FF),
   (0x13A0, 0x13F5), (0x13F8, 0x13FD), (0x1C80, 0x1C88), (0x1C90, 0x1CBA), (0x1CBD, 0x1CBF),
   (0x1D00, 0x1DBF), (0x1E00, 0x1F15), (0x1F18, 0x1F1D), (0x1F20, 0x1F45), (0x1F48, 0x1F4D),
   (0x1F50, 0x1F57), (0x1F59, 0x1F59), (0x1F5B, 0x1F5B), (0x1F5D, 0x1F5D), (0x1F5F, 0x1F7D),
   (0x1F80, 0x1FB4), (0x1FB6, 0x1FBC), (0x1FBE, 0x1FBE), (0x1FC2, 0x1FC4), (0x1FC6, 0x1FCC),
   (0x1FD0, 0x1FD3), (0x1FD6, 0x1FDB), (0x1FE0, 0x1FEC), (0x1FF2, 0x1FF4), (0x1FF6, 0x1FFC),
   (0x2071, 0x2071), (0x207F, 0x207F), (0x2090, 0x209C), (0x2102, 0x2102), (0x2107, 0x2107),
   (0x210A, 0x2113), (0x2115, 0x2115), (0x2119, 0x211D), (0x2124, 0x2124), (0x2126, 0x2126),
   (0x2128, 0x2128), (0x212A, 0x212D), (0x212F, 0x2134), (0x2139, 0x2139), (0x213C, 0x213F),
   (0x2145, 0x2149), (0x214E, 0x214E), (0x2160, 0x217F), (0x2183, 0x2184), (0x24B6, 0x24E9),
   (0x2C00, 0x2CE4), (0x2CEB, 0x2CEE), (0x2CF2, 0x2CF3), (0x2D00, 0x2D25), (0x2D27, 0x2D27),
   (0x2D2D, 0x2D2D), (0xA640, 0xA66D), (0xA680, 0xA69D), (0xA722, 0xA787), (0xA78B, 0xA78E),
   (0xA790, 0xA7CA), (0xA7D0, 0xA7D1), (0xA7D3, 0xA7D3), (0xA7D5, 0xA7D9), (0xA7F5, 0xA7F6),
   (0xA7F8, 0xA7FA), (0xAB30, 0xAB5A), (0xAB5C, 0xAB68), (0xAB70, 0xABBF), (0xFB00, 0xFB06),
   (0xFB13, 0xFB17), (0xFF21, 0xFF3A), (0xFF41, 0xFF5A), (0x10400, 0x1044F), (0x104B0, 0x104D3),
   (0x104D8, 0x104FB), (0x10570, 0x1057A), (0x1057C, 0x1058A), (0x1058C, 0x10592),
   (0x10594, 0x10595), (0x10597, 0x105A1), (0x105A3, 0x105B1), (0x105B3, 0x105B9),
   (0x105BB, 0x105BC), (0x10780, 0x10780), (0x10783, 0x10785), (0x10787, 0x107B0),
   (0x107B2, 0x107BA), (0x10C80, 0x10CB2), (0x10CC0, 0x10CF2), (0x118A0, 0x118DF),
   (0x16E40, 0x16E7F), (0x1D400, 0x1D454), (0x1D456, 0x1D49C), (0x1D49E, 0x1D49F),
   (0x1D4A2, 0x1D4A2), (0x1D4A5, 0x1D4A6), (0x1D4A9, 0x1D4AC), (0x1D4AE, 0x1D4B9),
   (0x1D4BB, 0x1D4BB), (0x1D4BD, 0x1D4C3), (0x1D4C5, 0x1D505), (0x1D507, 0x1D50A),
   (0x1D50D, 0x1D514), (0x1D516, 0x1D51C), (0x1D51E, 0x1D539), (0x1D53B, 0x1D53E),
   (0x1D540, 0x1D544), (0x1D546, 0x1D546), (0x1D54A, 0x1D550), (0x1D552, 0x1D6A5),
   (0x1D6A8, 0x1D6C0), (0x1D6C2, 0x1D6DA), (0x1D6DC, 0x1D6FA), (0x1D6FC, 0x1D714),
   (0x1D716, 0x1D734), (0x1D736, 0x1D74E), (0x1D750, 0x1D76E), (0x1D770, 0x1D788),
   (0x1D78A, 0x1D7A8), (0x1D7AA, 0x1D7C2), (0x1D7C4, 0x1D7CB), (0x1DF00, 0x1DF09),
   (0x1DF0B, 0x1DF1E), (0x1E900, 0x1E943), (0x1F130, 0x1F149), (0x1F150, 0x1F169),
   (0x1F170, 0x1F189)]

/-- Whether a code point lies in one of the ranges. -/
def inRanges (ranges : List (Nat × Nat)) (n : Nat) : Bool :=
  ranges.any (fun r => decide (r.1 ≤ n ∧ n ≤ r.2))

/-- Characters with the property Case_Ignorable. -/
def isCaseIgnorable (c : Char) : Bool :=
  inRanges caseIgnorableRanges c.toNat

/-- Characters with the property Cased. -/
def isCased (c : Char) : Bool :=
  inRanges casedRanges c.toNat

/-- The lower-case mapping of a code point outside ASCII that maps to one code
point; a code point without a mapping is left as it is. -/
def lowerCaseCode (n : Nat) : Nat :=
  match lowerCaseRuns.find?
      (fun r => decide (r.1 ≤ n ∧ n ≤ r.2.1 ∧ (n - r.1) % r.2.2.1 = 0)) with
  | some r => r.2.2.2 + (n - r.1)
  | none => n

/-- The lower-case mapping of one character other than the capital sigma: the
letters A-Z in ASCII, U+0130 to the letter i and U+0307, every other one by
`lowerCaseRuns`. -/
def toLowerCaseChar (c : Char) : List Char :=
  if c.toNat < 0x80 then [c.toLower]
  else if c.toNat = 0x130 then ['i', Char.ofNat 0x307]
  else [Char.ofNat (lowerCaseCode c.toNat)]

/-- The condition Final_Sigma of the Unicode default case conversion, for a capital
sigma with the characters `before` it (nearest first) and `after` it: a cased
letter comes before it and none after it, case-ignorable characters skipped. -/
def finalSigma (before after : List Char) : Bool :=
  (match before.dropWhile isCaseIgnorable with
    | c :: _ => isCased c
    | [] => false) &&
  (match after.dropWhile isCaseIgnorable with
    | c :: _ => !isCased c
    | [] => true)

/-- The lower case of the characters `cs` that follow the characters `before`
(nearest first): the capital sigma becomes the final sigma U+03C2 under
`finalSigma` and U+03C3 otherwise. -/
def toLowerCaseFrom : List Char → List Char → List Char
  | _, [] => []
  | before, c :: rest =>
    (if c.toNat = 0x3A3 then [Char.ofNat (if finalSigma before rest then 0x3C2 else 0x3C3)]
      else toLowerCaseChar c) ++ toLowerCaseFrom (c :: before) rest

/-- Value of `s.toLowerCase()`: the Unicode default case conversion of the code
points of `s`, with the data of Unicode 14.0. -/
def toLowerCase (s : String) : String :=
  String.mk (toLowerCaseFrom [] s.data)

/-- Code points matched by the regular expression class `\s`. -/
def jsWhitespaceCodes : List Nat :=
  [0x09, 0x0A, 0x0B, 0x0C, 0x0D, 0x20, 0xA0, 0x1680, 0x2000, 0x2001, 0x2002, 0x2003,
   0x2004, 0x2005, 0x2006, 0x2007, 0x2008, 0x2009, 0x200A, 0x2028, 0x2029, 0x202F,
   0x205F, 0x3000, 0xFEFF]

/-- Characters matched by the regular expression class `\s`. -/
def isJsWhitespace (c : Char) : Bool :=
  decide (c.toNat ∈ jsWhitespaceCodes)

/-- Characters kept by `replace(/[^a-z0-9]/g, '')`. -/
def isLowerAlnum (c : Char) : Bool :=
  ('a' ≤ c && c ≤ 'z') || ('0' ≤ c && c ≤ '9')

/-! ## The page -/

/-- Tag of a form control, with the `type` attribute of an `input`. -/
inductive ControlKind where
  | input (type : String)
  | select
  | textarea
  deriving DecidableEq, Repr

/-- The `type` property of a form control. -/
def ControlKind.type : ControlKind → String
  | ControlKind.input t => t
  | ControlKind.select => "select-one"
  | ControlKind.textarea => "textarea"

/-- An `input`, `select` or `textarea` element. -/
structure FormControl where
  kind : ControlKind
  name : String
  value : String
  checked : Bool
  deriving DecidableEq, Repr

/-- The inline style of a field wrapper: the properties the resolver writes. -/
structure Style where
  display : String
  opacity : String
  transform : String
  transition : String
  deriving DecidableEq, Repr

/-- A `div.field-wrapper` as generated by `generateFormGroup`, with the form
controls it contains in document order. -/
structure FieldWrapper where
  fieldName : String
  dependsOn : Option String
  dependsValues : Option String
  style : Style
  controls : List FormControl
  deriving DecidableEq, Repr

/-- A `div.section`: its inline `display` and its `.section-content` block
(`none` when the section has none), holding field wrappers. -/
structure Section where
  display : String
  content : Option (List FieldWrapper)
  deriving DecidableEq, Repr

/-- The document: whether the form `#dynamicGeneratedForm` is present, and the
sections, which `generateForm` puts inside that form. -/
structure Document where
  hasForm : Bool
  sections : List Section
  deriving DecidableEq, Repr

/-- Position of a field wrapper: section index, then index in the section content. -/
abbrev FieldRef := Nat × Nat

/-- Replace the element at index `i` by its image under `f`. -/
def modifyAt {α : Type} (f : α → α) : Nat → List α → List α
  | _, [] => []
  | 0, x :: xs => f x :: xs
  | i + 1, x :: xs => x :: modifyAt f i xs

/-- Field wrappers of a section, in document order. -/
def Section.wrappers (s : Section) : List FieldWrapper :=
  s.content.getD []

/-- Every field wrapper of the document, in document order. -/
def Document.wrappers (d : Document) : List FieldWrapper :=
  d.sections.flatMap Section.wrappers

/-- Every form control of the document, in document order. -/
def Document.controls (d : Document) : List FormControl :=
  d.wrappers.flatMap FieldWrapper.controls

/-- The field wrapper at a position, if there is one. -/
def Document.wrapperAt (d : Document) (ref : FieldRef) : Option FieldWrapper :=
  match d.sections[ref.1]? with
  | some s => s.wrappers[ref.2]?
  | none => none

/-- Apply `f` to the field wrapper at a position. -/
def Document.modifyWrapper (d : Document) (ref : FieldRef)
    (f : FieldWrapper → FieldWrapper) : Document :=
  let inSection : Section → Section := fun s =>
    { display := s.display, content := s.content.map (modifyAt f ref.2) }
  { hasForm := d.hasForm, sections := modifyAt inSection ref.1 d.sections }

/-- Position of the first field wrapper satisfying `p`, searching the sections from
index `i` on. -/
def findWrapperFrom (p : FieldWrapper → Bool) : Nat → List Section → Option FieldRef
  | _, [] => none
  | i, s :: rest =>
    match s.wrappers.findIdx? p with
    | some j => some (i, j)
    | none => findWrapperFrom p (i + 1) rest

/-- The pseudo-class `:checked` on an `input`: a checked checkbox or radio button. -/
def FormControl.isCheckedInput (c : FormControl) : Bool :=
  match c.kind with
  | ControlKind.input t => (t = "radio" || t = "checkbox") && c.checked
  | _ => false

/-- The first control of the form whose `name` attribute is `name`: the result of
`form.querySelector('[name="' + name + '"]')` for a name the selector text holds
literally (`selectorReading`), which is so for every name `generateFormGroup`
produces.  For another name the call can throw: see `selectorReading`. -/
def Document.queryByName (d : Document) (name : String) : Option FormControl :=
  d.controls.find? (fun c => c.name = name)

/-- How `querySelector` reads the selector text `[name="` + name + `"]`: `literal`,
a valid selector for the elements whose `name` attribute equals `name`;
`syntaxError`, not a selector, so that the call throws a `SyntaxError`; `other`, a
text whose reading is not followed here. -/
inductive SelectorReading where
  | literal
  | syntaxError
  | other
  deriving DecidableEq, Repr

/-- Line breaks of CSS: line feed, form feed and carriage return. -/
def isCssNewline (c : Char) : Bool :=
  c.toNat = 0x0A || c.toNat = 0x0C || c.toNat = 0x0D

/-- The reading of `[name="` + name + `"]`.  A name without double quote (U+0022),
backslash (U+005C), line break and U+0000 is the content of the string as it
stands.  A line break before any double quote ends the string as a bad string, which
no selector holds.  A double quote ends the string; when what follows it in the name
holds no closing bracket (U+005D) and no solidus (U+002F), the bracket stays open
with the closing `"]` of the text read as a further string, which no attribute
selector holds.  Escapes, U+0000, and names that close the bracket or open a
comment after the double quote are not followed. -/
def selectorReading (name : String) : SelectorReading :=
  if name.data.any (fun c => c.toNat = 0x5C || c.toNat = 0) then SelectorReading.other
  else
    match name.data.dropWhile (fun c => !(c.toNat = 0x22 || isCssNewline c)) with
    | [] => SelectorReading.literal
    | c :: rest =>
      if isCssNewline c then SelectorReading.syntaxError
      else if rest.any (fun d => d.toNat = 0x5D || d.toNat = 0x2F) then SelectorReading.other
      else SelectorReading.syntaxError

/-- A callback registered with `setTimeout`. -/
inductive TimerTask where
  | showDone (ref : FieldRef)
  | hideDone (ref : FieldRef)
  deriving DecidableEq, Repr

/-- Delay in milliseconds a callback was registered with. -/
def TimerTask.delay : TimerTask → Nat
  | TimerTask.showDone _ => 10
  | TimerTask.hideDone _ => 300

/-- The page between two events: the document and the callbacks still pending,
in registration order. -/
structure Page where
  doc : Document
  timers : List TimerTask
  deriving DecidableEq, Repr

/-- Errors a method can end with. -/
inductive JSError where
  | typeError
  | syntaxError
  deriving DecidableEq, Repr

/-! ## AdaptiveConditionalLogic -/

/-- The fields of an `AdaptiveConditionalLogic` instance.  `formData` is `none`
while it is `null`; `currentComplexity` is `none` when it holds `undefined`. -/
structure AdaptiveConditionalLogic where
  formData : Option (List FieldConfig)
  currentComplexity : Option String
  currentProjectType : String
  deriving DecidableEq, Repr

namespace AdaptiveConditionalLogic

/-- The method `getFieldValue(field)`; both queries run on the whole document. -/
def getFieldValue (doc : Document) (field : FormControl) : String :=
  if field.kind.type = "radio" then
    match doc.controls.find? (fun c => c.isCheckedInput && decide (c.name = field.name)) with
    | some checkedRadio => checkedRadio.value
    | none => ""
  else if field.kind.type = "checkbox" then
    jsJoin "|"
      ((doc.controls.filter (fun c => c.isCheckedInput && decide (c.name = field.name))).map
        FormControl.value)
  else field.value

/-- The array `requiredValues` of `checkTraditionalConditionalLogic`: an absent or
empty `depends_on_values` gives the empty array. -/
def requiredValues (fieldConfig : FieldConfig) : List String :=
  match fieldConfig.get "depends_on_values" with
  | none => []
  | some v => if v = "" then [] else jsSplit '|' v

/-- The method `checkTraditionalConditionalLogic(fieldConfig)`: the value it returns.
For a `depends_on_field` that the selector of `form.querySelector` does not hold
literally, the call can throw instead of returning: see
`checkTraditionalConditionalLogicOutcome`. -/
def checkTraditionalConditionalLogic (doc : Document) (fieldConfig : FieldConfig) : Bool :=
  match fieldConfig.get "depends_on_field" with
  | none => true
  | some dependsOn =>
    if dependsOn = "" then true
    else if doc.hasForm = false then false
    else
      match doc.queryByName dependsOn with
      | none => false
      | some dependsOnField =>
        let currentValue := getFieldValue doc dependsOnField
        decide (currentValue ∈ requiredValues fieldConfig)

/-- How a call `checkTraditionalConditionalLogic(fieldConfig)` ends, with the reading
of the selector `[name="${fieldConfig.depends_on_field}"]` by `form.querySelector`:
the value returned, the `SyntaxError` thrown, or `none` where the reading of the
selector is not followed (`SelectorReading.other`). -/
def checkTraditionalConditionalLogicOutcome (doc : Document) (fieldConfig : FieldConfig) :
    Option (Except JSError Bool) :=
  match fieldConfig.get "depends_on_field" with
  | none => some (Except.ok true)
  | some dependsOn =>
    if dependsOn = "" then some (Except.ok true)
    else if doc.hasForm = false then some (Except.ok false)
    else
      match selectorReading dependsOn with
      | SelectorReading.other => none
      | SelectorReading.syntaxError => some (Except.error JSError.syntaxError)
      | SelectorReading.literal =>
        match doc.queryByName dependsOn with
        | none => some (Except.ok false)
        | some dependsOnField =>
          let currentValue := getFieldValue doc dependsOnField
          some (Except.ok (decide (currentValue ∈ requiredValues fieldConfig)))

/-- The field name `findFieldElement` and `findFieldConfig` derive from a label:
lower case, whitespace removed, then everything outside a-z0-9 removed. -/
def resolverFieldName (fieldLabel : String) : String :=
  String.mk
    (((toLowerCase fieldLabel).data.filter (fun c => !isJsWhitespace c)).filter isLowerAlnum)

/-- Position of the field wrapper holding the first form control satisfying `p`. -/
def findWrapperOfControl (p : FormControl → Bool) (sections : List Section) :
    Option FieldRef :=
  findWrapperFrom (fun w => w.controls.any p) 0 sections

/-- The method `findFieldElement(fieldLabel)`: the first wrapper carrying the derived
name in `data-field-name`, else the wrapper around the first control of that name. -/
def findFieldElement (doc : Document) (fieldLabel : String) : Option FieldRef :=
  let fieldName := resolverFieldName fieldLabel
  match findWrapperFrom (fun w => decide (w.fieldName = fieldName)) 0 doc.sections with
  | some fieldWrapper => some fieldWrapper
  | none => findWrapperOfControl (fun c => decide (c.name = fieldName)) doc.sections

/-- The method `showField(fieldElement)`: the synchronous part; the callback it
registers is `TimerTask.showDone`. -/
def showField (pg : Page) (ref : FieldRef) : Page :=
  match pg.doc.wrapperAt ref with
  | none => pg
  | some w =>
    if w.style.display = "block" ∨ w.style.display = "" then pg
    else
      { doc := pg.doc.modifyWrapper ref (fun e =>
          { e with style :=
              { e.style with display := "block", opacity := "0",
                             transform := "translateY(10px)" } }),
        timers := pg.timers ++ [TimerTask.showDone ref] }

/-- The method `hideField(fieldElement)`: the synchronous part; the callback it
registers is `TimerTask.hideDone`. -/
def hideField (pg : Page) (ref : FieldRef) : Page :=
  match pg.doc.wrapperAt ref with
  | none => pg
  | some w =>
    if w.style.display = "none" then pg
    else
      { doc := pg.doc.modifyWrapper ref (fun e =>
          { e with style :=
              { e.style with transition := "all 0.3s ease", opacity := "0",
                             transform := "translateY(-10px)" } }),
        timers := pg.timers ++ [TimerTask.hideDone ref] }

/-- The body of the `forEach` of `clearFieldValue`, on one control. -/
def clearControl (input : FormControl) : FormControl :=
  if input.kind.type = "checkbox" ∨ input.kind.type = "radio" then
    { input with checked := false }
  else
    { input with value := "" }

/-- The method `clearFieldValue(fieldElement)` on the wrapper it is given. -/
def clearFieldValue (e : FieldWrapper) : FieldWrapper :=
  { e with controls := e.controls.map clearControl }

/-- Run one pending callback on the document. -/
def runTimer (doc : Document) : TimerTask → Document
  | TimerTask.showDone ref =>
    doc.modifyWrapper ref (fun e =>
      { e with style :=
          { e.style with transition := "all 0.3s ease", opacity := "1",
                         transform := "translateY(0)" } })
  | TimerTask.hideDone ref =>
    doc.modifyWrapper ref (fun e =>
      clearFieldValue { e with style := { e.style with display := "none" } })

/-- Insert a callback after the pending ones that are due no later. -/
def insertTimer (t : TimerTask) : List TimerTask → List TimerTask
  | [] => [t]
  | u :: rest => if u.delay ≤ t.delay then u :: insertTimer t rest else t :: u :: rest

/-- Pending callbacks registered in one synchronous run, in the order they fire:
by delay, then by registration. -/
def firingOrder (timers : List TimerTask) : List TimerTask :=
  timers.foldl (fun acc t => insertTimer t acc) []

/-- Let every pending callback fire, with no other event in between. -/
def runTimers (pg : Page) : Page :=
  { doc := (firingOrder pg.timers).foldl runTimer pg.doc, timers := [] }

/-- The constant `shouldShow` of `applyFieldLogic`. -/
def shouldShow (self : AdaptiveConditionalLogic) (doc : Document)
    (fieldConfig : FieldConfig) : Bool :=
  let shouldShowByComplexity :=
    ComplexityCalculator.shouldShowField fieldConfig
      (templateString self.currentComplexity) self.currentProjectType
  let shouldShowByTraditionalLogic := checkTraditionalConditionalLogic doc fieldConfig
  shouldShowByComplexity && shouldShowByTraditionalLogic

/-- The method `applyFieldLogic(fieldElement, fieldConfig)`, for a row on which the
call of `checkTraditionalConditionalLogic` returns. -/
def applyFieldLogic (self : AdaptiveConditionalLogic) (pg : Page) (fieldElement : FieldRef)
    (fieldConfig : FieldConfig) : Page :=
  if shouldShow self pg.doc fieldConfig then showField pg fieldElement
  else hideField pg fieldElement

/-- The method `manageSectionVisibility()`.  Its selector keeps the wrappers whose
inline style text does not contain "display: none", the text an inline display of
`none` is written as. -/
def manageSectionVisibility (doc : Document) : Document :=
  { doc with sections := doc.sections.map (fun sec =>
      match sec.content with
      | none => sec
      | some sectionContent =>
        let visibleFields := sectionContent.filter (fun w => decide (w.style.display ≠ "none"))
        if visibleFields.length = 0 then { sec with display := "none" }
        else { sec with display := "block" }) }

/-- The body of the `forEach` of `applyConditionalLogic`, on one catalog row.
Reading `toLowerCase` on an absent `form_label` is a `TypeError`. -/
def applyConditionalLogicStep (self : AdaptiveConditionalLogic) (pg : Page)
    (fieldConfig : FieldConfig) : Except JSError Page :=
  match fieldConfig.get "form_label" with
  | none => Except.error JSError.typeError
  | some label =>
    match findFieldElement pg.doc label with
    | some fieldElement => Except.ok (applyFieldLogic self pg fieldElement fieldConfig)
    | none => Except.ok pg

/-- The `forEach` of `applyConditionalLogic` over the catalog. -/
def applyConditionalLogicLoop (self : AdaptiveConditionalLogic) :
    Page → List FieldConfig → Except JSError Page
  | pg, [] => Except.ok pg
  | pg, fieldConfig :: rest =>
    match applyConditionalLogicStep self pg fieldConfig with
    | Except.error e => Except.error e
    | Except.ok pg1 => applyConditionalLogicLoop self pg1 rest

/-- The method `applyConditionalLogic()`, for a catalog on every row of which the
call of `checkTraditionalConditionalLogic` returns; in the code a row on which it
throws (`checkTraditionalConditionalLogicOutcome`) ends the pass with that error. -/
def applyConditionalLogic (self : AdaptiveConditionalLogic) (pg : Page) :
    Except JSError Page :=
  match self.formData with
  | none => Except.ok pg
  | some formData =>
    match applyConditionalLogicLoop self pg formData with
    | Except.error e => Except.error e
    | Except.ok pg1 =>
      Except.ok { doc := manageSectionVisibility pg1.doc, timers := pg1.timers }

end AdaptiveConditionalLogic

/-! ## ComplexityCalculator: reading the form -/

namespace ComplexityCalculator

/-- The selector of `getFormValue`: the `name` attribute is the field name as given
or in lower case. -/
def matchesFieldName (fieldName : String) (c : FormControl) : Bool :=
  decide (c.name = fieldName) || decide (c.name = toLowerCase fieldName)

/-- The method `getFormValue(form, fieldName)` on the form of the document. -/
def getFormValue (doc : Document) (fieldName : String) : String :=
  match doc.controls.find? (matchesFieldName fieldName) with
  | none => ""
  | some field =>
    if field.kind.type = "radio" then
      match doc.controls.find? (fun c => c.isCheckedInput && matchesFieldName fieldName c) with
      | some checkedRadio => checkedRadio.value
      | none => ""
    else if field.kind.type = "checkbox" then
      jsJoin "|"
        ((doc.controls.filter (fun c => c.isCheckedInput && matchesFieldName fieldName c)).map
          FormControl.value)
    else field.value

/-- The method `getComplexityFromForm(form)`; the argument is the form of the
document, `null` when the document has none. -/
def getComplexityFromForm (doc : Document) : Option String :=
  if doc.hasForm = false then some "simple"
  else
    let budgetRange := getFormValue doc "budgetrange"
    let projectDuration := getFormValue doc "projectduration"
    calculateComplexity budgetRange projectDuration

/-- The method `getProjectTypeFromForm(form)`; the argument is the form of the
document, `null` when the document has none. -/
def getProjectTypeFromForm (doc : Document) : String :=
  if doc.hasForm = false then "strategic"
  else
    let problemCategory := getFormValue doc "problemcategory"
    if problemCategory = "" then "strategic" else toLowerCase problemCategory

end ComplexityCalculator

/-- The elements of a list with their index, counted from `i`. -/
def indexedFrom {α : Type} : Nat → List α → List (Nat × α)
  | _, [] => []
  | i, x :: xs => (i, x) :: indexedFrom (i + 1) xs

/-- Every field wrapper of the document with its position, in document order. -/
def Document.wrapperRefs (d : Document) : List (FieldRef × FieldWrapper) :=
  (indexedFrom 0 d.sections).flatMap (fun is =>
    (indexedFrom 0 is.2.wrappers).map (fun jw => ((is.1, jw.1), jw.2)))

/-! ## AdaptiveConditionalLogic: the change handlers -/

namespace AdaptiveConditionalLogic

/-- The method `evaluateCurrentState()`. -/
def evaluateCurrentState (self : AdaptiveConditionalLogic) (doc : Document) :
    AdaptiveConditionalLogic :=
  if doc.hasForm = false then self
  else
    { formData := self.formData,
      currentComplexity := ComplexityCalculator.getComplexityFromForm doc,
      currentProjectType := ComplexityCalculator.getProjectTypeFromForm doc }

/-- The method `handleComplexityChange()`; `logCurrentState` only reads. -/
def handleComplexityChange (self : AdaptiveConditionalLogic) (pg : Page) :
    Except JSError (AdaptiveConditionalLogic × Page) :=
  let previousComplexity := self.currentComplexity
  let self1 := evaluateCurrentState self pg.doc
  if previousComplexity ≠ self1.currentComplexity then
    match applyConditionalLogic self1 pg with
    | Except.error e => Except.error e
    | Except.ok pg1 => Except.ok (self1, pg1)
  else Except.ok (self1, pg)

/-- The method `handleProjectTypeChange()`; `logCurrentState` only reads. -/
def handleProjectTypeChange (self : AdaptiveConditionalLogic) (pg : Page) :
    Except JSError (AdaptiveConditionalLogic × Page) :=
  let previousType := self.currentProjectType
  let self1 := evaluateCurrentState self pg.doc
  if previousType ≠ self1.currentProjectType then
    match applyConditionalLogic self1 pg with
    | Except.error e => Except.error e
    | Except.ok pg1 => Except.ok (self1, pg1)
  else Except.ok (self1, pg)

/-- The `find` of `findFieldConfig`: the first row whose label gives the field name.
Reading `toLowerCase` on an absent `form_label` is a `TypeError`. -/
def findConfigByName (fieldName : String) : List FieldConfig → Except JSError (Option FieldConfig)
  | [] => Except.ok none
  | config :: rest =>
    match config.get "form_label" with
    | none => Except.error JSError.typeError
    | some label =>
      if resolverFieldName label = fieldName then Except.ok (some config)
      else findConfigByName fieldName rest

/-- The method `findFieldConfig(fieldElement)`; `none` is its `null` or `undefined`. -/
def findFieldConfig (self : AdaptiveConditionalLogic) (doc : Document) (fieldElement : FieldRef) :
    Except JSError (Option FieldConfig) :=
  match self.formData with
  | none => Except.ok none
  | some formData =>
    match doc.wrapperAt fieldElement with
    | none => Except.ok none
    | some w =>
      if w.fieldName = "" then Except.ok none
      else findConfigByName w.fieldName formData

/-- Result of `document.querySelectorAll('[data-depends-on="' + fieldName + '"]')`. -/
def dependentFields (doc : Document) (fieldName : String) : List FieldRef :=
  (doc.wrapperRefs.filter (fun rw => decide (rw.2.dependsOn = some fieldName))).map Prod.fst

/-- The `forEach` of `handleFieldChange` over the dependent fields. -/
def handleFieldChangeLoop (self : AdaptiveConditionalLogic) :
    Page → List FieldRef → Except JSError Page
  | pg, [] => Except.ok pg
  | pg, field :: rest =>
    match findFieldConfig self pg.doc field with
    | Except.error e => Except.error e
    | Except.ok none => handleFieldChangeLoop self pg rest
    | Except.ok (some fieldConfig) =>
      handleFieldChangeLoop self (applyFieldLogic self pg field fieldConfig) rest

/-- The method `handleFieldChange(event)`, given the name of the changed field. -/
def handleFieldChange (self : AdaptiveConditionalLogic) (pg : Page) (fieldName : String) :
    Except JSError Page :=
  handleFieldChangeLoop self pg (dependentFields pg.doc fieldName)

end AdaptiveConditionalLogic

/-! ## The catalog parser -/

/-- Value of `s.trim()` on the characters of `s`: white space and line terminators
removed at both ends. -/
def jsTrimChars (cs : List Char) : List Char :=
  ((cs.dropWhile isJsWhitespace).reverse.dropWhile isJsWhitespace).reverse

/-- Value of `s.trim()`. -/
def jsTrim (s : String) : String :=
  String.mk (jsTrimChars s.data)

/-- Value of `s.replace(/\r\n/g, '\n')` on the characters of `s`. -/
def replaceCRLF : List Char → List Char
  | [] => []
  | [c] => [c]
  | c :: d :: rest =>
    if c = '\r' ∧ d = '\n' then '\n' :: replaceCRLF rest else c :: replaceCRLF (d :: rest)

/-- Value of `s.replace(/\r/g, '\n')` on the characters of `s`. -/
def replaceCR (cs : List Char) : List Char :=
  cs.map (fun c => if c = '\r' then '\n' else c)

/-- The inner `for` loop of `parseCSV` over the characters of a line, with the
variables `values`, `currentValue` and `commaCount`. -/
def splitLineLoop (numColumns : Nat) :
    List Char → List String → List Char → Nat → List String × List Char
  | [], values, currentValue, _ => (values, currentValue)
  | char :: rest, values, currentValue, commaCount =>
    if char = ',' ∧ commaCount < numColumns - 1 then
      splitLineLoop numColumns rest (values ++ [String.mk (jsTrimChars currentValue)]) []
        (commaCount + 1)
    else splitLineLoop numColumns rest values (currentValue ++ [char]) commaCount

/-- The `while` loop of `parseCSV` that fills in missing values. -/
def padValues (numColumns : Nat) (values : List String) : List String :=
  values ++ List.replicate (numColumns - values.length) ""

/-- The array `values` `parseCSV` builds for one trimmed, non-empty line. -/
def lineValues (numColumns : Nat) (line : List Char) : List String :=
  let state := splitLineLoop numColumns line [] [] 0
  padValues numColumns (state.1 ++ [String.mk (jsTrimChars state.2)])

/-- The assignment `row[key] = value` on an object built from an empty literal: an own
property is overwritten in place, a new one is added; for the key `__proto__` the
setter inherited from `Object.prototype` ignores a string and no property is made. -/
def setProperty (row : FieldConfig) (key value : String) : FieldConfig :=
  if key = "__proto__" then row
  else if row.any (fun kv => decide (kv.1 = key)) then
    row.map (fun kv => if kv.1 = key then (key, value) else kv)
  else row ++ [(key, value)]

/-- The `headers.forEach` of `parseCSV`: the object `row` for the values of a line. -/
def buildRow (headers values : List String) : FieldConfig :=
  (indexedFrom 0 headers).foldl
    (fun row ih => setProperty row ih.2 ((values[ih.1]?).getD "")) []

/-- The outer `for` loop of `parseCSV` over the lines after the first. -/
def parseDataLines (headers : List String) : List (List Char) → List FieldConfig
  | [] => []
  | raw :: rest =>
    let line := jsTrimChars raw
    if line = [] then parseDataLines headers rest
    else buildRow headers (lineValues headers.length line) :: parseDataLines headers rest

/-- The array `lines` of `parseCSV`. -/
def csvLines (csvText : String) : List (List Char) :=
  splitChars '\n' (replaceCR (replaceCRLF (jsTrimChars csvText.data)))

/-- The array `headers` of `parseCSV`, from the first line. -/
def csvHeaders (firstLine : List Char) : List String :=
  (splitChars ',' firstLine).map (fun h => String.mk (jsTrimChars h))

/-- The function `parseCSV(csvText)` of `utils.js`. -/
def parseCSV (csvText : String) : List FieldConfig :=
  match csvLines csvText with
  | [] => []
  | firstLine :: dataLines => parseDataLines (csvHeaders firstLine) dataLines

namespace FormGenerator

/-- The method `parseCSV(csvText)` of `FormGenerator`. -/
def parseCSV (csvText : String) : List FieldConfig :=
  match csvLines csvText with
  | [] => []
  | firstLine :: dataLines => parseDataLines (csvHeaders firstLine) dataLines

/-- The constant `fieldName` of `generateFormGroup`: the label in lower case with
everything outside a-z0-9 removed. -/
def generatedFieldName (formLabel : String) : String :=
  String.mk ((toLowerCase formLabel).data.filter isLowerAlnum)

end FormGenerator

/-! ## ConditionalLogic, the earlier handler of `uiManager.js` -/

namespace ConditionalLogic

/-- The method `getFieldValue(field)` of `ConditionalLogic`. -/
def getFieldValue (doc : Document) (field : FormControl) : String :=
  if field.kind.type = "radio" then
    match doc.controls.find? (fun c => c.isCheckedInput && decide (c.name = field.name)) with
    | some checkedRadio => checkedRadio.value
    | none => ""
  else if field.kind.type = "checkbox" then
    jsJoin "|"
      ((doc.controls.filter (fun c => c.isCheckedInput && decide (c.name = field.name))).map
        FormControl.value)
  else field.value

/-- The method `showField(fieldElement)` of `ConditionalLogic`: it has no guard. -/
def showField (pg : Page) (ref : FieldRef) : Page :=
  { doc := pg.doc.modifyWrapper ref (fun e =>
      { e with style :=
          { e.style with display := "block", opacity := "0",
                         transform := "translateY(10px)" } }),
    timers := pg.timers ++ [TimerTask.showDone ref] }

/-- The method `hideField(fieldElement)` of `ConditionalLogic`: it has no guard. -/
def hideField (pg : Page) (ref : FieldRef) : Page :=
  { doc := pg.doc.modifyWrapper ref (fun e =>
      { e with style :=
          { e.style with transition := "all 0.3s ease", opacity := "0",
                         transform := "translateY(-10px)" } }),
    timers := pg.timers ++ [TimerTask.hideDone ref] }

/-- The constant `shouldShow` of `checkConditionalField`.  Splitting an absent
`data-depends-values` attribute is a `TypeError`. -/
def shouldShow (doc : Document) (fieldElement : FieldWrapper) (triggerField : FormControl) :
    Except JSError Bool :=
  match fieldElement.dependsValues with
  | none => Except.error JSError.typeError
  | some dependsValues =>
    let dependsOnValues := jsSplit '|' dependsValues
    let triggerValue := getFieldValue doc triggerField
    Except.ok (decide (triggerValue ∈ dependsOnValues))

/-- The method `checkConditionalField(fieldElement, triggerField)`. -/
def checkConditionalField (pg : Page) (fieldElement : FieldRef) (triggerField : FormControl) :
    Except JSError Page :=
  match pg.doc.wrapperAt fieldElement with
  | none => Except.ok pg
  | some w =>
    match shouldShow pg.doc w triggerField with
    | Except.error e => Except.error e
    | Except.ok true => Except.ok (showField pg fieldElement)
    | Except.ok false => Except.ok (hideField pg fieldElement)

/-- The `forEach` of `handleFieldChange` of `ConditionalLogic`. -/
def handleFieldChangeLoop (changedField : FormControl) :
    Page → List FieldRef → Except JSError Page
  | pg, [] => Except.ok pg
  | pg, field :: rest =>
    match checkConditionalField pg field changedField with
    | Except.error e => Except.error e
    | Except.ok pg1 => handleFieldChangeLoop changedField pg1 rest

/-- The method `handleFieldChange(event)` of `ConditionalLogic`, given the changed
control. -/
def handleFieldChange (pg : Page) (changedField : FormControl) : Except JSError Page :=
  handleFieldChangeLoop changedField pg
    (AdaptiveConditionalLogic.dependentFields pg.doc changedField.name)

end ConditionalLogic

/-! ## FormSubmission -/

/-- The assignment `object[key] = value` for a key other than `__proto__`: an own
property is overwritten in place, a new one is added. -/
def assignProperty {β : Type} (object : List (String × β)) (key : String) (value : β) :
    List (String × β) :=
  if object.any (fun kv => decide (kv.1 = key)) then
    object.map (fun kv => if kv.1 = key then (key, value) else kv)
  else object ++ [(key, value)]

/-- An element of an array held in the mapping of `getFormData`: a string, or the
member of `Object.prototype` that was read under an inherited name. -/
inductive FormItem where
  | str (s : String)
  | inherited (key : String)
  deriving DecidableEq, Repr

/-- A value of the mapping of `getFormData`: a string or an array. -/
inductive FormValue where
  | single (s : String)
  | list (items : List FormItem)
  deriving DecidableEq, Repr

/-- The object `data` of `getFormData`: its own properties. -/
abbrev FormMapping := List (String × FormValue)

namespace FormSubmission

/-- The body of the `for` loop of `getFormData` for one entry, the name not being
`__proto__`.  `data[key]` is truthy for a non-empty string, an array and a member
inherited from `Object.prototype`. -/
def getFormDataStep (data : FormMapping) (key value : String) : FormMapping :=
  match data.lookup key with
  | some (FormValue.list items) =>
    assignProperty data key (FormValue.list (items ++ [FormItem.str value]))
  | some (FormValue.single s) =>
    if s = "" then assignProperty data key (FormValue.single value)
    else assignProperty data key (FormValue.list [FormItem.str s, FormItem.str value])
  | none =>
    if key ∈ ComplexityCalculator.objectPrototypeKeys then
      assignProperty data key (FormValue.list [FormItem.inherited key, FormItem.str value])
    else assignProperty data key (FormValue.single value)

/-- The method `getFormData(formElement)` on the entries of `new FormData(formElement)`,
all strings.  For an entry named `__proto__` the assignment replaces the prototype
of `data`; the model does not follow what is then inherited and gives `none`.  No
control rendered by `generateFormGroup` has that name. -/
def getFormData (entries : List (String × String)) : Option FormMapping :=
  if entries.any (fun e => decide (e.1 = "__proto__")) then none
  else some (entries.foldl (fun data e => getFormDataStep data e.1 e.2) [])

/-- The submit button: whether it is disabled, its text, and whether it holds the
loading spinner element. -/
structure SubmitButton where
  disabled : Bool
  textContent : String
  spinner : Bool
  deriving DecidableEq, Repr

/-- The method `setSubmitButtonLoading(button, isLoading, originalText)`; `none` for
an omitted `originalText`. -/
def setSubmitButtonLoading (button : SubmitButton) (isLoading : Bool)
    (originalText : Option String) : SubmitButton :=
  if isLoading then
    { button with disabled := true, textContent := " Submitting...", spinner := true }
  else
    { button with disabled := false,
                  textContent := originalText.getD "Submit Problem Statement",
                  spinner := false }

/-- The items of `localStorage` the module uses: the array stored under
`talentHubSubmissions` (empty when the item is absent), and the two items of the
saved form.  Writing an item is taken to succeed. -/
structure LocalStorage where
  submissions : List FormMapping
  formData : Option String
  formTimestamp : Option String
  deriving DecidableEq, Repr

/-- What a call does outside the instance and the storage, in order. -/
inductive Effect where
  | preventDefault
  | readFormData
  | healthProbe
  | post (body : FormMapping)
  | showSuccess (submissionId : String) (isLocalSave : Bool)
  | showError (message : String)
  | promptLater
  deriving DecidableEq, Repr

/-- The instance, the button of the form, the storage and the effects so far. -/
structure SubmitState where
  isSubmitting : Bool
  submitBtn : Option SubmitButton
  storage : LocalStorage
  log : List Effect
  deriving DecidableEq, Repr

/-- Outcome of the probe of `checkServerHealth`: the `ok` flag of the response, or a
rejected `fetch`. -/
inductive HealthOutcome where
  | ok
  | notOk
  | failed
  deriving DecidableEq, Repr

/-- Outcome of the `POST` of `handleOnlineSubmission`: a rejected `fetch`, a response
that is not JSON, a body that does not parse, or the parsed result. -/
inductive PostOutcome where
  | rejected (message : String)
  | notJson
  | invalidJson (message : String)
  | result (success : Bool) (submissionId : String) (clearLocalStorage : Bool)
      (error : Option String)
  deriving DecidableEq, Repr

/-- What a call of `handleSubmit` takes from outside: the mapping `getFormData`
returns for the form, the outcomes of the two requests, and the identifier and the
time generated for a local save. -/
structure SubmitEnv where
  formData : FormMapping
  health : HealthOutcome
  post : PostOutcome
  generatedId : String
  now : String
  deriving DecidableEq, Repr

/-- Append an effect to the log. -/
def SubmitState.record (st : SubmitState) (e : Effect) : SubmitState :=
  { st with log := st.log ++ [e] }

/-- The method `checkServerHealth()`. -/
def checkServerHealth (health : HealthOutcome) : Bool :=
  match health with
  | HealthOutcome.ok => true
  | HealthOutcome.notOk => false
  | HealthOutcome.failed => false

/-- The object `submission` of `handleOfflineSubmission`: the properties of the
mapping, then the three tags. -/
def localSubmission (data : FormMapping) (generatedId now : String) : FormMapping :=
  assignProperty
    (assignProperty
      (assignProperty data "submissionId" (FormValue.single generatedId))
      "submittedAt" (FormValue.single now))
    "status" (FormValue.single "saved_locally")

/-- The method `handleOfflineSubmission(data, formElement)`. -/
def handleOfflineSubmission (st : SubmitState) (data : FormMapping) (generatedId now : String) :
    SubmitState :=
  let submission := localSubmission data generatedId now
  let st1 : SubmitState :=
    { st with storage :=
        { submissions := st.storage.submissions ++ [submission],
          formData := none, formTimestamp := none } }
  (st1.record (Effect.showSuccess generatedId true)).record Effect.promptLater

/-- The method `handleOnlineSubmission(data, formElement)`: the state it leaves, and
the message of the error it throws, if any. -/
def handleOnlineSubmission (st : SubmitState) (data : FormMapping) (post : PostOutcome) :
    SubmitState × Option String :=
  let st1 := st.record (Effect.post data)
  match post with
  | PostOutcome.rejected message => (st1, some message)
  | PostOutcome.notJson =>
    (st1, some "Server not available. Please ensure the server is running.")
  | PostOutcome.invalidJson message => (st1, some message)
  | PostOutcome.result success submissionId clearLocalStorage error =>
    if success then
      let st2 : SubmitState :=
        if clearLocalStorage then
          { st1 with storage :=
              { submissions := st1.storage.submissions, formData := none,
                formTimestamp := none } }
        else st1
      ((st2.record (Effect.showSuccess submissionId false)).record Effect.promptLater, none)
    else
      match error with
      | some message => (st1, some (if message = "" then "Submission failed" else message))
      | none => (st1, some "Submission failed")

/-- The method `handleSubmit(formElement, event)` with its awaits run in order: the
state it leaves, and whether its promise is rejected (reading the text of a missing
submit button is a `TypeError`, outside the `try`). -/
def handleSubmit (st : SubmitState) (env : SubmitEnv) : SubmitState × Bool :=
  let st0 := st.record Effect.preventDefault
  if st0.isSubmitting then (st0, false)
  else
    let st1 : SubmitState := { st0 with isSubmitting := true }
    match st1.submitBtn with
    | none => (st1, true)
    | some submitBtn =>
      let originalText := submitBtn.textContent
      let st2 : SubmitState :=
        { st1 with submitBtn := some (setSubmitButtonLoading submitBtn true none) }
      let st3 := (st2.record Effect.readFormData).record Effect.healthProbe
      let isServerAvailable := checkServerHealth env.health
      let attempt : SubmitState × Option String :=
        if isServerAvailable = false then
          (handleOfflineSubmission st3 env.formData env.generatedId env.now, none)
        else handleOnlineSubmission st3 env.formData env.post
      let st4 : SubmitState :=
        match attempt.2 with
        | some message => attempt.1.record (Effect.showError message)
        | none => attempt.1
      ({ st4 with submitBtn :=
                    some (setSubmitButtonLoading (st4.submitBtn.getD submitBtn) false
                      (some originalText)),
                  isSubmitting := false }, false)

end FormSubmission

/-! ## ProgressTracker -/

namespace ProgressTracker

/-- The method `getFormData()` of `ProgressTracker`: the empty object when the form
is missing, else the same loop as `FormSubmission.getFormData`. -/
def getFormData (form : Option (List (String × String))) : Option FormMapping :=
  match form with
  | none => some []
  | some entries =>
    if entries.any (fun e => decide (e.1 = "__proto__")) then none
    else some (entries.foldl (fun data e => FormSubmission.getFormDataStep data e.1 e.2) [])

end ProgressTracker

/-! ## The submission endpoint of `server.js` -/

namespace Server

/-- A value of the parsed request body, as far as the endpoint looks at it: arrays
and objects are `composite`; a number is only tested against zero. -/
inductive BodyValue where
  | null
  | bool (b : Bool)
  | num (n : Int)
  | str (s : String)
  | composite
  deriving DecidableEq, Repr

/-- Whether a value is truthy. -/
def BodyValue.truthy : BodyValue → Bool
  | BodyValue.null => false
  | BodyValue.bool b => b
  | BodyValue.num n => decide (n ≠ 0)
  | BodyValue.str s => decide (s ≠ "")
  | BodyValue.composite => true

/-- The parsed request body `req.body`: the own properties of the object
`express.json()` made (for an array, none of the names read here). -/
abbrev RequestBody := List (String × BodyValue)

/-- The array `requiredFields`. -/
def requiredFields : List String :=
  ["organizationcompanyname", "coreproblemstatement", "targetaudiencebeneficiaries",
   "problemcategory", "desiredoutputsdeliverables", "successmetrics", "projectstartdate",
   "projectduration", "urgencylevel", "budgetrange", "paymentstructure", "workmode",
   "communicationfrequency", "experiencelevelrequired"]

/-- The test `!formData[field]` of the filter; no required name is inherited from
`Object.prototype`, so an absent property reads as `undefined`. -/
def isMissing (formData : RequestBody) (field : String) : Bool :=
  match formData.lookup field with
  | none => true
  | some v => !v.truthy

/-- The JSON body of a response, with its HTTP status. -/
structure Response where
  status : Nat
  success : Bool
  error : Option String
  missingFields : Option (List String)
  message : Option String
  submissionId : Option String
  clearLocalStorage : Option Bool
  deriving DecidableEq, Repr

/-- What the handler did: the response sent and the files written, in order. -/
structure Outcome where
  response : Response
  written : List String
  deriving DecidableEq, Repr

/-- The handler of `POST /api/submit-form` on a parsed body, given the identifier
generated, whether `fs.writeFile` of the submission file succeeds and whether
`appendToCSV`, which swallows its errors, writes. -/
def submitForm (formData : RequestBody) (generatedId : String) (writeFileOk csvOk : Bool) :
    Outcome :=
  let missingFields := requiredFields.filter (fun field => isMissing formData field)
  if missingFields.length > 0 then
    { response :=
        { status := 400, success := false, error := some "Missing required fields",
          missingFields := some missingFields, message := none, submissionId := none,
          clearLocalStorage := none },
      written := [] }
  else
    let filename := "submission-" ++ generatedId ++ ".json"
    if writeFileOk = false then
      { response :=
          { status := 500, success := false, error := some "Failed to process submission",
            missingFields := none, message := none, submissionId := none,
            clearLocalStorage := none },
        written := [] }
    else
      { response :=
          { status := 200, success := true, error := none, missingFields := none,
            message := some "Form submitted successfully",
            submissionId := some generatedId, clearLocalStorage := some true },
        written := if csvOk then [filename, "submissions.csv"] else [filename] }

end Server

/-! ## Concrete rows and pages used in the scenarios -/

/-- A wrapper as `generateFormGroup` renders it for a field shown at load: no
inline style yet. -/
def plainStyle : Style :=
  { display := "", opacity := "", transform := "", transition := "" }

/-- The row of Scenario B: eligible for standard complexity and the technical type. -/
def scenarioBField : FieldConfig :=
  [("form_label", "Integration"), ("is_universal", "FALSE"),
   ("complexity_standard", "TRUE"), ("type_technical", "TRUE")]

/-- A `select` named `problemcategory` holding the given value. -/
def categorySelect (value : String) : FormControl :=
  { kind := ControlKind.select, name := "problemcategory", value := value, checked := false }

/-- A page whose form has one section with the universal `problemcategory` field,
holding the given value, followed by the given wrappers. -/
def categoryDocument (value : String) (others : List FieldWrapper) : Document :=
  { hasForm := true,
    sections :=
      [{ display := "",
         content := some
           ({ fieldName := "problemcategory", dependsOn := none, dependsValues := none,
              style := plainStyle, controls := [categorySelect value] } :: others) }] }

/-- The row of Scenario C: shown for the categories Technical and Operational. -/
def scenarioCField : FieldConfig :=
  [("form_label", "Systems involved"), ("is_universal", "FALSE"),
   ("depends_on_field", "problemcategory"), ("depends_on_values", "Technical|Operational"),
   ("complexity_simple", "TRUE"), ("type_strategic", "TRUE")]

/-- A row with a dependency on `problemcategory` whose `depends_on_values` is empty. -/
def emptyValuesField : FieldConfig :=
  [("form_label", "Systems involved"), ("is_universal", "FALSE"),
   ("depends_on_field", "problemcategory"), ("depends_on_values", "")]

/-- A universal row that also depends on `problemcategory` being Technical. -/
def universalDependentField : FieldConfig :=
  [("form_label", "Systems involved"), ("is_universal", "TRUE"),
   ("depends_on_field", "problemcategory"), ("depends_on_values", "Technical")]

/-- The wrapper `generateFormGroup` renders for the label "Systems involved", a text
input, shown at load. -/
def systemsWrapper (value : String) : FieldWrapper :=
  { fieldName := "systemsinvolved", dependsOn := some "problemcategory",
    dependsValues := some "Technical|Operational", style := plainStyle,
    controls := [{ kind := ControlKind.input "text", name := "systemsinvolved",
                   value := value, checked := false }] }

/-- A resolver in its initial classification state (simple, strategic). -/
def initialLogic (formData : List FieldConfig) : AdaptiveConditionalLogic :=
  { formData := some formData, currentComplexity := some "simple",
    currentProjectType := "strategic" }

/-- A control is cleared: a checkbox or radio button is unchecked, any other
control has the empty value. -/
def FormControl.isCleared (c : FormControl) : Bool :=
  if c.kind.type = "checkbox" ∨ c.kind.type = "radio" then !c.checked
  else decide (c.value = "")

/-- The catalog row of the universal `problemcategory` field. -/
def categoryField : FieldConfig :=
  [("section_title", "Problem"), ("form_label", "Problem category"),
   ("is_universal", "TRUE")]

/-- The page as generated at load for the catalog `[categoryField, scenarioCField]`
with the two rows in different sections: nothing is chosen yet and both wrappers
are displayed. -/
def twoSectionPage : Page :=
  { doc :=
      { hasForm := true,
        sections :=
          [{ display := "",
             content := some
               [{ fieldName := "problemcategory", dependsOn := none, dependsValues := none,
                  style := plainStyle, controls := [categorySelect ""] }] },
           { display := "", content := some [systemsWrapper ""] }] },
    timers := [] }

/-- A wrapper that is not displayed although its text input holds a value. -/
def hiddenFilledWrapper : FieldWrapper :=
  { fieldName := "systemsinvolved", dependsOn := some "problemcategory",
    dependsValues := some "Technical|Operational",
    style := { display := "none", opacity := "", transform := "", transition := "" },
    controls := [{ kind := ControlKind.input "text", name := "systemsinvolved",
                   value := "SAP", checked := false }] }

/-- A radio button of the group `priority`. -/
def priorityRadio (value : String) (checked : Bool) : FormControl :=
  { kind := ControlKind.input "radio", name := "priority", value := value, checked := checked }

/-- A displayed wrapper of a radio group named `priority`. -/
def priorityWrapper (checkedHigh : Bool) : FieldWrapper :=
  { fieldName := "priority", dependsOn := none, dependsValues := none, style := plainStyle,
    controls := [priorityRadio "High" checkedHigh, priorityRadio "Low" false] }

/-- A page on which two catalog rows carry the label "Priority": both wrappers get
the name `priority`; the first group is unset, in the second "High" is checked. -/
def sharedNamePage : Page :=
  { doc :=
      { hasForm := true,
        sections :=
          [{ display := "", content := some [priorityWrapper false] },
           { display := "", content := some [priorityWrapper true] }] },
    timers := [] }

/-- A row labelled "Priority" with no flag set: hidden in every state. -/
def priorityField : FieldConfig :=
  [("form_label", "Priority"), ("is_universal", "FALSE")]

/-- The level a table maps a value to, simple when the value is not a key of it. -/
def mappedLevel (map : List (String × String)) (key : String) : String :=
  (map.lookup key).getD "simple"

/-- A text input with the given name and value. -/
def textInput (name value : String) : FormControl :=
  { kind := ControlKind.input "text", name := name, value := value, checked := false }

/-- A form whose budget and duration are free-text inputs holding the given values. -/
def budgetDurationDocument (budget duration : String) : Document :=
  { hasForm := true,
    sections :=
      [{ display := "",
         content := some
           [{ fieldName := "budgetrange", dependsOn := none, dependsValues := none,
              style := plainStyle, controls := [textInput "budgetrange" budget] },
            { fieldName := "projectduration", dependsOn := none, dependsValues := none,
              style := plainStyle, controls := [textInput "projectduration" duration] }] }] }

/-- The page after the pass at load on `twoSectionPage`. -/
def twoSectionPageAfterPass : Page :=
  match AdaptiveConditionalLogic.applyConditionalLogic
      (initialLogic [categoryField, scenarioCField]) twoSectionPage with
  | Except.ok pg => pg
  | Except.error _ => twoSectionPage

/-- A row shown only for simple complexity and the technical project type. -/
def apiDetailsField : FieldConfig :=
  [("form_label", "API details"), ("is_universal", "FALSE"),
   ("complexity_simple", "TRUE"), ("type_technical", "TRUE")]

/-- The catalog row of the universal `budgetrange` field. -/
def budgetField : FieldConfig :=
  [("form_label", "Budget range"), ("is_universal", "TRUE")]

/-- The page after the form was reset and "Under $5K" was then chosen as budget:
the category is unset, and the field "API details", shown earlier for the technical
project type, is still displayed. -/
def afterResetPage : Page :=
  { doc :=
      { hasForm := true,
        sections :=
          [{ display := "block",
             content := some
               [{ fieldName := "budgetrange", dependsOn := none, dependsValues := none,
                  style := plainStyle,
                  controls := [{ kind := ControlKind.select, name := "budgetrange",
                                 value := "Under $5K", checked := false }] },
                { fieldName := "problemcategory", dependsOn := none, dependsValues := none,
                  style := plainStyle, controls := [categorySelect ""] },
                { fieldName := "apidetails", dependsOn := none, dependsValues := none,
                  style := { display := "block", opacity := "1", transform := "translateY(0)",
                             transition := "all 0.3s ease" },
                  controls := [textInput "apidetails" ""] }] }] },
    timers := [] }

/-- The resolver as the choices made before the reset left it: state (simple,
technical). -/
def staleTypeLogic : AdaptiveConditionalLogic :=
  { formData := some [budgetField, categoryField, apiDetailsField],
    currentComplexity := some "simple", currentProjectType := "technical" }

/-- What the synchronous part of `showField` does to the wrapper it is given. -/
def showEffect (w : FieldWrapper) : FieldWrapper :=
  if w.style.display = "block" ∨ w.style.display = "" then w
  else
    { w with style :=
        { w.style with display := "block", opacity := "0",
                       transform := "translateY(10px)" } }

/-- What the synchronous part of `hideField` does to the wrapper it is given. -/
def hideEffect (w : FieldWrapper) : FieldWrapper :=
  if w.style.display = "none" then w
  else
    { w with style :=
        { w.style with transition := "all 0.3s ease", opacity := "0",
                       transform := "translateY(-10px)" } }

/-- What `applyFieldLogic` does to the wrapper it is given, for a decision. -/
def fieldLogicEffect (decision : Bool) (w : FieldWrapper) : FieldWrapper :=
  if decision then showEffect w else hideEffect w

/-- The wrapper a pending callback acts on. -/
def TimerTask.target : TimerTask → FieldRef
  | TimerTask.showDone ref => ref
  | TimerTask.hideDone ref => ref

/-- The wrapper of "Systems involved" once hidden: not displayed, its input empty. -/
def hiddenSystemsWrapper : FieldWrapper :=
  { fieldName := "systemsinvolved", dependsOn := some "problemcategory",
    dependsValues := some "Technical|Operational",
    style := { display := "none", opacity := "0", transform := "translateY(-10px)",
               transition := "all 0.3s ease" },
    controls := [textInput "systemsinvolved" ""] }

/-- A resolver whose `initialize` has not run: `formData` is still `null`. -/
def uninitializedLogic : AdaptiveConditionalLogic :=
  { formData := none, currentComplexity := some "simple", currentProjectType := "strategic" }

/-- A universal row whose label has no letter or digit, shown for the Technical
category. -/
def symbolLabelField : FieldConfig :=
  [("form_label", "#"), ("is_universal", "TRUE"),
   ("depends_on_field", "problemcategory"), ("depends_on_values", "Technical")]

/-- The wrapper `generateFormGroup` renders for the label "#": the derived field
name is empty; it is not displayed. -/
def symbolLabelWrapper : FieldWrapper :=
  { fieldName := "", dependsOn := some "problemcategory", dependsValues := some "Technical",
    style := { display := "none", opacity := "0", transform := "translateY(-10px)",
               transition := "all 0.3s ease" },
    controls := [textInput "" ""] }

/-- The page after the change of the category to Technical was handled, on the form
holding the hidden field "Systems involved". -/
def afterCategoryChangePage : Page :=
  match AdaptiveConditionalLogic.handleFieldChange (initialLogic [categoryField, scenarioCField])
      { doc := categoryDocument "Technical" [hiddenSystemsWrapper], timers := [] }
      "problemcategory" with
  | Except.ok pg => pg
  | Except.error _ => { doc := categoryDocument "Technical" [hiddenSystemsWrapper], timers := [] }

/-- The text of a line: the segments, each followed by a comma, then the remainder. -/
def joinSegments (segments : List (List Char)) (remainder : List Char) : List Char :=
  segments.foldr (fun seg acc => seg ++ ',' :: acc) remainder

/-- The lines after the first that `parseCSV` does not skip, trimmed, in order. -/
def nonBlankLines (dataLines : List (List Char)) : List (List Char) :=
  (dataLines.map jsTrimChars).filter (fun line => decide (line ≠ []))

/-- A row shown for the Technical category, for complex projects only. -/
def complexOnlyDependentField : FieldConfig :=
  [("form_label", "Systems involved"), ("is_universal", "FALSE"),
   ("depends_on_field", "problemcategory"), ("depends_on_values", "Technical|Operational"),
   ("complexity_complex", "TRUE"), ("type_technical", "TRUE")]

/-- The first row of a dependency chain: shown for complex projects only. -/
def lockInField : FieldConfig :=
  [("form_label", "Vendor lock-in"), ("is_universal", "FALSE"),
   ("complexity_complex", "TRUE"), ("type_strategic", "TRUE")]

/-- The second row of the chain: universal, shown when "Vendor lock-in" is "Yes". -/
def lockInDetailsField : FieldConfig :=
  [("form_label", "Lock-in details"), ("is_universal", "TRUE"),
   ("depends_on_field", "vendorlockin"), ("depends_on_values", "Yes")]

/-- A page on which both fields of the chain are displayed and "Vendor lock-in" holds
"Yes", as left by a complex project. -/
def chainPage : Page :=
  { doc :=
      { hasForm := true,
        sections :=
          [{ display := "block",
             content := some
               [{ fieldName := "vendorlockin", dependsOn := none, dependsValues := none,
                  style := { display := "block", opacity := "1", transform := "translateY(0)",
                             transition := "all 0.3s ease" },
                  controls := [{ kind := ControlKind.select, name := "vendorlockin",
                                 value := "Yes", checked := false }] },
                { fieldName := "lockindetails", dependsOn := some "vendorlockin",
                  dependsValues := some "Yes",
                  style := { display := "block", opacity := "1", transform := "translateY(0)",
                             transition := "all 0.3s ease" },
                  controls := [textInput "lockindetails" "Contract until 2030"] }] }] },
    timers := [] }

/-- The page once the first pass on `chainPage` in the state (simple, strategic) and
its callbacks have run. -/
def chainPageAfterFirstPass : Page :=
  match AdaptiveConditionalLogic.applyConditionalLogic
      (initialLogic [lockInField, lockInDetailsField]) chainPage with
  | Except.ok pg => AdaptiveConditionalLogic.runTimers pg
  | Except.error _ => chainPage

/-- A checkbox of the group `skills`. -/
def skillBox (value : String) (checked : Bool) : FormControl :=
  { kind := ControlKind.input "checkbox", name := "skills", value := value, checked := checked }

/-- A form with the checkbox group `skills`, two boxes checked. -/
def skillsDocument : Document :=
  { hasForm := true,
    sections :=
      [{ display := "",
         content := some
           [{ fieldName := "skills", dependsOn := none, dependsValues := none,
              style := plainStyle,
              controls := [skillBox "Python" true, skillBox "SQL" true, skillBox "Go" false] }] }] }

/-- A row depending on the checkbox group `skills`. -/
def skillsDependentField : FieldConfig :=
  [("form_label", "Data tooling"), ("is_universal", "TRUE"),
   ("depends_on_field", "skills"), ("depends_on_values", "Python|SQL")]

/-- A submit button as `generateSubmitSection` renders it. -/
def freshSubmitButton : FormSubmission.SubmitButton :=
  { disabled := false, textContent := "Submit Problem Statement", spinner := false }

/-- An empty storage. -/
def emptyStorage : FormSubmission.LocalStorage :=
  { submissions := [], formData := none, formTimestamp := none }

/-- The module at rest on a page with the submit button, with one submission saved
earlier and the form saved by the auto-save. -/
def idleSubmitState : FormSubmission.SubmitState :=
  { isSubmitting := false, submitBtn := some freshSubmitButton,
    storage :=
      { submissions := [[("organizationcompanyname", FormValue.single "Earlier Ltd")]],
        formData := some "saved", formTimestamp := some "2024-01-01T00:00:00.000Z" },
    log := [] }

/-- A call of `handleSubmit` under way: the flag is set and the button shows the
loading state. -/
def busySubmitState : FormSubmission.SubmitState :=
  { isSubmitting := true,
    submitBtn := some { disabled := true, textContent := " Submitting...", spinner := true },
    storage := emptyStorage, log := [] }

/-- A form mapping with a field named `status`. -/
def statusFormData : FormMapping :=
  [("organizationcompanyname", FormValue.single "Acme"), ("status", FormValue.single "Draft")]

/-- The server is reached by the probe but the `POST` is rejected by the network. -/
def postFailsEnv : FormSubmission.SubmitEnv :=
  { formData := statusFormData, health := FormSubmission.HealthOutcome.ok,
    post := FormSubmission.PostOutcome.rejected "Failed to fetch",
    generatedId := "lq1abcd", now := "2024-05-01T10:00:00.000Z" }

/-- The probe fails. -/
def probeFailsEnv : FormSubmission.SubmitEnv :=
  { formData := statusFormData, health := FormSubmission.HealthOutcome.failed,
    post := FormSubmission.PostOutcome.notJson,
    generatedId := "lq1abcd", now := "2024-05-01T10:00:00.000Z" }

/-- A request body holding a non-empty string for each of the required fields. -/
def completeBody : Server.RequestBody :=
  Server.requiredFields.map (fun field => (field, Server.BodyValue.str "x"))

/-- A request body without a budget range and with an empty problem category. -/
def incompleteBody : Server.RequestBody :=
  (completeBody.filter (fun kv => decide (kv.1 ≠ "budgetrange"))).map
    (fun kv => if kv.1 = "problemcategory" then (kv.1, Server.BodyValue.str "") else kv)

/-- The characters of `pieces.join(sep)` for a one-character separator. -/
def joinChars (sep : Char) : List (List Char) → List Char
  | [] => []
  | [x] => x
  | x :: y :: rest => x ++ sep :: joinChars sep (y :: rest)

/-- A header or value of clean data: no comma, no line break, and no white space at
either end. -/
def isCleanText (s : String) : Bool :=
  decide (',' ∉ s.data) && decide ('\n' ∉ s.data) && decide ('\r' ∉ s.data) &&
  (match s.data.head? with
    | some c => !isJsWhitespace c
    | none => true) &&
  (match s.data.getLast? with
    | some c => !isJsWhitespace c
    | none => true)

/-- The text of a catalog: the comma-joined header line, then the comma-joined rows,
one per line. -/
def catalogText (headers : List String) (rows : List (List String)) : String :=
  jsJoin "\n" (jsJoin "," headers :: rows.map (jsJoin ","))

/-- The values of the entries of one name, in entry order. -/
def valuesOf (entries : List (String × String)) (name : String) : List String :=
  (entries.filter (fun e => decide (e.1 = name))).map Prod.snd

/-- What a flat mapping holds for a name with the given values: nothing for no
value, the value itself for one, the list of the values for more. -/
def collectedValue : List String → Option FormValue
  | [] => none
  | [v] => some (FormValue.single v)
  | values => some (FormValue.list (values.map FormItem.str))

/-- The text a"b: the letter a, a double quote, the letter b. -/
def quotedName : String :=
  String.mk ['a', Char.ofNat 0x22, 'b']

/-- A row whose `depends_on_field` is the text a"b. -/
def quotedNameField : FieldConfig :=
  [("form_label", "Systems"), ("is_universal", "TRUE"),
   ("depends_on_field", quotedName), ("depends_on_values", "Technical")]

end TalentHub

/-! ## Theorems -/

namespace TalentHub

open ComplexityCalculator AdaptiveConditionalLogic

/-- C1: the show/hide decision of `applyFieldLogic` is the conjunction of the
classification gate `shouldShowField` and the dependency gate
`checkTraditionalConditionalLogic`: the field is shown exactly when both are true,
and hidden otherwise. -/
theorem applyFieldLogic_decision_is_conjunction (self : AdaptiveConditionalLogic)
    (pg : Page) (fieldElement : FieldRef) (fieldConfig : FieldConfig) :
    (shouldShow self pg.doc fieldConfig = true ↔
      (shouldShowField fieldConfig (templateString self.currentComplexity)
          self.currentProjectType = true ∧
        checkTraditionalConditionalLogic pg.doc fieldConfig = true)) ∧
    applyFieldLogic self pg fieldElement fieldConfig =
      (if shouldShowField fieldConfig (templateString self.currentComplexity)
            self.currentProjectType = true ∧
          checkTraditionalConditionalLogic pg.doc fieldConfig = true
       then showField pg fieldElement else hideField pg fieldElement) := by
  have h : shouldShow self pg.doc fieldConfig = true ↔
      (shouldShowField fieldConfig (templateString self.currentComplexity)
          self.currentProjectType = true ∧
        checkTraditionalConditionalLogic pg.doc fieldConfig = true) := by
    simp [shouldShow]
  refine ⟨h, ?_⟩
  unfold applyFieldLogic
  by_cases hs : shouldShow self pg.doc fieldConfig = true
  · rw [if_pos hs, if_pos (h.mp hs)]
  · rw [if_neg hs, if_neg (fun hc => hs (h.mpr hc))]

/-- C2: `shouldShowField` is true exactly when `is_universal` is "TRUE", or both
the flag `complexity_<c>` and the flag `type_<t>` are "TRUE"; the row of
Scenario B is visible in state (standard, technical) and not in (standard,
strategic). -/
theorem shouldShowField_iff_universal_or_both_flags (fieldConfig : FieldConfig)
    (c t : String) :
    (shouldShowField fieldConfig c t = true ↔
      (fieldConfig.get "is_universal" = some "TRUE" ∨
        (fieldConfig.get ("complexity_" ++ c) = some "TRUE" ∧
          fieldConfig.get ("type_" ++ t) = some "TRUE"))) ∧
    shouldShowField scenarioBField "standard" "technical" = true ∧
    shouldShowField scenarioBField "standard" "strategic" = false := by
  refine ⟨?_, by decide, by decide⟩
  unfold shouldShowField
  by_cases hu : fieldConfig.get "is_universal" = some "TRUE"
  · simp [hu]
  · simp [hu]

/-- C3: on the budget "constructor" and the duration "constructor" neither lookup
is defaulted to simple (both read a member inherited from `Object.prototype`), the
index computed is -1 and `calculateComplexity` returns `undefined`, while the
documented pair of Scenario A gives complex. -/
theorem calculateComplexity_inherited_key_undefined :
    lookupProperty budgetComplexityMap "constructor" = MapValue.inherited "constructor" ∧
    max (indexOfLevel (orSimple (lookupProperty budgetComplexityMap "constructor")))
        (indexOfLevel (orSimple (lookupProperty durationComplexityMap "constructor"))) = -1 ∧
    calculateComplexity "constructor" "constructor" = none ∧
    calculateComplexity "$5K-15K" "6-12 months" = some "complex" := by
  decide

/-- The dependency gate when a referenced control is found: membership of its
current value in `requiredValues`. -/
theorem checkTraditionalConditionalLogic_of_found (doc : Document)
    (fieldConfig : FieldConfig) (dependsOn : String) (field : FormControl)
    (hdep : fieldConfig.get "depends_on_field" = some dependsOn) (hne : dependsOn ≠ "")
    (hform : doc.hasForm = true) (hfield : doc.queryByName dependsOn = some field) :
    checkTraditionalConditionalLogic doc fieldConfig =
      decide (getFieldValue doc field ∈ requiredValues fieldConfig) := by
  unfold checkTraditionalConditionalLogic
  simp [hdep, hne, hform, hfield]

/-- The dependency gate of a row without a dependency. -/
theorem checkTraditionalConditionalLogic_of_no_dependency (doc : Document)
    (fieldConfig : FieldConfig)
    (hdep : fieldConfig.get "depends_on_field" = none ∨
      fieldConfig.get "depends_on_field" = some "") :
    checkTraditionalConditionalLogic doc fieldConfig = true := by
  unfold checkTraditionalConditionalLogic
  rcases hdep with h | h <;> simp [h]

/-- The dependency gate when the form or the referenced control is missing. -/
theorem checkTraditionalConditionalLogic_of_missing (doc : Document)
    (fieldConfig : FieldConfig) (dependsOn : String)
    (hdep : fieldConfig.get "depends_on_field" = some dependsOn) (hne : dependsOn ≠ "")
    (hmissing : doc.hasForm = false ∨ doc.queryByName dependsOn = none) :
    checkTraditionalConditionalLogic doc fieldConfig = false := by
  unfold checkTraditionalConditionalLogic
  rcases hmissing with h | h
  · simp [hdep, hne, h]
  · by_cases hf : doc.hasForm = false
    · simp [hdep, hne, hf]
    · simp [hdep, hne, hf, h]

/-- C4 (as stated, refuted): with an empty `depends_on_values` and an empty current
value of the referenced field, the value is a member of the split of
`depends_on_values` on the bar, yet the dependency gate is false. -/
theorem dependency_gate_empty_values_counterexample :
    emptyValuesField.get "depends_on_field" = some "problemcategory" ∧
    (categoryDocument "" []).queryByName "problemcategory" = some (categorySelect "") ∧
    getFieldValue (categoryDocument "" []) (categorySelect "") ∈
      jsSplit '|' ((emptyValuesField.get "depends_on_values").getD "") ∧
    checkTraditionalConditionalLogic (categoryDocument "" []) emptyValuesField = false := by
  decide

/-- C4 (amended): for a row whose `depends_on_field` names a control found in the
form, the dependency gate is true exactly when `depends_on_values` is non-empty and
the current value of that control is one of its pieces split on the bar; the
current value is the literal value of a single-valued control, the value of the
first checked input of that name for a radio button, and the bar-joined values of
the checked inputs of that name for a checkbox; with `problemcategory` and
"Technical|Operational" the value "Strategic" makes the gate false. -/
theorem dependency_gate_iff_value_listed (doc : Document) (fieldConfig : FieldConfig)
    (dependsOn : String) (field : FormControl)
    (hdep : fieldConfig.get "depends_on_field" = some dependsOn) (hne : dependsOn ≠ "")
    (hform : doc.hasForm = true) (hfield : doc.queryByName dependsOn = some field) :
    (checkTraditionalConditionalLogic doc fieldConfig = true ↔
      ∃ v, fieldConfig.get "depends_on_values" = some v ∧ v ≠ "" ∧
        getFieldValue doc field ∈ jsSplit '|' v) ∧
    (field.kind.type ≠ "radio" → field.kind.type ≠ "checkbox" →
      getFieldValue doc field = field.value) ∧
    (field.kind.type = "radio" →
      getFieldValue doc field =
        ((doc.controls.find? (fun c => c.isCheckedInput && decide (c.name = field.name))).map
          FormControl.value).getD "") ∧
    (field.kind.type = "checkbox" →
      getFieldValue doc field =
        jsJoin "|" ((doc.controls.filter
          (fun c => c.isCheckedInput && decide (c.name = field.name))).map FormControl.value)) ∧
    (fieldConfig.get "depends_on_values" = some "Technical|Operational" →
      getFieldValue doc field = "Strategic" →
      checkTraditionalConditionalLogic doc fieldConfig = false) := by
  have hgate := checkTraditionalConditionalLogic_of_found doc fieldConfig dependsOn field
    hdep hne hform hfield
  refine ⟨?_, ?_, ?_, ?_, ?_⟩
  · rw [hgate]
    unfold requiredValues
    cases hv : fieldConfig.get "depends_on_values" with
    | none => simp
    | some v =>
      by_cases hempty : v = ""
      · simp [hempty]
      · simp [hempty]
  · intro h1 h2
    simp [getFieldValue, h1, h2]
  · intro h1
    unfold getFieldValue
    rw [if_pos h1]
    cases doc.controls.find? (fun c => c.isCheckedInput && decide (c.name = field.name)) <;> rfl
  · intro h1
    have h2 : field.kind.type ≠ "radio" := by rw [h1]; decide
    simp [getFieldValue, h1]
  · intro hv hcur
    rw [hgate, hcur]
    unfold requiredValues
    rw [hv]
    decide

/-- C4 (amended), witness: Scenario C with the category set to Strategic. -/
theorem dependency_gate_iff_value_listed_witness :
    checkTraditionalConditionalLogic (categoryDocument "Strategic" []) scenarioCField = false :=
  (dependency_gate_iff_value_listed (categoryDocument "Strategic" []) scenarioCField
    "problemcategory" (categorySelect "Strategic") (by decide) (by decide) (by decide)
    (by decide)).2.2.2.2 (by decide) (by decide)

/-- Where a call of `checkTraditionalConditionalLogic` returns, it returns the value
of the dependency gate. -/
theorem checkTraditionalConditionalLogic_of_outcome (doc : Document)
    (fieldConfig : FieldConfig) (result : Bool)
    (h : checkTraditionalConditionalLogicOutcome doc fieldConfig = some (Except.ok result)) :
    checkTraditionalConditionalLogic doc fieldConfig = result := by
  unfold checkTraditionalConditionalLogicOutcome at h
  unfold checkTraditionalConditionalLogic
  cases hdep : fieldConfig.get "depends_on_field" with
  | none =>
    simp only [hdep, Option.some.injEq, Except.ok.injEq] at h
    exact h
  | some dependsOn =>
    simp only [hdep] at h ⊢
    by_cases hne : dependsOn = ""
    · simp only [hne, if_true, Option.some.injEq, Except.ok.injEq] at h
      simp only [hne, if_true]
      exact h
    · cases hf : doc.hasForm with
      | false =>
        simp only [hne, if_false, hf, if_true, Option.some.injEq, Except.ok.injEq] at h
        simp only [hne, if_false, if_true]
        exact h
      | true =>
        simp only [hne, if_false, hf, Bool.true_eq_false] at h ⊢
        cases hsel : selectorReading dependsOn with
        | literal =>
          simp only [hsel] at h
          cases hq : doc.queryByName dependsOn with
          | none =>
            simp only [hq, Option.some.injEq, Except.ok.injEq] at h
            exact h
          | some dependsOnField =>
            simp only [hq, Option.some.injEq, Except.ok.injEq] at h
            exact h
        | syntaxError =>
          simp only [hsel, Option.some.injEq] at h
          exact Except.noConfusion h
        | other =>
          simp only [hsel] at h
          exact Option.noConfusion h

/-- When a row has `depends_on_field` set, and either the form is missing or the
selector holds the referenced name literally and no control bears that name, the
call of `checkTraditionalConditionalLogic` returns false without an error, and the
resolver decides to hide the field in every classification state; the step of the
pass on that row ends without an error, with `hideField` applied. -/
theorem dependency_missing_fails_closed (doc : Document) (fieldConfig : FieldConfig)
    (dependsOn : String)
    (hdep : fieldConfig.get "depends_on_field" = some dependsOn) (hne : dependsOn ≠ "")
    (hmissing : doc.hasForm = false ∨
      (selectorReading dependsOn = SelectorReading.literal ∧
        doc.queryByName dependsOn = none)) :
    checkTraditionalConditionalLogicOutcome doc fieldConfig = some (Except.ok false) ∧
    checkTraditionalConditionalLogic doc fieldConfig = false ∧
    ∀ (self : AdaptiveConditionalLogic),
      shouldShow self doc fieldConfig = false ∧
      ∀ (timers : List TimerTask) (fieldElement : FieldRef),
        applyFieldLogic self { doc := doc, timers := timers } fieldElement fieldConfig =
          hideField { doc := doc, timers := timers } fieldElement ∧
        ∀ (label : String), fieldConfig.get "form_label" = some label →
          findFieldElement doc label = some fieldElement →
          applyConditionalLogicStep self { doc := doc, timers := timers } fieldConfig =
            Except.ok (hideField { doc := doc, timers := timers } fieldElement) := by
  have houtcome : checkTraditionalConditionalLogicOutcome doc fieldConfig =
      some (Except.ok false) := by
    unfold checkTraditionalConditionalLogicOutcome
    rcases hmissing with h | ⟨hsel, hq⟩
    · simp [hdep, hne, h]
    · by_cases hf : doc.hasForm = false
      · simp [hdep, hne, hf]
      · simp [hdep, hne, hf, hsel, hq]
  have hgate := checkTraditionalConditionalLogic_of_outcome doc fieldConfig false houtcome
  refine ⟨houtcome, hgate, fun self => ?_⟩
  have hs : shouldShow self doc fieldConfig = false := by
    simp [shouldShow, hgate]
  refine ⟨hs, fun timers fieldElement => ?_⟩
  have happly : applyFieldLogic self { doc := doc, timers := timers } fieldElement
      fieldConfig = hideField { doc := doc, timers := timers } fieldElement := by
    simp [applyFieldLogic, hs]
  refine ⟨happly, fun label hlabel hfound => ?_⟩
  unfold applyConditionalLogicStep
  simp only [hlabel, hfound, happly]

/-- Scenario C's row on a page without the form, and on a form without a
`problemcategory` control: the gate is false. -/
theorem dependency_missing_fails_closed_scenario :
    checkTraditionalConditionalLogic { hasForm := false, sections := [] } scenarioCField = false ∧
    checkTraditionalConditionalLogic
      { hasForm := true, sections := [{ display := "", content := some [systemsWrapper ""] }] }
      scenarioCField = false :=
  ⟨(dependency_missing_fails_closed { hasForm := false, sections := [] } scenarioCField
      "problemcategory" (by decide) (by decide) (Or.inl rfl)).2.1,
   (dependency_missing_fails_closed
      { hasForm := true, sections := [{ display := "", content := some [systemsWrapper ""] }] }
      scenarioCField "problemcategory" (by decide) (by decide)
      (Or.inr ⟨by decide, by decide⟩)).2.1⟩

/-- C5: for a row whose `depends_on_field` is the text a"b, on a form none of
whose controls bears that name, the call of `checkTraditionalConditionalLogic`
does not return false: `form.querySelector` throws a `SyntaxError` on the selector
text [name="a"b"], which closes its string after the letter a. -/
theorem dependency_unsafe_name_throws :
    quotedNameField.get "depends_on_field" = some quotedName ∧
    quotedName.data = ['a', Char.ofNat 0x22, 'b'] ∧
    (categoryDocument "Technical" []).hasForm = true ∧
    (categoryDocument "Technical" []).queryByName quotedName = none ∧
    selectorReading quotedName = SelectorReading.syntaxError ∧
    checkTraditionalConditionalLogicOutcome (categoryDocument "Technical" [])
      quotedNameField = some (Except.error JSError.syntaxError) :=
  ⟨by decide, by decide, by decide, by decide, by decide, rfl⟩

/-- C6: for a row whose `depends_on_field` is absent or empty the dependency gate
is true on every page, so the decision of the resolver is the classification gate:
such a field is hidden only when `shouldShowField` is false. -/
theorem no_dependency_gate_true (fieldConfig : FieldConfig)
    (hdep : fieldConfig.get "depends_on_field" = none ∨
      fieldConfig.get "depends_on_field" = some "") :
    ∀ (doc : Document),
      checkTraditionalConditionalLogic doc fieldConfig = true ∧
      ∀ (self : AdaptiveConditionalLogic),
        shouldShow self doc fieldConfig =
          shouldShowField fieldConfig (templateString self.currentComplexity)
            self.currentProjectType ∧
        (shouldShow self doc fieldConfig = false →
          shouldShowField fieldConfig (templateString self.currentComplexity)
            self.currentProjectType = false) := by
  intro doc
  have hgate := checkTraditionalConditionalLogic_of_no_dependency doc fieldConfig hdep
  refine ⟨hgate, fun self => ?_⟩
  have hs : shouldShow self doc fieldConfig =
      shouldShowField fieldConfig (templateString self.currentComplexity)
        self.currentProjectType := by
    simp [shouldShow, hgate]
  exact ⟨hs, fun h => by rw [← hs]; exact h⟩

/-- C6, witness: the row of Scenario B, which has no dependency, on a page
without the form, in the state (standard, technical). -/
theorem no_dependency_gate_true_witness :
    checkTraditionalConditionalLogic { hasForm := false, sections := [] } scenarioBField = true ∧
    shouldShow { formData := none, currentComplexity := some "standard",
                 currentProjectType := "technical" }
      { hasForm := false, sections := [] } scenarioBField = true :=
  have h := no_dependency_gate_true scenarioBField (Or.inl (by decide))
    { hasForm := false, sections := [] }
  ⟨h.1, by rw [(h.2 _).1]; decide⟩

/-- The classification gate of a universal row. -/
theorem shouldShowField_of_universal (fieldConfig : FieldConfig) (c t : String)
    (huniv : fieldConfig.get "is_universal" = some "TRUE") :
    shouldShowField fieldConfig c t = true := by
  simp [shouldShowField, huniv]

/-- C7 (as stated, refuted): a universal row that depends on `problemcategory`
being Technical, on a form whose category is Strategic: the resolver decides to
hide the field, and once the callback has run the wrapper is not displayed. -/
theorem universal_field_hidden_counterexample :
    universalDependentField.get "is_universal" = some "TRUE" ∧
    shouldShow (initialLogic [universalDependentField])
      (categoryDocument "Strategic" [systemsWrapper ""]) universalDependentField = false ∧
    applyFieldLogic (initialLogic [universalDependentField])
        { doc := categoryDocument "Strategic" [systemsWrapper ""], timers := [] } (0, 1)
        universalDependentField =
      hideField { doc := categoryDocument "Strategic" [systemsWrapper ""], timers := [] }
        (0, 1) ∧
    ((runTimers (applyFieldLogic (initialLogic [universalDependentField])
        { doc := categoryDocument "Strategic" [systemsWrapper ""], timers := [] } (0, 1)
        universalDependentField)).doc.wrapperAt (0, 1)).map (fun w => w.style.display) =
      some "none" := by
  decide

/-- C7 (amended): for a row whose `is_universal` is "TRUE" the classification gate
is true in every classification state, so the decision of the resolver is the
dependency gate alone; when the row has no `depends_on_field` the decision is to
show, in every classification state and on every page. -/
theorem universal_field_decision (fieldConfig : FieldConfig)
    (huniv : fieldConfig.get "is_universal" = some "TRUE") :
    ∀ (self : AdaptiveConditionalLogic) (pg : Page) (fieldElement : FieldRef),
      shouldShowField fieldConfig (templateString self.currentComplexity)
        self.currentProjectType = true ∧
      shouldShow self pg.doc fieldConfig = checkTraditionalConditionalLogic pg.doc fieldConfig ∧
      ((fieldConfig.get "depends_on_field" = none ∨
          fieldConfig.get "depends_on_field" = some "") →
        shouldShow self pg.doc fieldConfig = true ∧
        applyFieldLogic self pg fieldElement fieldConfig = showField pg fieldElement) := by
  intro self pg fieldElement
  have hgate := shouldShowField_of_universal fieldConfig
    (templateString self.currentComplexity) self.currentProjectType huniv
  have hs : shouldShow self pg.doc fieldConfig =
      checkTraditionalConditionalLogic pg.doc fieldConfig := by
    simp [shouldShow, hgate]
  refine ⟨hgate, hs, fun hdep => ?_⟩
  have hshow : shouldShow self pg.doc fieldConfig = true := by
    rw [hs]
    exact checkTraditionalConditionalLogic_of_no_dependency pg.doc fieldConfig hdep
  exact ⟨hshow, by simp [applyFieldLogic, hshow]⟩

/-- C7 (amended), witness: a universal row without a dependency is shown in the
state (complex, operational) on a page without the form. -/
theorem universal_field_decision_witness :
    shouldShow { formData := none, currentComplexity := some "complex",
                 currentProjectType := "operational" }
      { hasForm := false, sections := [] }
      [("form_label", "Problem category"), ("is_universal", "TRUE")] = true :=
  ((universal_field_decision [("form_label", "Problem category"), ("is_universal", "TRUE")]
    (by decide)
    { formData := none, currentComplexity := some "complex",
      currentProjectType := "operational" }
    { doc := { hasForm := false, sections := [] }, timers := [] } (0, 0)).2.2
    (Or.inl (by decide))).1

/-- C8: for a row that is not universal, in any state (c, t) (any two strings), if
the flag `complexity_<c>` or the flag `type_<t>` is absent or is not "TRUE" then
`shouldShowField` is false and the resolver decides to hide the field. -/
theorem missing_flag_hides (fieldConfig : FieldConfig) (c t : String)
    (hnot : fieldConfig.get "is_universal" ≠ some "TRUE")
    (hflag : fieldConfig.get ("complexity_" ++ c) ≠ some "TRUE" ∨
      fieldConfig.get ("type_" ++ t) ≠ some "TRUE") :
    shouldShowField fieldConfig c t = false ∧
    ∀ (formData : Option (List FieldConfig)) (pg : Page) (fieldElement : FieldRef),
      shouldShow { formData := formData, currentComplexity := some c,
                   currentProjectType := t } pg.doc fieldConfig = false ∧
      applyFieldLogic { formData := formData, currentComplexity := some c,
                        currentProjectType := t } pg fieldElement fieldConfig =
        hideField pg fieldElement := by
  have hgate : shouldShowField fieldConfig c t = false := by
    unfold shouldShowField
    rcases hflag with h | h <;> simp [hnot, h]
  refine ⟨hgate, fun formData pg fieldElement => ?_⟩
  have hs : shouldShow { formData := formData, currentComplexity := some c,
                         currentProjectType := t } pg.doc fieldConfig = false := by
    simp [shouldShow, templateString, hgate]
  exact ⟨hs, by simp [applyFieldLogic, hs]⟩

/-- C8, witness: the row of Scenario B has no flag for a project type outside the
three documented ones, so it is hidden in the state (standard, financial). -/
theorem missing_flag_hides_witness :
    shouldShowField scenarioBField "standard" "financial" = false :=
  (missing_flag_hides scenarioBField "standard" "financial" (by decide)
    (Or.inr (by decide))).1

/-- C9 (as stated, refuted): (1) a field that is already not displayed and holds
the value "SAP": the resolver decides to hide it, `hideField` returns at its guard
without registering the callback, and the value is still read as "SAP"; (2) two
radio groups sharing the name `priority`: the resolver hides the first, its buttons
are unchecked once the callback has run, yet `getFieldValue` on a button of the
hidden field reads "High", the value checked in the other group. -/
theorem hidden_field_value_counterexample :
    (shouldShow (initialLogic [scenarioCField]) (categoryDocument "" [hiddenFilledWrapper])
        scenarioCField = false ∧
      applyFieldLogic (initialLogic [scenarioCField])
          { doc := categoryDocument "" [hiddenFilledWrapper], timers := [] } (0, 1)
          scenarioCField =
        { doc := categoryDocument "" [hiddenFilledWrapper], timers := [] } ∧
      ((runTimers (applyFieldLogic (initialLogic [scenarioCField])
          { doc := categoryDocument "" [hiddenFilledWrapper], timers := [] } (0, 1)
          scenarioCField)).doc.wrapperAt (0, 1)).map
        (fun w => w.controls.map
          (getFieldValue (categoryDocument "" [hiddenFilledWrapper]))) = some ["SAP"]) ∧
    (shouldShow (initialLogic [priorityField]) sharedNamePage.doc priorityField = false ∧
      findFieldElement sharedNamePage.doc "Priority" = some (0, 0) ∧
      ((runTimers (applyFieldLogic (initialLogic [priorityField]) sharedNamePage (0, 0)
          priorityField)).doc.wrapperAt (0, 0)).map
        (fun w => (w.style.display, w.controls.map FormControl.isCleared)) =
          some ("none", [true, true]) ∧
      ((runTimers (applyFieldLogic (initialLogic [priorityField]) sharedNamePage (0, 0)
          priorityField)).doc.wrapperAt (0, 0)).map
        (fun w => w.controls.map
          (getFieldValue (runTimers (applyFieldLogic (initialLogic [priorityField])
            sharedNamePage (0, 0) priorityField)).doc)) = some ["High", "High"]) := by
  decide

/-- C10: on the page generated for a category field and, in a second section, a
field depending on it, with no category chosen, the pass resolves the dependent
field to hidden, yet leaves its section displayed as a block; once the pending
callbacks have run the field is not displayed and its section still is. -/
theorem section_left_shown_with_all_fields_hidden :
    shouldShow (initialLogic [categoryField, scenarioCField]) twoSectionPage.doc
      scenarioCField = false ∧
    (applyConditionalLogic (initialLogic [categoryField, scenarioCField])
        twoSectionPage).toOption.map
      (fun pg => pg.doc.sections.map
        (fun s => (s.display, s.wrappers.map (fun w => w.style.display)))) =
      some [("block", [""]), ("block", [""])] ∧
    (applyConditionalLogic (initialLogic [categoryField, scenarioCField])
        twoSectionPage).toOption.map
      (fun pg => (runTimers pg).doc.sections.map
        (fun s => (s.display, s.wrappers.map (fun w => w.style.display)))) =
      some [("block", [""]), ("block", ["none"])] := by
  decide

/-! ### The document after a wrapper is modified -/

theorem modifyAt_get?_same {α : Type} (f : α → α) (i : Nat) (l : List α) :
    (modifyAt f i l)[i]? = (l[i]?).map f := by
  induction l generalizing i with
  | nil => cases i <;> simp [modifyAt]
  | cons x xs ih =>
    cases i with
    | zero => simp [modifyAt]
    | succ n => simpa [modifyAt] using ih n

theorem modifyAt_get?_ne {α : Type} (f : α → α) (i j : Nat) (l : List α) (h : j ≠ i) :
    (modifyAt f i l)[j]? = l[j]? := by
  induction l generalizing i j with
  | nil => cases i <;> simp [modifyAt]
  | cons x xs ih =>
    cases i with
    | zero =>
      cases j with
      | zero => exact absurd rfl h
      | succ m => simp [modifyAt]
    | succ n =>
      cases j with
      | zero => simp [modifyAt]
      | succ m =>
        have hm : m ≠ n := fun e => h (by rw [e])
        simpa [modifyAt] using ih n m hm

theorem modifyAt_nil {α : Type} (f : α → α) (i : Nat) : modifyAt f i ([] : List α) = [] := by
  cases i <;> rfl

/-- The wrappers of a section whose content was modified. -/
theorem wrappers_modified (f : FieldWrapper → FieldWrapper) (j : Nat) (s : Section) :
    Section.wrappers { display := s.display, content := s.content.map (modifyAt f j) } =
      modifyAt f j s.wrappers := by
  unfold Section.wrappers
  cases s.content with
  | none => simp [modifyAt_nil]
  | some ws => simp

theorem wrapperAt_modifyWrapper_same (d : Document) (ref : FieldRef)
    (f : FieldWrapper → FieldWrapper) :
    (d.modifyWrapper ref f).wrapperAt ref = (d.wrapperAt ref).map f := by
  unfold Document.wrapperAt Document.modifyWrapper
  simp only [modifyAt_get?_same]
  cases d.sections[ref.1]? with
  | none => simp
  | some s => simp [wrappers_modified, modifyAt_get?_same]

theorem wrapperAt_modifyWrapper_ne (d : Document) (ref ref2 : FieldRef)
    (f : FieldWrapper → FieldWrapper) (h : ref2 ≠ ref) :
    (d.modifyWrapper ref f).wrapperAt ref2 = d.wrapperAt ref2 := by
  unfold Document.wrapperAt Document.modifyWrapper
  by_cases h1 : ref2.1 = ref.1
  · have h2 : ref2.2 ≠ ref.2 := fun e => h (Prod.ext h1 e)
    simp only [h1, modifyAt_get?_same]
    cases d.sections[ref.1]? with
    | none => simp
    | some s => simp [wrappers_modified, modifyAt_get?_ne _ _ _ _ h2]
  · simp only [modifyAt_get?_ne _ _ _ _ h1]

/-- Every control of the document sits in the wrapper at some position. -/
theorem exists_wrapperAt_of_mem_controls (d : Document) (c : FormControl)
    (hc : c ∈ d.controls) :
    ∃ (ref : FieldRef) (w : FieldWrapper), d.wrapperAt ref = some w ∧ c ∈ w.controls := by
  unfold Document.controls Document.wrappers at hc
  rw [List.mem_flatMap] at hc
  obtain ⟨w, hw, hcw⟩ := hc
  rw [List.mem_flatMap] at hw
  obtain ⟨s, hs, hws⟩ := hw
  obtain ⟨i, hi⟩ := List.get?_of_mem hs
  obtain ⟨j, hj⟩ := List.get?_of_mem hws
  rw [List.get?_eq_getElem?] at hi hj
  refine ⟨(i, j), w, ?_, hcw⟩
  unfold Document.wrapperAt
  simp [hi, hj]

/-- A cleared control is not a checked input. -/
theorem isCheckedInput_of_isCleared (c : FormControl) (h : c.isCleared = true) :
    c.isCheckedInput = false := by
  unfold FormControl.isCleared at h
  unfold FormControl.isCheckedInput
  cases hk : c.kind with
  | input t =>
    by_cases ht : t = "radio" ∨ t = "checkbox"
    · have ht2 : t = "checkbox" ∨ t = "radio" := ht.symm
      simp [hk, ControlKind.type, ht2] at h
      simp [h]
    · have h1 : t ≠ "radio" := fun e => ht (Or.inl e)
      have h2 : t ≠ "checkbox" := fun e => ht (Or.inr e)
      simp [h1, h2]
  | select => rfl
  | textarea => rfl

/-- The body of `clearFieldValue` leaves a control cleared. -/
theorem isCleared_clearControl (c : FormControl) : (clearControl c).isCleared = true := by
  unfold clearControl
  by_cases h : c.kind.type = "checkbox" ∨ c.kind.type = "radio"
  · rw [if_pos h]
    simp [FormControl.isCleared, h]
  · rw [if_neg h]
    simp [FormControl.isCleared, h]

/-- The synchronous part of `hideField` on a displayed wrapper registers its
callback after the pending ones. -/
theorem hideField_timers (pg : Page) (ref : FieldRef) (w : FieldWrapper)
    (hw : pg.doc.wrapperAt ref = some w) (hvis : w.style.display ≠ "none") :
    (hideField pg ref).timers = pg.timers ++ [TimerTask.hideDone ref] := by
  unfold hideField
  simp [hw, hvis]

/-- The wrapper at `ref` after the callback of `hideField` ran. -/
theorem wrapperAt_runTimer_hideDone (doc : Document) (ref : FieldRef) (w0 : FieldWrapper)
    (h : doc.wrapperAt ref = some w0) :
    (runTimer doc (TimerTask.hideDone ref)).wrapperAt ref =
      some (clearFieldValue { w0 with style := { w0.style with display := "none" } }) := by
  unfold runTimer
  rw [wrapperAt_modifyWrapper_same, h]
  rfl

/-- C9 (amended): for a field the resolver hides that is not already hidden
(`hideField` returns at once on a wrapper whose display is `none`), the callback is
registered, and once it has run, on whatever the document is by then, the wrapper
is not displayed and every control inside it is cleared: checkboxes and radio
buttons unchecked, every other value empty.  Reading any of its controls with
`getFieldValue` then gives the empty string, provided no checked input outside the
field carries the same name (the method looks a radio or checkbox name up in the
whole document). -/
theorem hideField_clears_displayed_field (pg : Page) (ref : FieldRef) (w : FieldWrapper)
    (hw : pg.doc.wrapperAt ref = some w) (hvis : w.style.display ≠ "none") :
    (hideField pg ref).timers = pg.timers ++ [TimerTask.hideDone ref] ∧
    (pg.timers = [] →
      (runTimers (hideField pg ref)).doc =
        runTimer (hideField pg ref).doc (TimerTask.hideDone ref)) ∧
    (∃ w0, (hideField pg ref).doc.wrapperAt ref = some w0) ∧
    ∀ (doc : Document) (w0 : FieldWrapper), doc.wrapperAt ref = some w0 →
      ∃ w1, (runTimer doc (TimerTask.hideDone ref)).wrapperAt ref = some w1 ∧
        w1.style.display = "none" ∧
        (∀ c ∈ w1.controls, c.isCleared = true) ∧
        (∀ c ∈ w1.controls,
          (∀ (ref2 : FieldRef) (w2 : FieldWrapper), ref2 ≠ ref →
            doc.wrapperAt ref2 = some w2 →
            ∀ c2 ∈ w2.controls, c2.name = c.name → c2.isCheckedInput = false) →
          getFieldValue (runTimer doc (TimerTask.hideDone ref)) c = "") := by
  have htimers := hideField_timers pg ref w hw hvis
  refine ⟨htimers, ?_, ?_, ?_⟩
  · intro hnil
    unfold runTimers
    rw [htimers, hnil]
    rfl
  · unfold hideField
    simp only [hw, if_neg hvis]
    rw [wrapperAt_modifyWrapper_same, hw]
    exact ⟨_, rfl⟩
  · intro doc w0 hw0
    have hw1 := wrapperAt_runTimer_hideDone doc ref w0 hw0
    refine ⟨_, hw1, rfl, ?_, ?_⟩
    · intro c hc
      simp only [clearFieldValue, List.mem_map] at hc
      obtain ⟨c0, _, rfl⟩ := hc
      exact isCleared_clearControl c0
    · intro c hc hothers
      have hcleared : c.isCleared = true := by
        simp only [clearFieldValue, List.mem_map] at hc
        obtain ⟨c0, _, rfl⟩ := hc
        exact isCleared_clearControl c0
      have hnone : ∀ c2 ∈ (runTimer doc (TimerTask.hideDone ref)).controls,
          (c2.isCheckedInput && decide (c2.name = c.name)) = false := by
        intro c2 hc2
        obtain ⟨ref2, w2, hw2, hc2w⟩ := exists_wrapperAt_of_mem_controls _ c2 hc2
        by_cases hname : c2.name = c.name
        · by_cases href : ref2 = ref
          · rw [href, hw1] at hw2
            have hc2' : c2 ∈ (clearFieldValue
                { w0 with style := { w0.style with display := "none" } }).controls := by
              rw [Option.some.inj hw2]; exact hc2w
            simp only [clearFieldValue, List.mem_map] at hc2'
            obtain ⟨c0, _, rfl⟩ := hc2'
            simp [isCheckedInput_of_isCleared _ (isCleared_clearControl c0)]
          · have hw2' : doc.wrapperAt ref2 = some w2 := by
              unfold runTimer at hw2
              rw [wrapperAt_modifyWrapper_ne _ _ _ _ href] at hw2
              exact hw2
            simp [hothers ref2 w2 href hw2' c2 hc2w hname]
        · simp [hname]
      unfold getFieldValue
      by_cases hr : c.kind.type = "radio"
      · rw [if_pos hr]
        have hfind : (runTimer doc (TimerTask.hideDone ref)).controls.find?
            (fun c2 => c2.isCheckedInput && decide (c2.name = c.name)) = none := by
          rw [List.find?_eq_none]
          intro c2 hc2
          simp [hnone c2 hc2]
        rw [hfind]
      · rw [if_neg hr]
        by_cases hcb : c.kind.type = "checkbox"
        · rw [if_pos hcb]
          have hfilter : (runTimer doc (TimerTask.hideDone ref)).controls.filter
              (fun c2 => c2.isCheckedInput && decide (c2.name = c.name)) = [] := by
            rw [List.filter_eq_nil_iff]
            intro c2 hc2
            simp [hnone c2 hc2]
          rw [hfilter]
          rfl
        · rw [if_neg hcb]
          unfold FormControl.isCleared at hcleared
          have hnot : ¬ (c.kind.type = "checkbox" ∨ c.kind.type = "radio") := by
            rintro (h | h)
            · exact hcb h
            · exact hr h
          rw [if_neg hnot] at hcleared
          exact of_decide_eq_true hcleared

/-- C9 (amended), witness: the displayed field "Systems involved" holding "SAP",
hidden on a form where no category is chosen: after the callback its value reads
as the empty string. -/
theorem hideField_clears_displayed_field_witness :
    ((runTimers (hideField { doc := categoryDocument "" [systemsWrapper "SAP"], timers := [] }
        (0, 1))).doc.wrapperAt (0, 1)).map
      (fun w => (w.style.display, w.controls.map FormControl.value)) = some ("none", [""]) ∧
    ∃ w1, (runTimer (categoryDocument "" [systemsWrapper "SAP"])
        (TimerTask.hideDone (0, 1))).wrapperAt (0, 1) = some w1 ∧ w1.style.display = "none" :=
  have h := hideField_clears_displayed_field
    { doc := categoryDocument "" [systemsWrapper "SAP"], timers := [] } (0, 1)
    (systemsWrapper "SAP") (by decide) (by decide)
  ⟨by decide,
   (h.2.2.2 (categoryDocument "" [systemsWrapper "SAP"]) (systemsWrapper "SAP")
      (by decide)).imp (fun _ hw1 => ⟨hw1.1, hw1.2.1⟩)⟩

/-! ### `calculateComplexity` away from the inherited names -/

theorem lookup_mem_values (map : List (String × String)) (key v : String)
    (h : map.lookup key = some v) : v ∈ map.map Prod.snd := by
  induction map with
  | nil => simp at h
  | cons entry rest ih =>
    obtain ⟨k, w⟩ := entry
    by_cases hk : key = k
    · subst hk
      simp at h
      simp [h]
    · have hk2 : (key == k) = false := by simpa using hk
      rw [List.lookup_cons, hk2] at h
      simp [ih h]

/-- For a value that is not a name inherited from `Object.prototype`, the index
`calculateComplexity` computes from a table whose levels are all listed is the rank
of the mapped level. -/
theorem indexOfLevel_of_plain_key (map : List (String × String))
    (hmap : ∀ v ∈ map.map Prod.snd, v ∈ complexityOrder) (key : String)
    (hkey : key ∉ objectPrototypeKeys) :
    ∃ i : Nat, i < 3 ∧ complexityOrder[i]? = some (mappedLevel map key) ∧
      indexOfLevel (orSimple (lookupProperty map key)) = (i : Int) := by
  unfold lookupProperty mappedLevel
  cases hl : map.lookup key with
  | none =>
    refine ⟨0, by decide, by decide, ?_⟩
    simp only [if_neg hkey]
    decide
  | some v =>
    have hv := hmap v (lookup_mem_values map key v hl)
    simp only [complexityOrder, List.mem_cons, List.mem_singleton, List.not_mem_nil,
      or_false] at hv
    rcases hv with h | h | h
    · subst h
      refine ⟨0, by decide, by decide, ?_⟩
      show indexOfLevel (orSimple (MapValue.str "simple")) = ((0 : Nat) : Int)
      decide
    · subst h
      refine ⟨1, by decide, by decide, ?_⟩
      show indexOfLevel (orSimple (MapValue.str "standard")) = ((1 : Nat) : Int)
      decide
    · subst h
      refine ⟨2, by decide, by decide, ?_⟩
      show indexOfLevel (orSimple (MapValue.str "complex")) = ((2 : Nat) : Int)
      decide

/-- For two values that are not names inherited from `Object.prototype`,
`calculateComplexity` returns the higher of the two mapped levels. -/
theorem calculateComplexity_of_plain_keys (budgetRange projectDuration : String)
    (hb : budgetRange ∉ objectPrototypeKeys) (hd : projectDuration ∉ objectPrototypeKeys) :
    ∃ i j : Nat, i < 3 ∧ j < 3 ∧
      complexityOrder[i]? = some (mappedLevel budgetComplexityMap budgetRange) ∧
      complexityOrder[j]? = some (mappedLevel durationComplexityMap projectDuration) ∧
      calculateComplexity budgetRange projectDuration = complexityOrder[max i j]? := by
  obtain ⟨i, hi, hil, hidx⟩ :=
    indexOfLevel_of_plain_key budgetComplexityMap (by decide) budgetRange hb
  obtain ⟨j, hj, hjl, hjdx⟩ :=
    indexOfLevel_of_plain_key durationComplexityMap (by decide) projectDuration hd
  refine ⟨i, j, hi, hj, hil, hjl, ?_⟩
  unfold calculateComplexity
  simp only [hidx, hjdx]
  rw [← Nat.cast_max]
  unfold levelAt
  have hnn : ¬ (((max i j : Nat) : Int) < 0) := by omega
  rw [if_neg hnn, Int.toNat_natCast, List.get?_eq_getElem?]

/-! ### Field names -/

/-- No white space character is one of a-z0-9. -/
theorem isLowerAlnum_of_isJsWhitespace (c : Char) (h : isJsWhitespace c = true) :
    isLowerAlnum c = false := by
  have hle : ∀ a b : Char, (a ≤ b) = (a.toNat ≤ b.toNat) := fun a b => by
    simp [Char.le_def, Char.toNat, UInt32.le_def, UInt32.toNat, BitVec.le_def]
  simp only [isJsWhitespace, jsWhitespaceCodes, decide_eq_true_eq, List.mem_cons,
    List.mem_singleton, List.not_mem_nil, or_false] at h
  simp only [isLowerAlnum, hle, Bool.or_eq_false_iff, Bool.and_eq_false_iff,
    decide_eq_false_iff_not]
  have ha : ('a' : Char).toNat = 97 := rfl
  have hz : ('z' : Char).toNat = 122 := rfl
  have h0 : ('0' : Char).toNat = 48 := rfl
  have h9 : ('9' : Char).toNat = 57 := rfl
  rw [ha, hz, h0, h9]
  omega

/-- C20: the field name `generateFormGroup` derives from a label equals the one
`findFieldElement` and `findFieldConfig` derive from it, and it holds only the
characters a-z and 0-9. -/
theorem generated_field_name_eq_resolver_field_name (formLabel : String) :
    FormGenerator.generatedFieldName formLabel = resolverFieldName formLabel ∧
    ∀ c ∈ (resolverFieldName formLabel).data,
      ('a' ≤ c ∧ c ≤ 'z') ∨ ('0' ≤ c ∧ c ≤ '9') := by
  constructor
  · unfold FormGenerator.generatedFieldName resolverFieldName
    congr 1
    rw [List.filter_filter]
    apply List.filter_congr
    intro c _
    by_cases hw : isJsWhitespace c = true
    · simp [hw, isLowerAlnum_of_isJsWhitespace c hw]
    · simp [hw]
  · intro c hc
    unfold resolverFieldName at hc
    simp only [List.mem_filter] at hc
    have h := hc.2
    simpa [isLowerAlnum] using h

/-! ### Calculating the complexity from the form -/

/-- C14: on the inputs "toString" and "valueOf" both lookups read a member
inherited from `Object.prototype`, the index computed into `complexityOrder` is -1,
out of range, and the result is `undefined`, none of the three levels. -/
theorem calculateComplexity_index_out_of_range :
    max (indexOfLevel (orSimple (lookupProperty budgetComplexityMap "toString")))
        (indexOfLevel (orSimple (lookupProperty durationComplexityMap "valueOf"))) = -1 ∧
    levelAt (-1) = none ∧
    calculateComplexity "toString" "valueOf" = none ∧
    ¬ ∃ level ∈ complexityOrder, calculateComplexity "toString" "valueOf" = some level := by
  refine ⟨by decide, by decide, by decide, ?_⟩
  rintro ⟨level, _, h⟩
  have hnone : calculateComplexity "toString" "valueOf" = none := by decide
  rw [hnone] at h
  exact Option.noConfusion h

/-- A value that is neither a key of the table nor a name inherited from
`Object.prototype` is defaulted to simple. -/
theorem orSimple_of_unmapped (map : List (String × String)) (key : String)
    (hkey : map.lookup key = none) (hplain : key ∉ objectPrototypeKeys) :
    orSimple (lookupProperty map key) = MapValue.str "simple" := by
  unfold lookupProperty
  rw [hkey]
  simp only [if_neg hplain]
  rfl

/-- With no form, or with two values that are neither keys of their tables nor names
inherited from `Object.prototype`, the computed complexity is simple. -/
theorem getComplexityFromForm_of_unmapped (doc : Document) :
    (doc.hasForm = false → getComplexityFromForm doc = some "simple") ∧
    (budgetComplexityMap.lookup (getFormValue doc "budgetrange") = none →
      getFormValue doc "budgetrange" ∉ objectPrototypeKeys →
      durationComplexityMap.lookup (getFormValue doc "projectduration") = none →
      getFormValue doc "projectduration" ∉ objectPrototypeKeys →
      getComplexityFromForm doc = some "simple") := by
  constructor
  · intro h
    simp [getComplexityFromForm, h]
  · intro hb hbp hd hdp
    unfold getComplexityFromForm
    by_cases hf : doc.hasForm = false
    · simp [hf]
    · simp only [if_neg hf]
      unfold calculateComplexity
      simp only [orSimple_of_unmapped _ _ hb hbp, orSimple_of_unmapped _ _ hd hdp]
      decide

/-- C12: on a form whose budget and duration inputs both hold "constructor", which
is a key of neither table, `getComplexityFromForm` returns `undefined`, not simple,
and `evaluateCurrentState` stores it as the current complexity. -/
theorem getComplexityFromForm_inherited_key_undefined :
    budgetComplexityMap.lookup "constructor" = none ∧
    durationComplexityMap.lookup "constructor" = none ∧
    getFormValue (budgetDurationDocument "constructor" "constructor") "budgetrange" =
      "constructor" ∧
    getFormValue (budgetDurationDocument "constructor" "constructor") "projectduration" =
      "constructor" ∧
    getComplexityFromForm (budgetDurationDocument "constructor" "constructor") = none ∧
    (evaluateCurrentState (initialLogic [])
      (budgetDurationDocument "constructor" "constructor")).currentComplexity = none := by
  decide

/-- On ASCII characters `toLowerCase` replaces each of the letters A-Z by the letter
32 code points further on and leaves every other character as it is. -/
theorem toLowerCaseFrom_ascii (before cs : List Char) (h : ∀ c ∈ cs, c.toNat < 128) :
    toLowerCaseFrom before cs =
      cs.map (fun c =>
        if 65 ≤ c.toNat ∧ c.toNat ≤ 90 then Char.ofNat (c.toNat + 32) else c) := by
  induction cs generalizing before with
  | nil => rfl
  | cons c rest ih =>
    have hc : c.toNat < 128 := h c (List.mem_cons_self _ _)
    have hsigma : c.toNat ≠ 0x3A3 := by omega
    have hascii : c.toNat < 0x80 := by omega
    simp only [toLowerCaseFrom, hsigma, if_false, toLowerCaseChar, hascii, if_true,
      List.singleton_append, List.map_cons]
    rw [ih (c :: before) (fun d hd => h d (List.mem_cons_of_mem _ hd))]
    simp [Char.toLower]

/-- C13: `getProjectTypeFromForm` returns "strategic" when the form is missing, when
no control is named `problemcategory` and when the value read is empty, and
otherwise the value read in lower case; the value read from a single-valued
control is its value; "Technical" and "technical" give the same project type.
The lower case of a value of ASCII characters is the value with each of the letters
A-Z replaced by the corresponding letter a-z and every other character kept;
outside ASCII, the capitals of "\u00C9COLE" become "\u00E9cole", and the capital
sigma ending the Greek word "\u03A3\u0391\u03A3" becomes the final sigma. -/
theorem getProjectTypeFromForm_lower_case (doc : Document) :
    (doc.hasForm = false → getProjectTypeFromForm doc = "strategic") ∧
    (doc.controls.find? (matchesFieldName "problemcategory") = none →
      getProjectTypeFromForm doc = "strategic") ∧
    (getFormValue doc "problemcategory" = "" → getProjectTypeFromForm doc = "strategic") ∧
    (doc.hasForm = true → getFormValue doc "problemcategory" ≠ "" →
      getProjectTypeFromForm doc = toLowerCase (getFormValue doc "problemcategory")) ∧
    (∀ field, doc.controls.find? (matchesFieldName "problemcategory") = some field →
      field.kind.type ≠ "radio" → field.kind.type ≠ "checkbox" →
      getFormValue doc "problemcategory" = field.value) ∧
    getProjectTypeFromForm (categoryDocument "Technical" []) = "technical" ∧
    getProjectTypeFromForm (categoryDocument "technical" []) = "technical" ∧
    (doc.hasForm = true → getFormValue doc "problemcategory" ≠ "" →
      (∀ c ∈ (getFormValue doc "problemcategory").data, c.toNat < 128) →
      getProjectTypeFromForm doc =
        String.mk ((getFormValue doc "problemcategory").data.map (fun c =>
          if 65 ≤ c.toNat ∧ c.toNat ≤ 90 then Char.ofNat (c.toNat + 32) else c))) ∧
    getProjectTypeFromForm (categoryDocument "\u00C9COLE" []) = "\u00E9cole" ∧
    getProjectTypeFromForm (categoryDocument "\u03A3\u0391\u03A3" []) =
      "\u03C3\u03B1\u03C2" := by
  have hempty : getFormValue doc "problemcategory" = "" →
      getProjectTypeFromForm doc = "strategic" := by
    intro h
    unfold getProjectTypeFromForm
    by_cases hf : doc.hasForm = false
    · simp [hf]
    · simp [hf, h]
  refine ⟨?_, ?_, hempty, ?_, ?_, by decide, by decide, ?_, by decide,
    by set_option maxRecDepth 100000 in decide⟩
  · intro h
    simp [getProjectTypeFromForm, h]
  · intro h
    apply hempty
    unfold getFormValue
    rw [h]
  · intro hf hv
    unfold getProjectTypeFromForm
    simp [hf, hv]
  · intro field hfield h1 h2
    unfold getFormValue
    rw [hfield]
    simp [h1, h2]
  · intro hf hv hascii
    unfold getProjectTypeFromForm
    simp only [hf, hv, Bool.true_eq_false, if_false]
    unfold toLowerCase
    rw [toLowerCaseFrom_ascii [] _ hascii]

/-- C13, witness: a form whose category select holds "Technical". -/
theorem getProjectTypeFromForm_lower_case_witness :
    getProjectTypeFromForm (categoryDocument "Technical" []) = toLowerCase "Technical" :=
  (getProjectTypeFromForm_lower_case (categoryDocument "Technical" [])).2.2.2.1
    (by decide) (by decide)

/-! ### What showing and hiding leave unchanged -/

theorem flatMap_modifyAt {α β : Type} (f : α → α) (g : α → List β)
    (h : ∀ x, g (f x) = g x) (i : Nat) (l : List α) :
    (modifyAt f i l).flatMap g = l.flatMap g := by
  induction l generalizing i with
  | nil => cases i <;> rfl
  | cons x xs ih =>
    cases i with
    | zero => simp [modifyAt, h]
    | succ n => simp [modifyAt, ih n]

/-- The controls of the document as a traversal of its sections. -/
theorem controls_eq_flatMap_sections (d : Document) :
    d.controls = d.sections.flatMap (fun s => s.wrappers.flatMap FieldWrapper.controls) := by
  unfold Document.controls Document.wrappers
  rw [List.flatMap_assoc]

/-- Modifying a wrapper without touching its controls leaves the controls of the
document as they are. -/
theorem controls_modifyWrapper (d : Document) (ref : FieldRef)
    (f : FieldWrapper → FieldWrapper) (hf : ∀ w, (f w).controls = w.controls) :
    (d.modifyWrapper ref f).controls = d.controls := by
  rw [controls_eq_flatMap_sections, controls_eq_flatMap_sections]
  unfold Document.modifyWrapper
  apply flatMap_modifyAt
  intro s
  rw [wrappers_modified]
  exact flatMap_modifyAt f FieldWrapper.controls hf ref.2 s.wrappers

theorem hasForm_modifyWrapper (d : Document) (ref : FieldRef)
    (f : FieldWrapper → FieldWrapper) : (d.modifyWrapper ref f).hasForm = d.hasForm := rfl

/-- Modifying a wrapper without touching its controls leaves the controls of every
wrapper as they are. -/
theorem wrapperAt_modifyWrapper_controls (d : Document) (ref ref2 : FieldRef)
    (f : FieldWrapper → FieldWrapper) (hf : ∀ w, (f w).controls = w.controls) :
    ((d.modifyWrapper ref f).wrapperAt ref2).map FieldWrapper.controls =
      (d.wrapperAt ref2).map FieldWrapper.controls := by
  by_cases h : ref2 = ref
  · subst h
    rw [wrapperAt_modifyWrapper_same]
    cases d.wrapperAt ref2 with
    | none => rfl
    | some w => simp [hf]
  · rw [wrapperAt_modifyWrapper_ne _ _ _ _ h]

/-- The synchronous part of `showField` leaves the controls and the form as they are. -/
theorem showField_controls (pg : Page) (ref : FieldRef) :
    (showField pg ref).doc.controls = pg.doc.controls ∧
    (showField pg ref).doc.hasForm = pg.doc.hasForm := by
  unfold showField
  cases pg.doc.wrapperAt ref with
  | none => exact ⟨rfl, rfl⟩
  | some w =>
    by_cases hd : w.style.display = "block" ∨ w.style.display = ""
    · simp only [if_pos hd]
      exact ⟨trivial, trivial⟩
    · simp only [if_neg hd]
      exact ⟨controls_modifyWrapper _ _ _ (fun _ => rfl), rfl⟩

/-- The synchronous part of `hideField` leaves the controls and the form as they are. -/
theorem hideField_controls (pg : Page) (ref : FieldRef) :
    (hideField pg ref).doc.controls = pg.doc.controls ∧
    (hideField pg ref).doc.hasForm = pg.doc.hasForm := by
  unfold hideField
  cases pg.doc.wrapperAt ref with
  | none => exact ⟨rfl, rfl⟩
  | some w =>
    by_cases hd : w.style.display = "none"
    · simp only [if_pos hd]
      exact ⟨trivial, trivial⟩
    · simp only [if_neg hd]
      exact ⟨controls_modifyWrapper _ _ _ (fun _ => rfl), rfl⟩

/-- `applyFieldLogic` leaves the controls and the form as they are. -/
theorem applyFieldLogic_controls (self : AdaptiveConditionalLogic) (pg : Page)
    (ref : FieldRef) (fieldConfig : FieldConfig) :
    (applyFieldLogic self pg ref fieldConfig).doc.controls = pg.doc.controls ∧
    (applyFieldLogic self pg ref fieldConfig).doc.hasForm = pg.doc.hasForm := by
  unfold applyFieldLogic
  by_cases h : shouldShow self pg.doc fieldConfig = true
  · rw [if_pos h]
    exact showField_controls pg ref
  · rw [if_neg h]
    exact hideField_controls pg ref

/-- C17: `showField` mutates no value: after its synchronous part, and after its
delayed callback on whatever the document is by then, every wrapper holds the same
controls, with the same values and checked states, as before. -/
theorem showField_mutates_no_value (pg : Page) (ref : FieldRef) :
    (∀ ref2 : FieldRef,
      ((showField pg ref).doc.wrapperAt ref2).map FieldWrapper.controls =
        (pg.doc.wrapperAt ref2).map FieldWrapper.controls) ∧
    (showField pg ref).doc.controls = pg.doc.controls ∧
    (∀ t ∈ (showField pg ref).timers, t ∈ pg.timers ∨ t = TimerTask.showDone ref) ∧
    ∀ (doc : Document),
      (∀ ref2 : FieldRef,
        ((runTimer doc (TimerTask.showDone ref)).wrapperAt ref2).map FieldWrapper.controls =
          (doc.wrapperAt ref2).map FieldWrapper.controls) ∧
      (runTimer doc (TimerTask.showDone ref)).controls = doc.controls := by
  refine ⟨?_, (showField_controls pg ref).1, ?_, ?_⟩
  · intro ref2
    unfold showField
    cases pg.doc.wrapperAt ref with
    | none => rfl
    | some w =>
      by_cases hd : w.style.display = "block" ∨ w.style.display = ""
      · simp only [if_pos hd]
      · simp only [if_neg hd]
        exact wrapperAt_modifyWrapper_controls _ _ _ _ (fun _ => rfl)
  · intro t ht
    unfold showField at ht
    cases hw : pg.doc.wrapperAt ref with
    | none =>
      rw [hw] at ht
      exact Or.inl ht
    | some w =>
      rw [hw] at ht
      by_cases hd : w.style.display = "block" ∨ w.style.display = ""
      · simp only [if_pos hd] at ht
        exact Or.inl ht
      · simp only [if_neg hd, List.mem_append, List.mem_singleton] at ht
        exact ht
  · intro doc
    exact ⟨fun ref2 => wrapperAt_modifyWrapper_controls _ _ _ _ (fun _ => rfl),
      controls_modifyWrapper _ _ _ (fun _ => rfl)⟩

/-! ### Two passes in succession -/

/-- The decision of the resolver reads the document only through the presence of
the form and the controls. -/
theorem shouldShow_congr (self : AdaptiveConditionalLogic) (d1 d2 : Document)
    (fieldConfig : FieldConfig) (hform : d1.hasForm = d2.hasForm)
    (hcontrols : d1.controls = d2.controls) :
    shouldShow self d1 fieldConfig = shouldShow self d2 fieldConfig := by
  simp only [shouldShow, checkTraditionalConditionalLogic, Document.queryByName,
    getFieldValue, hform, hcontrols]

/-- `manageSectionVisibility` leaves the controls and the form as they are. -/
theorem manageSectionVisibility_controls (doc : Document) :
    (manageSectionVisibility doc).controls = doc.controls ∧
    (manageSectionVisibility doc).hasForm = doc.hasForm := by
  refine ⟨?_, rfl⟩
  rw [controls_eq_flatMap_sections, controls_eq_flatMap_sections]
  unfold manageSectionVisibility
  simp only [List.flatMap_map]
  apply List.flatMap_congr
  intro sec _
  cases hc : sec.content with
  | none => simp [hc]
  | some ws =>
    have hw : sec.wrappers = ws := by simp [Section.wrappers, hc]
    simp only [hw]
    split <;> rfl

/-- The `forEach` of a pass leaves the controls and the form as they are. -/
theorem applyConditionalLogicLoop_controls (self : AdaptiveConditionalLogic)
    (formData : List FieldConfig) (pg pg1 : Page)
    (h : applyConditionalLogicLoop self pg formData = Except.ok pg1) :
    pg1.doc.controls = pg.doc.controls ∧ pg1.doc.hasForm = pg.doc.hasForm := by
  induction formData generalizing pg with
  | nil =>
    simp only [applyConditionalLogicLoop, Except.ok.injEq] at h
    subst h
    exact ⟨rfl, rfl⟩
  | cons fieldConfig rest ih =>
    unfold applyConditionalLogicLoop at h
    cases hstep : applyConditionalLogicStep self pg fieldConfig with
    | error e => simp [hstep] at h
    | ok pgs =>
      simp only [hstep] at h
      have hrest := ih pgs h
      have hs : pgs.doc.controls = pg.doc.controls ∧ pgs.doc.hasForm = pg.doc.hasForm := by
        unfold applyConditionalLogicStep at hstep
        cases hl : fieldConfig.get "form_label" with
        | none => simp [hl] at hstep
        | some label =>
          simp only [hl] at hstep
          cases hel : findFieldElement pg.doc label with
          | none =>
            simp only [hel, Except.ok.injEq] at hstep
            subst hstep
            exact ⟨rfl, rfl⟩
          | some el =>
            simp only [hel, Except.ok.injEq] at hstep
            subst hstep
            exact applyFieldLogic_controls self pg el fieldConfig
      exact ⟨hrest.1.trans hs.1, hrest.2.trans hs.2⟩

/-- The `forEach` of a pass ends without an error exactly when every row has a
`form_label`, whatever the page is. -/
theorem applyConditionalLogicLoop_ok_iff (self : AdaptiveConditionalLogic)
    (formData : List FieldConfig) (pg : Page) :
    (∃ pg1, applyConditionalLogicLoop self pg formData = Except.ok pg1) ↔
      ∀ fieldConfig ∈ formData, fieldConfig.get "form_label" ≠ none := by
  induction formData generalizing pg with
  | nil => simp [applyConditionalLogicLoop]
  | cons fieldConfig rest ih =>
    unfold applyConditionalLogicLoop applyConditionalLogicStep
    cases hl : fieldConfig.get "form_label" with
    | none => simp [hl]
    | some label =>
      cases hel : findFieldElement pg.doc label with
      | none => simpa [hl, hel] using ih pg
      | some el => simpa [hl, hel] using ih (applyFieldLogic self pg el fieldConfig)

/-- A pass leaves the controls and the form as they are. -/
theorem applyConditionalLogic_controls (self : AdaptiveConditionalLogic) (pg pg1 : Page)
    (h : applyConditionalLogic self pg = Except.ok pg1) :
    pg1.doc.controls = pg.doc.controls ∧ pg1.doc.hasForm = pg.doc.hasForm := by
  unfold applyConditionalLogic at h
  cases hfd : self.formData with
  | none =>
    simp only [hfd, Except.ok.injEq] at h
    subst h
    exact ⟨rfl, rfl⟩
  | some formData =>
    simp only [hfd] at h
    cases hloop : applyConditionalLogicLoop self pg formData with
    | error e => simp [hloop] at h
    | ok pgl =>
      simp only [hloop, Except.ok.injEq] at h
      subst h
      have hl := applyConditionalLogicLoop_controls self formData pg pgl hloop
      have hm := manageSectionVisibility_controls pgl.doc
      exact ⟨hm.1.trans hl.1, hm.2.trans hl.2⟩

/-- A pass that ended without an error does so again on any page. -/
theorem applyConditionalLogic_ok_again (self : AdaptiveConditionalLogic) (pg pg1 pg' : Page)
    (h : applyConditionalLogic self pg = Except.ok pg1) :
    ∃ pg2, applyConditionalLogic self pg' = Except.ok pg2 := by
  unfold applyConditionalLogic at h ⊢
  cases hfd : self.formData with
  | none => exact ⟨pg', rfl⟩
  | some formData =>
    simp only [hfd] at h
    cases hloop : applyConditionalLogicLoop self pg formData with
    | error e => simp [hloop] at h
    | ok pgl =>
      have hall := (applyConditionalLogicLoop_ok_iff self formData pg).mp ⟨pgl, hloop⟩
      obtain ⟨pgl', hloop'⟩ := (applyConditionalLogicLoop_ok_iff self formData pg').mpr hall
      exact ⟨{ doc := manageSectionVisibility pgl'.doc, timers := pgl'.timers },
        by simp only [hloop']⟩

/-- C11: after a full pass the decision of the resolver (classification gate and
dependency gate) is, for every row, what it was before the pass; a second pass in
succession ends without an error and leaves every decision the same again. -/
theorem resolver_decisions_idempotent (self : AdaptiveConditionalLogic) (pg pg1 : Page)
    (h : applyConditionalLogic self pg = Except.ok pg1) :
    (∀ fieldConfig : FieldConfig,
      shouldShow self pg1.doc fieldConfig = shouldShow self pg.doc fieldConfig) ∧
    ∃ pg2, applyConditionalLogic self pg1 = Except.ok pg2 ∧
      ∀ fieldConfig : FieldConfig,
        shouldShow self pg2.doc fieldConfig = shouldShow self pg.doc fieldConfig := by
  have h1 := applyConditionalLogic_controls self pg pg1 h
  obtain ⟨pg2, h2⟩ := applyConditionalLogic_ok_again self pg pg1 pg1 h
  have h3 := applyConditionalLogic_controls self pg1 pg2 h2
  refine ⟨fun fieldConfig => shouldShow_congr self _ _ fieldConfig h1.2 h1.1, pg2, h2, ?_⟩
  intro fieldConfig
  exact shouldShow_congr self _ _ fieldConfig (h3.2.trans h1.2) (h3.1.trans h1.1)

/-- C11, witness: the pass at load on the two-section page leaves the decision
for the dependent field as it was. -/
theorem resolver_decisions_idempotent_witness :
    shouldShow (initialLogic [categoryField, scenarioCField]) twoSectionPageAfterPass.doc
        scenarioCField =
      shouldShow (initialLogic [categoryField, scenarioCField]) twoSectionPage.doc
        scenarioCField :=
  (resolver_decisions_idempotent (initialLogic [categoryField, scenarioCField])
    twoSectionPage twoSectionPageAfterPass rfl).1 scenarioCField

/-! ### The handlers of the classification inputs -/

/-- `handleComplexityChange` runs a pass exactly when the complexity it reads
differs from the one held before, and `handleProjectTypeChange` exactly when the
project type does; both store the two values read. -/
theorem classification_handlers_compare_own_axis (self : AdaptiveConditionalLogic)
    (pg : Page) :
    (self.currentComplexity ≠ (evaluateCurrentState self pg.doc).currentComplexity →
      handleComplexityChange self pg =
        (applyConditionalLogic (evaluateCurrentState self pg.doc) pg).map
          (fun pg1 => (evaluateCurrentState self pg.doc, pg1))) ∧
    (self.currentComplexity = (evaluateCurrentState self pg.doc).currentComplexity →
      handleComplexityChange self pg = Except.ok (evaluateCurrentState self pg.doc, pg)) ∧
    (self.currentProjectType ≠ (evaluateCurrentState self pg.doc).currentProjectType →
      handleProjectTypeChange self pg =
        (applyConditionalLogic (evaluateCurrentState self pg.doc) pg).map
          (fun pg1 => (evaluateCurrentState self pg.doc, pg1))) ∧
    (self.currentProjectType = (evaluateCurrentState self pg.doc).currentProjectType →
      handleProjectTypeChange self pg = Except.ok (evaluateCurrentState self pg.doc, pg)) := by
  refine ⟨?_, ?_, ?_, ?_⟩
  · intro h
    unfold handleComplexityChange
    simp only [if_pos h]
    cases applyConditionalLogic (evaluateCurrentState self pg.doc) pg <;> rfl
  · intro h
    unfold handleComplexityChange
    simp only [h, ne_eq, not_true_eq_false, if_false]
  · intro h
    unfold handleProjectTypeChange
    simp only [if_pos h]
    cases applyConditionalLogic (evaluateCurrentState self pg.doc) pg <;> rfl
  · intro h
    unfold handleProjectTypeChange
    simp only [h, ne_eq, not_true_eq_false, if_false]

/-- C15: after a form reset the resolver still holds (simple, technical); on the
change of the budget to "Under $5K" `handleComplexityChange` reads the state
(simple, strategic), so the state differs on the project type, but it runs no pass:
the page is returned untouched.  The field "API details" resolves to hidden in the
new state and stays displayed, while a pass, as `handleProjectTypeChange` would
start on the same page, hides it. -/
theorem complexity_handler_skips_pass_on_type_change :
    (evaluateCurrentState staleTypeLogic afterResetPage.doc).currentComplexity =
      some "simple" ∧
    (evaluateCurrentState staleTypeLogic afterResetPage.doc).currentProjectType =
      "strategic" ∧
    staleTypeLogic.currentProjectType = "technical" ∧
    (handleComplexityChange staleTypeLogic afterResetPage).toOption =
      some (evaluateCurrentState staleTypeLogic afterResetPage.doc, afterResetPage) ∧
    shouldShow (evaluateCurrentState staleTypeLogic afterResetPage.doc) afterResetPage.doc
      apiDetailsField = false ∧
    (afterResetPage.doc.wrapperAt (0, 2)).map (fun w => w.style.display) = some "block" ∧
    (handleProjectTypeChange staleTypeLogic afterResetPage).toOption.map
      (fun r => ((runTimers r.2).doc.wrapperAt (0, 2)).map (fun w => w.style.display)) =
      some (some "none") := by
  decide

/-! ### The wrappers of the document and their positions -/

theorem mem_indexedFrom {α : Type} (k : Nat) (l : List α) (p : Nat × α) :
    p ∈ indexedFrom k l ↔ k ≤ p.1 ∧ l[p.1 - k]? = some p.2 := by
  induction l generalizing k with
  | nil => simp [indexedFrom]
  | cons x xs ih =>
    obtain ⟨i, y⟩ := p
    simp only [indexedFrom, List.mem_cons, Prod.mk.injEq, ih]
    constructor
    · rintro (⟨rfl, rfl⟩ | ⟨hle, hget⟩)
      · simp
      · refine ⟨by omega, ?_⟩
        have hi : i - k = (i - (k + 1)) + 1 := by omega
        rw [hi, List.getElem?_cons_succ]
        exact hget
    · rintro ⟨hle, hget⟩
      by_cases hik : i = k
      · subst hik
        simp at hget
        exact Or.inl ⟨rfl, hget.symm⟩
      · right
        refine ⟨by omega, ?_⟩
        have hi : i - k = (i - (k + 1)) + 1 := by omega
        rw [hi, List.getElem?_cons_succ] at hget
        exact hget

theorem pairwise_indexedFrom {α : Type} (k : Nat) (l : List α) :
    (indexedFrom k l).Pairwise (fun a b => a.1 < b.1) := by
  induction l generalizing k with
  | nil => simp [indexedFrom]
  | cons x xs ih =>
    simp only [indexedFrom, List.pairwise_cons]
    refine ⟨?_, ih (k + 1)⟩
    intro p hp
    have := ((mem_indexedFrom (k + 1) xs p).mp hp).1
    show k < p.1
    omega

/-- A wrapper is listed with a position exactly when it is the wrapper at it. -/
theorem mem_wrapperRefs (d : Document) (ref : FieldRef) (w : FieldWrapper) :
    (ref, w) ∈ d.wrapperRefs ↔ d.wrapperAt ref = some w := by
  unfold Document.wrapperRefs Document.wrapperAt
  simp only [List.mem_flatMap, List.mem_map, mem_indexedFrom, Nat.zero_le, true_and,
    Nat.sub_zero, Prod.exists, Prod.mk.injEq]
  constructor
  · rintro ⟨i, sec, hsec, j, w', hw', rfl, rfl⟩
    simp only [hsec, hw']
  · intro h
    cases hsec : d.sections[ref.1]? with
    | none => simp [hsec] at h
    | some sec =>
      simp only [hsec] at h
      exact ⟨ref.1, sec, hsec, ref.2, w, h, rfl, rfl⟩

/-- No position is listed twice. -/
theorem pairwise_wrapperRefs (d : Document) :
    d.wrapperRefs.Pairwise (fun a b => a.1 ≠ b.1) := by
  unfold Document.wrapperRefs
  rw [List.pairwise_flatMap]
  constructor
  · intro is _
    rw [List.pairwise_map]
    refine (pairwise_indexedFrom 0 is.2.wrappers).imp ?_
    intro a b hab heq
    have h2 : (is.1, a.1) = (is.1, b.1) := heq
    exact absurd (Prod.mk.inj h2).2 (Nat.ne_of_lt hab)
  · refine (pairwise_indexedFrom 0 d.sections).imp ?_
    intro a b hab x hx y hy heq
    simp only [List.mem_map] at hx hy
    obtain ⟨jx, _, rfl⟩ := hx
    obtain ⟨jy, _, rfl⟩ := hy
    have h2 : (a.1, jx.1) = (b.1, jy.1) := heq
    exact absurd (Prod.mk.inj h2).1 (Nat.ne_of_lt hab)

/-- The dependent fields of a name are the positions of the wrappers whose
`data-depends-on` is that name, each once. -/
theorem dependentFields_spec (d : Document) (fieldName : String) :
    (dependentFields d fieldName).Nodup ∧
    ∀ ref : FieldRef, ref ∈ dependentFields d fieldName ↔
      ∃ w, d.wrapperAt ref = some w ∧ w.dependsOn = some fieldName := by
  constructor
  · unfold dependentFields List.Nodup
    rw [List.pairwise_map]
    exact (pairwise_wrapperRefs d).filter _
  · intro ref
    unfold dependentFields
    simp only [List.mem_map, List.mem_filter, decide_eq_true_eq, Prod.exists,
      exists_and_right, exists_eq_right]
    constructor
    · rintro ⟨w, hmem, hdep⟩
      exact ⟨w, (mem_wrapperRefs d ref w).mp hmem, hdep⟩
    · rintro ⟨w, hw, hdep⟩
      exact ⟨w, (mem_wrapperRefs d ref w).mpr hw, hdep⟩

/-! ### The effect of `applyFieldLogic` on the wrappers -/

theorem showField_wrapperAt (pg : Page) (ref ref2 : FieldRef) :
    (showField pg ref).doc.wrapperAt ref2 =
      if ref2 = ref then (pg.doc.wrapperAt ref).map showEffect else pg.doc.wrapperAt ref2 := by
  unfold showField
  cases hw : pg.doc.wrapperAt ref with
  | none =>
    by_cases h : ref2 = ref
    · simp [h, hw]
    · simp [h]
  | some w =>
    by_cases hd : w.style.display = "block" ∨ w.style.display = ""
    · simp only [if_pos hd]
      by_cases h : ref2 = ref
      · simp [h, hw, showEffect, hd]
      · simp [h]
    · simp only [if_neg hd]
      by_cases h : ref2 = ref
      · subst h
        rw [wrapperAt_modifyWrapper_same, hw]
        simp [showEffect, hd]
      · rw [wrapperAt_modifyWrapper_ne _ _ _ _ h]
        simp [h]

theorem hideField_wrapperAt (pg : Page) (ref ref2 : FieldRef) :
    (hideField pg ref).doc.wrapperAt ref2 =
      if ref2 = ref then (pg.doc.wrapperAt ref).map hideEffect else pg.doc.wrapperAt ref2 := by
  unfold hideField
  cases hw : pg.doc.wrapperAt ref with
  | none =>
    by_cases h : ref2 = ref
    · simp [h, hw]
    · simp [h]
  | some w =>
    by_cases hd : w.style.display = "none"
    · simp only [if_pos hd]
      by_cases h : ref2 = ref
      · simp [h, hw, hideEffect, hd]
      · simp [h]
    · simp only [if_neg hd]
      by_cases h : ref2 = ref
      · subst h
        rw [wrapperAt_modifyWrapper_same, hw]
        simp [hideEffect, hd]
      · rw [wrapperAt_modifyWrapper_ne _ _ _ _ h]
        simp [h]

/-- `applyFieldLogic` changes the wrapper it is given, by the decision, and no other. -/
theorem applyFieldLogic_wrapperAt (self : AdaptiveConditionalLogic) (pg : Page)
    (ref ref2 : FieldRef) (fieldConfig : FieldConfig) :
    (applyFieldLogic self pg ref fieldConfig).doc.wrapperAt ref2 =
      if ref2 = ref then
        (pg.doc.wrapperAt ref).map (fieldLogicEffect (shouldShow self pg.doc fieldConfig))
      else pg.doc.wrapperAt ref2 := by
  unfold applyFieldLogic fieldLogicEffect
  by_cases hs : shouldShow self pg.doc fieldConfig = true
  · simp only [hs, if_true]
    exact showField_wrapperAt pg ref ref2
  · simp only [hs, Bool.false_eq_true, if_false]
    exact hideField_wrapperAt pg ref ref2

/-- The callbacks `applyFieldLogic` registers act on the wrapper it is given. -/
theorem applyFieldLogic_timers (self : AdaptiveConditionalLogic) (pg : Page)
    (ref : FieldRef) (fieldConfig : FieldConfig) :
    ∃ added, (applyFieldLogic self pg ref fieldConfig).timers = pg.timers ++ added ∧
      ∀ t ∈ added, t.target = ref := by
  unfold applyFieldLogic
  by_cases hs : shouldShow self pg.doc fieldConfig = true
  · rw [if_pos hs]
    unfold showField
    cases pg.doc.wrapperAt ref with
    | none => exact ⟨[], by simp, by simp⟩
    | some w =>
      by_cases hd : w.style.display = "block" ∨ w.style.display = ""
      · simp only [if_pos hd]
        exact ⟨[], by simp, by simp⟩
      · simp only [if_neg hd]
        exact ⟨[TimerTask.showDone ref], rfl, by simp [TimerTask.target]⟩
  · rw [if_neg hs]
    unfold hideField
    cases pg.doc.wrapperAt ref with
    | none => exact ⟨[], by simp, by simp⟩
    | some w =>
      by_cases hd : w.style.display = "none"
      · simp only [if_pos hd]
        exact ⟨[], by simp, by simp⟩
      · simp only [if_neg hd]
        exact ⟨[TimerTask.hideDone ref], rfl, by simp [TimerTask.target]⟩

theorem fieldLogicEffect_fieldName (decision : Bool) (w : FieldWrapper) :
    (fieldLogicEffect decision w).fieldName = w.fieldName := by
  unfold fieldLogicEffect showEffect hideEffect
  cases decision
  · simp only [Bool.false_eq_true, if_false]
    split <;> rfl
  · simp only [if_true]
    split <;> rfl

/-- `findFieldConfig` reads the document only through the name of the wrapper. -/
theorem findFieldConfig_congr (self : AdaptiveConditionalLogic) (d1 d2 : Document)
    (ref : FieldRef)
    (h : (d1.wrapperAt ref).map FieldWrapper.fieldName =
      (d2.wrapperAt ref).map FieldWrapper.fieldName) :
    findFieldConfig self d1 ref = findFieldConfig self d2 ref := by
  unfold findFieldConfig
  cases self.formData with
  | none => rfl
  | some formData =>
    cases h1 : d1.wrapperAt ref with
    | none =>
      cases h2 : d2.wrapperAt ref with
      | none => rfl
      | some w2 => simp [h1, h2] at h
    | some w1 =>
      cases h2 : d2.wrapperAt ref with
      | none => simp [h1, h2] at h
      | some w2 =>
        have hn : w1.fieldName = w2.fieldName := by simpa [h1, h2] using h
        simp only [hn]

/-- `applyFieldLogic` on one wrapper does not change what `findFieldConfig` finds
for any wrapper. -/
theorem findFieldConfig_applyFieldLogic (self : AdaptiveConditionalLogic) (pg : Page)
    (ref ref2 : FieldRef) (fieldConfig : FieldConfig) :
    findFieldConfig self (applyFieldLogic self pg ref fieldConfig).doc ref2 =
      findFieldConfig self pg.doc ref2 := by
  apply findFieldConfig_congr
  rw [applyFieldLogic_wrapperAt]
  by_cases h : ref2 = ref
  · subst h
    simp only [if_true]
    cases pg.doc.wrapperAt ref2 with
    | none => rfl
    | some w => simp [fieldLogicEffect_fieldName]
  · simp only [if_neg h]

/-- What `applyFieldLogic` does to the wrapper it is given depends on the page only
through that wrapper, the controls and the presence of the form. -/
theorem applyFieldLogic_wrapperAt_congr (self : AdaptiveConditionalLogic) (pgA pgB : Page)
    (ref : FieldRef) (fieldConfig : FieldConfig)
    (hw : pgA.doc.wrapperAt ref = pgB.doc.wrapperAt ref)
    (hform : pgA.doc.hasForm = pgB.doc.hasForm)
    (hcontrols : pgA.doc.controls = pgB.doc.controls) :
    (applyFieldLogic self pgA ref fieldConfig).doc.wrapperAt ref =
      (applyFieldLogic self pgB ref fieldConfig).doc.wrapperAt ref := by
  rw [applyFieldLogic_wrapperAt, applyFieldLogic_wrapperAt, hw,
    shouldShow_congr self pgA.doc pgB.doc fieldConfig hform hcontrols]

/-- The `forEach` of `handleFieldChange` over positions listed once each: what it
does to every wrapper, to the controls and to the pending callbacks. -/
theorem handleFieldChangeLoop_spec (self : AdaptiveConditionalLogic) (refs : List FieldRef)
    (hnodup : refs.Nodup) (pg pg' : Page)
    (h : handleFieldChangeLoop self pg refs = Except.ok pg') :
    (∀ ref2, ref2 ∉ refs → pg'.doc.wrapperAt ref2 = pg.doc.wrapperAt ref2) ∧
    (∀ ref ∈ refs, ∀ fieldConfig, findFieldConfig self pg.doc ref = Except.ok (some fieldConfig) →
      pg'.doc.wrapperAt ref = (applyFieldLogic self pg ref fieldConfig).doc.wrapperAt ref) ∧
    (∀ ref ∈ refs, findFieldConfig self pg.doc ref = Except.ok none →
      pg'.doc.wrapperAt ref = pg.doc.wrapperAt ref) ∧
    (pg'.doc.hasForm = pg.doc.hasForm ∧ pg'.doc.controls = pg.doc.controls) ∧
    ∃ added, pg'.timers = pg.timers ++ added ∧ ∀ t ∈ added, t.target ∈ refs := by
  induction refs generalizing pg with
  | nil =>
    simp only [handleFieldChangeLoop, Except.ok.injEq] at h
    subst h
    exact ⟨fun _ _ => rfl, by simp, by simp, ⟨rfl, rfl⟩, [], by simp, by simp⟩
  | cons r rest ih =>
    have hr : r ∉ rest := (List.nodup_cons.mp hnodup).1
    have hrest : rest.Nodup := (List.nodup_cons.mp hnodup).2
    unfold handleFieldChangeLoop at h
    cases hcfg : findFieldConfig self pg.doc r with
    | error e => simp [hcfg] at h
    | ok found =>
      cases found with
      | none =>
        simp only [hcfg] at h
        obtain ⟨ha, hb, hc, hd, added, hadd, htarget⟩ := ih hrest pg h
        refine ⟨?_, ?_, ?_, hd, added, hadd, ?_⟩
        · intro ref2 hmem
          exact ha ref2 (fun hm => hmem (List.mem_cons_of_mem _ hm))
        · intro ref hmem fieldConfig hfound
          rcases List.mem_cons.mp hmem with heq | hin
          · subst heq
            rw [hcfg] at hfound
            simp at hfound
          · exact hb ref hin fieldConfig hfound
        · intro ref hmem hfound
          rcases List.mem_cons.mp hmem with heq | hin
          · subst heq
            exact ha ref hr
          · exact hc ref hin hfound
        · intro t ht
          exact List.mem_cons_of_mem _ (htarget t ht)
      | some c =>
        simp only [hcfg] at h
        obtain ⟨ha, hb, hc, hd, added, hadd, htarget⟩ :=
          ih hrest (applyFieldLogic self pg r c) h
        have hctl := applyFieldLogic_controls self pg r c
        obtain ⟨added0, hadd0, htarget0⟩ := applyFieldLogic_timers self pg r c
        refine ⟨?_, ?_, ?_, ⟨hd.1.trans hctl.2, hd.2.trans hctl.1⟩,
          added0 ++ added, ?_, ?_⟩
        · intro ref2 hmem
          have hne : ref2 ≠ r := fun e => hmem (by rw [e]; exact List.mem_cons_self _ _)
          rw [ha ref2 (fun hm => hmem (List.mem_cons_of_mem _ hm)),
            applyFieldLogic_wrapperAt, if_neg hne]
        · intro ref hmem fieldConfig hfound
          rcases List.mem_cons.mp hmem with heq | hin
          · subst heq
            rw [hcfg] at hfound
            have hcc : c = fieldConfig := by simpa using hfound
            subst hcc
            exact ha ref hr
          · have hne : ref ≠ r := fun e => hr (by rw [← e]; exact hin)
            have hfound' : findFieldConfig self (applyFieldLogic self pg r c).doc ref =
                Except.ok (some fieldConfig) := by
              rw [findFieldConfig_applyFieldLogic]
              exact hfound
            rw [hb ref hin fieldConfig hfound']
            apply applyFieldLogic_wrapperAt_congr
            · rw [applyFieldLogic_wrapperAt, if_neg hne]
            · exact hctl.2
            · exact hctl.1
        · intro ref hmem hfound
          rcases List.mem_cons.mp hmem with heq | hin
          · subst heq
            rw [hcfg] at hfound
            simp at hfound
          · have hne : ref ≠ r := fun e => hr (by rw [← e]; exact hin)
            have hfound' : findFieldConfig self (applyFieldLogic self pg r c).doc ref =
                Except.ok none := by
              rw [findFieldConfig_applyFieldLogic]
              exact hfound
            rw [hc ref hin hfound', applyFieldLogic_wrapperAt, if_neg hne]
        · rw [hadd, hadd0, List.append_assoc]
        · intro t ht
          rcases List.mem_append.mp ht with h0 | h1
          · rw [htarget0 t h0]
            exact List.mem_cons_self _ _
          · exact List.mem_cons_of_mem _ (htarget t h1)

/-! ### `handleFieldChange` -/

theorem findConfigByName_ok (fieldName : String) (formData : List FieldConfig)
    (hall : ∀ fieldConfig ∈ formData, fieldConfig.get "form_label" ≠ none) :
    ∃ found, findConfigByName fieldName formData = Except.ok found := by
  induction formData with
  | nil => exact ⟨none, rfl⟩
  | cons config rest ih =>
    unfold findConfigByName
    cases hl : config.get "form_label" with
    | none => exact absurd hl (hall config (List.mem_cons_self _ _))
    | some label =>
      by_cases hn : resolverFieldName label = fieldName
      · exact ⟨some config, by simp [hn]⟩
      · simp only [if_neg hn]
        exact ih (fun c hc => hall c (List.mem_cons_of_mem _ hc))

theorem findFieldConfig_ok (self : AdaptiveConditionalLogic) (doc : Document) (ref : FieldRef)
    (hall : ∀ formData, self.formData = some formData →
      ∀ fieldConfig ∈ formData, fieldConfig.get "form_label" ≠ none) :
    ∃ found, findFieldConfig self doc ref = Except.ok found := by
  unfold findFieldConfig
  cases hfd : self.formData with
  | none => exact ⟨none, rfl⟩
  | some formData =>
    cases doc.wrapperAt ref with
    | none => exact ⟨none, rfl⟩
    | some w =>
      by_cases hn : w.fieldName = ""
      · exact ⟨none, by simp [hn]⟩
      · simp only [if_neg hn]
        exact findConfigByName_ok w.fieldName formData (hall formData hfd)

theorem handleFieldChangeLoop_ok (self : AdaptiveConditionalLogic) (refs : List FieldRef)
    (pg : Page)
    (hall : ∀ formData, self.formData = some formData →
      ∀ fieldConfig ∈ formData, fieldConfig.get "form_label" ≠ none) :
    ∃ pg', handleFieldChangeLoop self pg refs = Except.ok pg' := by
  induction refs generalizing pg with
  | nil => exact ⟨pg, rfl⟩
  | cons r rest ih =>
    unfold handleFieldChangeLoop
    obtain ⟨found, hfound⟩ := findFieldConfig_ok self pg.doc r hall
    cases found with
    | none =>
      simp only [hfound]
      exact ih pg
    | some c =>
      simp only [hfound]
      exact ih (applyFieldLogic self pg r c)

/-- C16 (as stated, refuted): a field depending on `problemcategory` is not
displayed and the category changes to Technical, for which the field is to be
shown.  (1) On a resolver whose catalog is not loaded `findFieldConfig` finds no
row and `handleFieldChange` leaves the dependent field as it is, where the loaded
resolver shows it.  (2) For a row labelled "#" the wrapper carries an empty field
name, `findFieldConfig` returns `null` for it and the dependent field is skipped,
although the resolver decides to show it and a full pass finds and shows it. -/
theorem handleFieldChange_skips_dependent_counterexample :
    (dependentFields (categoryDocument "Technical" [hiddenSystemsWrapper]) "problemcategory" =
        [(0, 1)] ∧
      (handleFieldChange uninitializedLogic
          { doc := categoryDocument "Technical" [hiddenSystemsWrapper], timers := [] }
          "problemcategory").toOption =
        some { doc := categoryDocument "Technical" [hiddenSystemsWrapper], timers := [] } ∧
      (handleFieldChange (initialLogic [categoryField, scenarioCField])
          { doc := categoryDocument "Technical" [hiddenSystemsWrapper], timers := [] }
          "problemcategory").toOption.map
        (fun pg => (pg.doc.wrapperAt (0, 1)).map (fun w => w.style.display)) =
        some (some "block")) ∧
    (FormGenerator.generatedFieldName "#" = "" ∧
      dependentFields (categoryDocument "Technical" [symbolLabelWrapper]) "problemcategory" =
        [(0, 1)] ∧
      shouldShow (initialLogic [categoryField, symbolLabelField])
        (categoryDocument "Technical" [symbolLabelWrapper]) symbolLabelField = true ∧
      (handleFieldChange (initialLogic [categoryField, symbolLabelField])
          { doc := categoryDocument "Technical" [symbolLabelWrapper], timers := [] }
          "problemcategory").toOption =
        some { doc := categoryDocument "Technical" [symbolLabelWrapper], timers := [] } ∧
      (applyConditionalLogic (initialLogic [categoryField, symbolLabelField])
          { doc := categoryDocument "Technical" [symbolLabelWrapper], timers := [] }).toOption.map
        (fun pg => (pg.doc.wrapperAt (0, 1)).map (fun w => w.style.display)) =
        some (some "block")) := by
  decide

/-- C16 (amended): when every row of the catalog has a `form_label`,
`handleFieldChange` for a change of the field named `fieldName` ends without an
error.  It applies `applyFieldLogic` to each wrapper whose `data-depends-on` is
`fieldName` and for which `findFieldConfig` finds a row, and skips a dependent
wrapper for which it finds none (catalog not loaded, empty `data-field-name`, no row
of that name).  Every wrapper that does not depend on `fieldName` keeps its style
and its controls, the controls of the whole document keep their values, and every
callback registered acts on a wrapper that depends on `fieldName`; a callback
changes no wrapper but the one it acts on. -/
theorem handleFieldChange_targets_dependents (self : AdaptiveConditionalLogic) (pg : Page)
    (fieldName : String) :
    ((∀ formData, self.formData = some formData →
        ∀ fieldConfig ∈ formData, fieldConfig.get "form_label" ≠ none) →
      ∃ pg', handleFieldChange self pg fieldName = Except.ok pg') ∧
    ∀ pg', handleFieldChange self pg fieldName = Except.ok pg' →
      (∀ ref w, pg.doc.wrapperAt ref = some w → w.dependsOn ≠ some fieldName →
        pg'.doc.wrapperAt ref = some w) ∧
      (∀ ref w fieldConfig, pg.doc.wrapperAt ref = some w → w.dependsOn = some fieldName →
        findFieldConfig self pg.doc ref = Except.ok (some fieldConfig) →
        pg'.doc.wrapperAt ref = (applyFieldLogic self pg ref fieldConfig).doc.wrapperAt ref) ∧
      (∀ ref w, pg.doc.wrapperAt ref = some w → w.dependsOn = some fieldName →
        findFieldConfig self pg.doc ref = Except.ok none →
        pg'.doc.wrapperAt ref = some w) ∧
      pg'.doc.controls = pg.doc.controls ∧
      (∃ added, pg'.timers = pg.timers ++ added ∧
        ∀ t ∈ added, ∃ w, pg.doc.wrapperAt t.target = some w ∧
          w.dependsOn = some fieldName) ∧
      ∀ (doc : Document) (t : TimerTask) (ref2 : FieldRef), t.target ≠ ref2 →
        (runTimer doc t).wrapperAt ref2 = doc.wrapperAt ref2 := by
  constructor
  · intro hall
    exact handleFieldChangeLoop_ok self _ pg hall
  · intro pg' h
    obtain ⟨hnodup, hmem⟩ := dependentFields_spec pg.doc fieldName
    obtain ⟨ha, hb, hc, hd, added, hadd, htarget⟩ :=
      handleFieldChangeLoop_spec self _ hnodup pg pg' h
    refine ⟨?_, ?_, ?_, hd.2, ⟨added, hadd, ?_⟩, ?_⟩
    · intro ref w hw hdep
      rw [ha ref, hw]
      intro hin
      obtain ⟨w', hw', hdep'⟩ := (hmem ref).mp hin
      rw [hw] at hw'
      exact hdep (by rw [Option.some.inj hw']; exact hdep')
    · intro ref w fieldConfig hw hdep hfound
      exact hb ref ((hmem ref).mpr ⟨w, hw, hdep⟩) fieldConfig hfound
    · intro ref w hw hdep hfound
      rw [hc ref ((hmem ref).mpr ⟨w, hw, hdep⟩) hfound, hw]
    · intro t ht
      exact (hmem t.target).mp (htarget t ht)
    · intro doc t ref2 hne
      cases t with
      | showDone ref =>
        exact wrapperAt_modifyWrapper_ne _ _ _ _ (fun e => hne e.symm)
      | hideDone ref =>
        exact wrapperAt_modifyWrapper_ne _ _ _ _ (fun e => hne e.symm)

/-- C16 (amended), witness: on the change of the category to Technical the handler
ends without an error, and the category field, which does not depend on the
category, is left as it was. -/
theorem handleFieldChange_targets_dependents_witness :
    (∃ pg', handleFieldChange (initialLogic [categoryField, scenarioCField])
      { doc := categoryDocument "Technical" [hiddenSystemsWrapper], timers := [] }
      "problemcategory" = Except.ok pg') ∧
    afterCategoryChangePage.doc.wrapperAt (0, 0) =
      (categoryDocument "Technical" [hiddenSystemsWrapper]).wrapperAt (0, 0) :=
  have h := handleFieldChange_targets_dependents (initialLogic [categoryField, scenarioCField])
    { doc := categoryDocument "Technical" [hiddenSystemsWrapper], timers := [] }
    "problemcategory"
  ⟨h.1 (by decide),
   (h.2 afterCategoryChangePage rfl).1 (0, 0) _ rfl (by decide)⟩

/-! ### The catalog parser: splitting a line -/

/-- Characters other than the comma are collected into `currentValue`. -/
theorem splitLineLoop_append (numColumns : Nat) (seg rest : List Char) (values : List String)
    (currentValue : List Char) (commaCount : Nat) (hseg : ',' ∉ seg) :
    splitLineLoop numColumns (seg ++ rest) values currentValue commaCount =
      splitLineLoop numColumns rest values (currentValue ++ seg) commaCount := by
  induction seg generalizing currentValue with
  | nil => simp
  | cons c cs ih =>
    have hc : c ≠ ',' := fun e => hseg (by rw [e]; exact List.mem_cons_self _ _)
    have hcs : ',' ∉ cs := fun hm => hseg (List.mem_cons_of_mem _ hm)
    simp only [List.cons_append, splitLineLoop, hc, false_and, if_false, List.append_eq]
    rw [ih _ hcs]
    simp

/-- Once `numColumns - 1` commas were split at, every character is collected. -/
theorem splitLineLoop_full (numColumns : Nat) (cs : List Char) (values : List String)
    (currentValue : List Char) (commaCount : Nat) (hfull : ¬ commaCount < numColumns - 1) :
    splitLineLoop numColumns cs values currentValue commaCount =
      (values, currentValue ++ cs) := by
  induction cs generalizing currentValue with
  | nil => simp [splitLineLoop]
  | cons c rest ih =>
    simp only [splitLineLoop, hfull, and_false, if_false]
    rw [ih]
    simp

/-- The loop on a line made of comma-free segments and a remainder. -/
theorem splitLineLoop_joinSegments (numColumns : Nat) (segments : List (List Char))
    (remainder : List Char) (values : List String) (commaCount : Nat)
    (hseg : ∀ seg ∈ segments, ',' ∉ seg)
    (hcount : commaCount + segments.length ≤ numColumns - 1)
    (hrem : commaCount + segments.length < numColumns - 1 → ',' ∉ remainder) :
    splitLineLoop numColumns (joinSegments segments remainder) values [] commaCount =
      (values ++ segments.map (fun seg => String.mk (jsTrimChars seg)), remainder) := by
  induction segments generalizing values commaCount with
  | nil =>
    simp only [joinSegments, List.foldr_nil, List.map_nil, List.append_nil]
    by_cases hlt : commaCount < numColumns - 1
    · have hno : ',' ∉ remainder := hrem (by simpa using hlt)
      have h := splitLineLoop_append numColumns remainder [] values [] commaCount hno
      simp only [List.append_nil, List.nil_append] at h
      rw [h]
      rfl
    · rw [splitLineLoop_full _ _ _ _ _ hlt]
      simp
  | cons seg rest ih =>
    have hno : ',' ∉ seg := hseg seg (List.mem_cons_self _ _)
    have hlt : commaCount < numColumns - 1 := by
      simp only [List.length_cons] at hcount
      omega
    simp only [joinSegments, List.foldr_cons]
    rw [splitLineLoop_append _ _ _ _ _ _ hno]
    simp only [List.nil_append, splitLineLoop, hlt, and_self, if_true]
    have hih := ih (values ++ [String.mk (jsTrimChars seg)]) (commaCount + 1)
      (fun s hs => hseg s (List.mem_cons_of_mem _ hs))
      (by simp only [List.length_cons] at hcount; omega)
      (fun h => hrem (by simp only [List.length_cons]; omega))
    simp only [joinSegments] at hih
    rw [hih]
    simp

/-- The values of a line made of at most `numColumns - 1` comma-free segments and a
remainder, which is comma-free too when the segments are fewer: the trimmed
segments, the trimmed remainder, then empty strings up to `numColumns` values. -/
theorem lineValues_joinSegments (numColumns : Nat) (segments : List (List Char))
    (remainder : List Char) (hseg : ∀ seg ∈ segments, ',' ∉ seg)
    (hcount : segments.length ≤ numColumns - 1)
    (hrem : segments.length < numColumns - 1 → ',' ∉ remainder) :
    lineValues numColumns (joinSegments segments remainder) =
      padValues numColumns
        (segments.map (fun seg => String.mk (jsTrimChars seg)) ++
          [String.mk (jsTrimChars remainder)]) := by
  unfold lineValues
  rw [splitLineLoop_joinSegments numColumns segments remainder [] 0 hseg (by omega)
    (fun h => hrem (by omega))]
  simp

/-- The rows `parseDataLines` builds: one for each line that is not blank, in order. -/
theorem parseDataLines_eq (headers : List String) (dataLines : List (List Char)) :
    parseDataLines headers dataLines =
      (nonBlankLines dataLines).map
        (fun line => buildRow headers (lineValues headers.length line)) := by
  induction dataLines with
  | nil => rfl
  | cons raw rest ih =>
    unfold parseDataLines nonBlankLines
    by_cases hblank : jsTrimChars raw = []
    · simp only [hblank, if_true]
      rw [ih]
      simp [nonBlankLines, hblank]
    · simp only [hblank, if_false]
      rw [ih]
      simp [nonBlankLines, hblank]

/-- C18: for a header of N columns `parseCSV` (in `utils.js` and in `FormGenerator`)
builds each row from the values of a trimmed non-blank line, and a line made of
N-1 comma-free segments, each followed by a comma, and a remainder gives the N-1
trimmed segments and then the trimmed remainder, further commas included; header
"a,b" and line "x,y,z" give a="x", b="y,z". -/
theorem parseCSV_splits_at_first_commas (segments : List (List Char)) (remainder : List Char)
    (hseg : ∀ seg ∈ segments, ',' ∉ seg) :
    lineValues (segments.length + 1) (joinSegments segments remainder) =
      segments.map (fun seg => String.mk (jsTrimChars seg)) ++
        [String.mk (jsTrimChars remainder)] ∧
    (∀ (csvText : String) (firstLine : List Char) (dataLines : List (List Char)),
      csvLines csvText = firstLine :: dataLines →
      parseCSV csvText =
        (nonBlankLines dataLines).map (fun line =>
          buildRow (csvHeaders firstLine) (lineValues (csvHeaders firstLine).length line)) ∧
      FormGenerator.parseCSV csvText = parseCSV csvText) ∧
    parseCSV "a,b\nx,y,z" = [[("a", "x"), ("b", "y,z")]] ∧
    FormGenerator.parseCSV "a,b\nx,y,z" = [[("a", "x"), ("b", "y,z")]] := by
  refine ⟨?_, ?_, by decide, by decide⟩
  · rw [lineValues_joinSegments (segments.length + 1) segments remainder hseg (by simp)
      (fun h => absurd h (by simp))]
    simp [padValues]
  · intro csvText firstLine dataLines hlines
    constructor
    · unfold parseCSV
      rw [hlines]
      exact parseDataLines_eq _ _
    · rfl

/-- C18, witness: the line "x , y,z" under a header of two columns. -/
theorem parseCSV_splits_at_first_commas_witness :
    lineValues 2 "x , y,z".data = ["x", "y,z"] :=
  (parseCSV_splits_at_first_commas ["x ".data] " y,z".data (by decide)).1

/-! ### The catalog parser: building a row -/

theorem lookup_map_replace (row : FieldConfig) (key value key2 : String) :
    (row.map (fun kv => if kv.1 = key then (key, value) else kv)).lookup key2 =
      if key2 = key then (if row.any (fun kv => decide (kv.1 = key)) then some value else none)
      else row.lookup key2 := by
  induction row with
  | nil => simp
  | cons entry rest ih =>
    obtain ⟨k, v⟩ := entry
    by_cases hk : k = key
    · subst hk
      by_cases h2 : key2 = k
      · subst h2
        simp [List.lookup_cons]
      · have hb : (key2 == k) = false := by simpa using h2
        simp [List.lookup_cons, hb, ih, h2]
    · by_cases h2 : key2 = key
      · subst h2
        have hb : (key2 == k) = false := by simpa using fun e : key2 = k => hk e.symm
        have hd : decide (k = key2) = false := by simpa using hk
        simp only [List.map_cons, hk, if_false, List.lookup_cons, hb, ih, if_true,
          List.any_cons, hd, Bool.false_or, decide_False]
      · by_cases h3 : key2 = k
        · subst h3
          simp [List.lookup_cons, hk, h2]
        · have hb : (key2 == k) = false := by simpa using h3
          simp [List.lookup_cons, hb, ih, hk, h2]

theorem lookup_append_new (row : FieldConfig) (key value key2 : String)
    (hnew : row.any (fun kv => decide (kv.1 = key)) = false) :
    (row ++ [(key, value)]).lookup key2 =
      if key2 = key then some value else row.lookup key2 := by
  induction row with
  | nil =>
    by_cases h2 : key2 = key
    · subst h2
      simp [List.lookup_cons]
    · have hb : (key2 == key) = false := by simpa using h2
      simp [List.lookup_cons, hb, h2]
  | cons entry rest ih =>
    obtain ⟨k, v⟩ := entry
    simp only [List.any_cons, Bool.or_eq_false_iff, decide_eq_false_iff_not] at hnew
    have hrest := ih hnew.2
    by_cases h3 : key2 = k
    · subst h3
      have hne : ¬ key2 = key := hnew.1
      simp [List.lookup_cons, hne]
    · have hb : (key2 == k) = false := by simpa using h3
      simp only [List.cons_append, List.lookup_cons, hb]
      exact hrest

/-- Reading a property after the assignment `row[key] = value`. -/
theorem get_setProperty (row : FieldConfig) (key value key2 : String) :
    (setProperty row key value).get key2 =
      if key = "__proto__" then row.get key2
      else if key2 = key then some value else row.get key2 := by
  unfold setProperty FieldConfig.get
  by_cases hp : key = "__proto__"
  · simp [hp]
  · simp only [if_neg hp]
    by_cases hany : row.any (fun kv => decide (kv.1 = key)) = true
    · simp only [hany, if_true]
      rw [lookup_map_replace]
      simp [hany]
    · have hfalse : row.any (fun kv => decide (kv.1 = key)) = false :=
        Bool.eq_false_iff.mpr hany
      simp only [hfalse, Bool.false_eq_true, if_false]
      exact lookup_append_new row key value key2 hfalse

/-- The `forEach` of the headers from index `k` on, started on `row0`: a name other
than `__proto__` reads the value at its last index among the headers, and what
`row0` held when it is not a header. -/
theorem get_foldl_setProperty (values : List String) (name : String)
    (hname : name ≠ "__proto__") (headers : List String) (k : Nat) (row0 : FieldConfig) :
    (name ∉ headers →
      ((indexedFrom k headers).foldl
        (fun row ih => setProperty row ih.2 ((values[ih.1]?).getD "")) row0).get name =
        row0.get name) ∧
    (name ∈ headers →
      ∃ i, k ≤ i ∧ headers[i - k]? = some name ∧
        (∀ j, i < j → headers[j - k]? ≠ some name) ∧
        ((indexedFrom k headers).foldl
          (fun row ih => setProperty row ih.2 ((values[ih.1]?).getD "")) row0).get name =
          some ((values[i]?).getD "")) := by
  induction headers generalizing k row0 with
  | nil => simp [indexedFrom]
  | cons x xs ih =>
    simp only [indexedFrom, List.foldl_cons]
    obtain ⟨ih1, ih2⟩ := ih (k + 1) (setProperty row0 x ((values[k]?).getD ""))
    constructor
    · intro hnot
      have hx : name ≠ x := fun e => hnot (by rw [e]; exact List.mem_cons_self _ _)
      have hxs : name ∉ xs := fun hm => hnot (List.mem_cons_of_mem _ hm)
      rw [ih1 hxs, get_setProperty]
      by_cases hp : x = "__proto__"
      · simp [hp]
      · simp [hp, hx]
    · intro hmem
      by_cases hxs : name ∈ xs
      · obtain ⟨i, hki, hget, hlast, hval⟩ := ih2 hxs
        refine ⟨i, by omega, ?_, ?_, hval⟩
        · have hi : i - k = (i - (k + 1)) + 1 := by omega
          rw [hi, List.getElem?_cons_succ]
          exact hget
        · intro j hj
          have hjk : j - k = (j - (k + 1)) + 1 := by omega
          rw [hjk, List.getElem?_cons_succ]
          exact hlast j hj
      · have hx : name = x := by
          rcases List.mem_cons.mp hmem with h | h
          · exact h
          · exact absurd h hxs
        subst hx
        refine ⟨k, le_refl k, by simp, ?_, ?_⟩
        · intro j hj
          have hjk : j - k = (j - (k + 1)) + 1 := by omega
          rw [hjk, List.getElem?_cons_succ]
          intro hget
          exact hxs (List.mem_iff_getElem?.mpr ⟨_, hget⟩)
        · rw [ih1 hxs, get_setProperty]
          simp [hname]

/-- In the row built for a line every header other than `__proto__` has a value: the
one at the last index where the header occurs. -/
theorem buildRow_get (headers values : List String) (name : String)
    (hname : name ≠ "__proto__") (hmem : name ∈ headers) :
    ∃ i : Nat, headers[i]? = some name ∧ (∀ j : Nat, i < j → headers[j]? ≠ some name) ∧
      (buildRow headers values).get name = some ((values[i]?).getD "") := by
  obtain ⟨i, _, hget, hlast, hval⟩ :=
    (get_foldl_setProperty values name hname headers 0 []).2 hmem
  refine ⟨i, ?_, ?_, hval⟩
  · simpa using hget
  · intro j hj
    simpa using hlast j hj

/-! ### The catalog parser: the rows -/

theorem splitChars_ne_nil (sep : Char) (cs : List Char) : splitChars sep cs ≠ [] := by
  cases cs with
  | nil => simp [splitChars]
  | cons c rest =>
    unfold splitChars
    by_cases h : c = sep
    · simp [h]
    · simp only [if_neg h]
      cases splitChars sep rest <;> simp

/-- The values filled in for the columns a short line does not reach are empty. -/
theorem padValues_getElem?_missing (numColumns : Nat) (values : List String) (i : Nat)
    (hlow : values.length ≤ i) (hhigh : i < numColumns) :
    (padValues numColumns values)[i]? = some "" := by
  unfold padValues
  rw [List.getElem?_append_right hlow, List.getElem?_replicate]
  have : i - values.length < numColumns - values.length := by omega
  simp [this]

/-- For every input text `parseCSV` returns one row for each line after the first
that is not blank, in the order of the lines, and in each row every header other than
`__proto__` has a value. -/
theorem parseCSV_rows (csvText : String) :
    ∃ (firstLine : List Char) (dataLines : List (List Char)),
      csvLines csvText = firstLine :: dataLines ∧
      parseCSV csvText =
        (nonBlankLines dataLines).map (fun line =>
          buildRow (csvHeaders firstLine) (lineValues (csvHeaders firstLine).length line)) ∧
      (parseCSV csvText).length = (nonBlankLines dataLines).length ∧
      ∀ row ∈ parseCSV csvText, ∀ name ∈ csvHeaders firstLine, name ≠ "__proto__" →
        ∃ v, row.get name = some v := by
  cases hlines : csvLines csvText with
  | nil => exact absurd hlines (splitChars_ne_nil _ _)
  | cons firstLine dataLines =>
    have hrows : parseCSV csvText =
        (nonBlankLines dataLines).map (fun line =>
          buildRow (csvHeaders firstLine) (lineValues (csvHeaders firstLine).length line)) := by
      unfold parseCSV
      rw [hlines]
      exact parseDataLines_eq _ _
    refine ⟨firstLine, dataLines, rfl, hrows, by rw [hrows, List.length_map], ?_⟩
    intro row hrow name hname hproto
    rw [hrows, List.mem_map] at hrow
    obtain ⟨line, _, rfl⟩ := hrow
    obtain ⟨i, _, _, hval⟩ := buildRow_get (csvHeaders firstLine)
      (lineValues (csvHeaders firstLine).length line) name hproto hname
    exact ⟨_, hval⟩

/-- C19: for the text with the header line "a,__proto__" and the line "x", one
value short, `parseCSV` (in `utils.js` and in `FormGenerator`) fills in the empty
string for the second column, but the assignment to the header `__proto__` makes no
property: the row holds a value for "a" only, not the empty string for the second
header. -/
theorem parseCSV_proto_header_has_no_value :
    csvHeaders "a,__proto__".data = ["a", "__proto__"] ∧
    lineValues 2 "x".data = ["x", ""] ∧
    parseCSV "a,__proto__\nx" = [[("a", "x")]] ∧
    (parseCSV "a,__proto__\nx").map (fun row => row.get "__proto__") = [none] ∧
    FormGenerator.parseCSV "a,__proto__\nx" = [[("a", "x")]] ∧
    parseCSV "a,b\nx\n\n1,2" = [[("a", "x"), ("b", "")], [("a", "1"), ("b", "2")]] := by
  decide

/-! ### The two parsers -/

/-- C29: for every input text the function `parseCSV` of `utils.js` and the method
`parseCSV` of `FormGenerator` return equal lists of rows. -/
theorem parseCSV_eq_formGenerator_parseCSV (csvText : String) :
    parseCSV csvText = FormGenerator.parseCSV csvText := by
  unfold parseCSV FormGenerator.parseCSV
  rfl

/-! ### Checkbox groups as dependencies -/

/-- No piece of a split holds the separator. -/
theorem not_mem_of_mem_splitChars (sep : Char) (cs piece : List Char)
    (h : piece ∈ splitChars sep cs) : sep ∉ piece := by
  induction cs generalizing piece with
  | nil =>
    simp only [splitChars, List.mem_singleton] at h
    subst h
    simp
  | cons c rest ih =>
    unfold splitChars at h
    by_cases hc : c = sep
    · simp only [if_pos hc, List.mem_cons] at h
      rcases h with h | h
      · subst h
        simp
      · exact ih piece h
    · simp only [if_neg hc] at h
      cases hs : splitChars sep rest with
      | nil =>
        simp only [hs, List.mem_singleton] at h
        subst h
        simpa using fun e : sep = c => hc e.symm
      | cons first others =>
        simp only [hs, List.mem_cons] at h
        rcases h with h | h
        · subst h
          have hfirst := ih first (by rw [hs]; exact List.mem_cons_self _ _)
          simp only [List.mem_cons, not_or]
          exact ⟨fun e => hc e.symm, hfirst⟩
        · exact ih piece (by rw [hs]; exact List.mem_cons_of_mem _ h)

/-- No element of `s.split('|')` holds a bar. -/
theorem not_mem_of_mem_jsSplit (sep : Char) (s v : String) (h : v ∈ jsSplit sep s) :
    sep ∉ v.data := by
  unfold jsSplit at h
  simp only [List.mem_map] at h
  obtain ⟨piece, hpiece, rfl⟩ := h
  exact not_mem_of_mem_splitChars sep s.data piece hpiece

/-- Two or more strings joined with a bar hold a bar. -/
theorem bar_mem_jsJoin (xs : List String) (h : 2 ≤ xs.length) :
    '|' ∈ (jsJoin "|" xs).data := by
  match xs, h with
  | x :: y :: rest, _ =>
    unfold jsJoin
    simp [String.data_append]

/-- C25: when the control a dependency refers to is a checkbox and two or more
inputs of its name are checked, the current value is their values joined with a
bar, so it holds a bar; no element of `depends_on_values` split on the bar holds
one; hence the dependency gate is false whatever `depends_on_values` is. -/
theorem checkbox_group_multi_checked_gate_false (doc : Document) (fieldConfig : FieldConfig)
    (dependsOn : String) (field : FormControl)
    (hdep : fieldConfig.get "depends_on_field" = some dependsOn) (hne : dependsOn ≠ "")
    (hform : doc.hasForm = true) (hfield : doc.queryByName dependsOn = some field)
    (htype : field.kind.type = "checkbox")
    (hchecked : 2 ≤ (doc.controls.filter
      (fun c => c.isCheckedInput && decide (c.name = field.name))).length) :
    getFieldValue doc field =
      jsJoin "|" ((doc.controls.filter
        (fun c => c.isCheckedInput && decide (c.name = field.name))).map FormControl.value) ∧
    '|' ∈ (getFieldValue doc field).data ∧
    (∀ (s v : String), v ∈ jsSplit '|' s → '|' ∉ v.data) ∧
    checkTraditionalConditionalLogic doc fieldConfig = false := by
  have hvalue : getFieldValue doc field =
      jsJoin "|" ((doc.controls.filter
        (fun c => c.isCheckedInput && decide (c.name = field.name))).map
          FormControl.value) := by
    have hr : field.kind.type ≠ "radio" := by rw [htype]; decide
    simp [getFieldValue, htype]
  have hbar : '|' ∈ (getFieldValue doc field).data := by
    rw [hvalue]
    exact bar_mem_jsJoin _ (by rw [List.length_map]; exact hchecked)
  refine ⟨hvalue, hbar, fun s v hv => not_mem_of_mem_jsSplit '|' s v hv, ?_⟩
  rw [checkTraditionalConditionalLogic_of_found doc fieldConfig dependsOn field hdep hne
    hform hfield]
  simp only [decide_eq_false_iff_not]
  intro hmem
  unfold requiredValues at hmem
  cases hv : fieldConfig.get "depends_on_values" with
  | none => simp [hv] at hmem
  | some v =>
    simp only [hv] at hmem
    by_cases hempty : v = ""
    · simp [hempty] at hmem
    · simp only [if_neg hempty] at hmem
      exact not_mem_of_mem_jsSplit '|' v _ hmem hbar

/-- C25, witness: the group `skills` with "Python" and "SQL" checked and a row
listing both values. -/
theorem checkbox_group_multi_checked_gate_false_witness :
    getFieldValue skillsDocument (skillBox "Python" true) = "Python|SQL" ∧
    checkTraditionalConditionalLogic skillsDocument skillsDependentField = false :=
  have h := checkbox_group_multi_checked_gate_false skillsDocument skillsDependentField
    "skills" (skillBox "Python" true) (by decide) (by decide) (by decide) (by decide)
    (by decide) (by decide)
  ⟨h.1, h.2.2.2⟩

/-! ### A dependency chain over two passes -/

/-- C26: a catalog with a dependency chain and a form state for which a pass
followed by the clearing of the fields it hid is not a fixed point.  In the state
(simple, strategic) the first pass decides to show "Lock-in details", which depends
on "Vendor lock-in" holding "Yes", and to hide "Vendor lock-in"; once the callbacks
have run "Vendor lock-in" is not displayed and its value is empty while "Lock-in
details" is still displayed; a second pass in the same state decides to hide
"Lock-in details", and its callbacks leave it not displayed and empty. -/
theorem second_pass_hides_dependent_field :
    ∃ (self : AdaptiveConditionalLogic) (pg pg1 pg2 : Page) (fieldA fieldB : FieldConfig),
      self.formData = some [fieldA, fieldB] ∧
      fieldB.get "depends_on_field" = some "vendorlockin" ∧
      shouldShow self pg.doc fieldA = false ∧
      shouldShow self pg.doc fieldB = true ∧
      (applyConditionalLogic self pg).map runTimers = Except.ok pg1 ∧
      (pg1.doc.wrapperAt (0, 0)).map
        (fun w => (w.style.display, w.controls.map FormControl.value)) =
        some ("none", [""]) ∧
      (pg1.doc.wrapperAt (0, 1)).map (fun w => w.style.display) = some "block" ∧
      shouldShow self pg1.doc fieldB = false ∧
      (applyConditionalLogic self pg1).map runTimers = Except.ok pg2 ∧
      (pg2.doc.wrapperAt (0, 1)).map
        (fun w => (w.style.display, w.controls.map FormControl.value)) =
        some ("none", [""]) :=
  ⟨initialLogic [lockInField, lockInDetailsField], chainPage, chainPageAfterFirstPass,
    runTimers (match applyConditionalLogic (initialLogic [lockInField, lockInDetailsField])
        chainPageAfterFirstPass with
      | Except.ok pg => pg
      | Except.error _ => chainPage),
    lockInField, lockInDetailsField,
    rfl, by decide, by decide, by decide, rfl, by decide, by decide, by decide, rfl,
    by decide⟩

/-! ### The earlier handler and the resolver -/

/-- C28: a row, a classification state and form values on which the two handlers
disagree.  The field depends on the category being Technical or Operational and is
flagged for complex projects only; the category is Technical and the state is
(simple, strategic).  `ConditionalLogic.checkConditionalField` decides to show the
field, as its dependency value matches, and displays it at once; `applyFieldLogic`
decides to hide it, as its classification gate is false, and its callback leaves it
not displayed. -/
theorem legacy_and_adaptive_handlers_disagree :
    ∃ (fieldConfig : FieldConfig) (self : AdaptiveConditionalLogic) (pg : Page)
      (fieldElement : FieldWrapper) (triggerField : FormControl),
      pg.doc.wrapperAt (0, 1) = some fieldElement ∧
      pg.doc.queryByName "problemcategory" = some triggerField ∧
      findFieldConfig self pg.doc (0, 1) = Except.ok (some fieldConfig) ∧
      ConditionalLogic.shouldShow pg.doc fieldElement triggerField = Except.ok true ∧
      checkTraditionalConditionalLogic pg.doc fieldConfig = true ∧
      shouldShowField fieldConfig (templateString self.currentComplexity)
        self.currentProjectType = false ∧
      shouldShow self pg.doc fieldConfig = false ∧
      (ConditionalLogic.handleFieldChange pg triggerField).toOption.map
        (fun p => (p.doc.wrapperAt (0, 1)).map (fun w => w.style.display)) =
        some (some "block") ∧
      (handleFieldChange self pg "problemcategory").toOption.map
        (fun p => ((runTimers p).doc.wrapperAt (0, 1)).map (fun w => w.style.display)) =
        some (some "none") :=
  ⟨complexOnlyDependentField, initialLogic [categoryField, complexOnlyDependentField],
    { doc := categoryDocument "Technical" [hiddenSystemsWrapper], timers := [] },
    hiddenSystemsWrapper, categorySelect "Technical",
    by decide, by decide, rfl, rfl, by decide, by decide, by decide, by decide,
    by decide⟩

/-! ### The form mapping -/

/-- C21: for the entries ("notes", "") and ("notes", "details"), a name occurring
twice, `getFormData` (of `FormSubmission` and of `ProgressTracker`) maps the name to
the single string "details", not to the list of its two values: the test
`if (data[key])` takes the empty first value for an absent one.  Two empty values
give the single empty string.  A name whose values are not empty is collected into
the list of its values in order. -/
theorem getFormData_drops_empty_first_value :
    FormSubmission.getFormData [("notes", ""), ("notes", "details")] =
      some [("notes", FormValue.single "details")] ∧
    ProgressTracker.getFormData (some [("notes", ""), ("notes", "details")]) =
      some [("notes", FormValue.single "details")] ∧
    FormSubmission.getFormData [("notes", ""), ("notes", "")] =
      some [("notes", FormValue.single "")] ∧
    FormSubmission.getFormData
        [("skills", "Python"), ("org", "Acme"), ("skills", "SQL"), ("skills", "Go")] =
      some [("skills", FormValue.list
              [FormItem.str "Python", FormItem.str "SQL", FormItem.str "Go"]),
            ("org", FormValue.single "Acme")] := by
  decide

/-! ### `handleSubmit` -/

/-- C24: a call of `handleSubmit` made while `isSubmitting` is true returns at once:
the flag stays true, the button and the storage are untouched, and the only effect
is `event.preventDefault()`: the form data are not read, the server is not probed,
nothing is posted or saved, and the promise is not rejected. -/
theorem handleSubmit_overlapping_call_dropped (st : FormSubmission.SubmitState)
    (env : FormSubmission.SubmitEnv) (hbusy : st.isSubmitting = true) :
    (FormSubmission.handleSubmit st env).1.isSubmitting = true ∧
    (FormSubmission.handleSubmit st env).1.submitBtn = st.submitBtn ∧
    (FormSubmission.handleSubmit st env).1.storage = st.storage ∧
    (FormSubmission.handleSubmit st env).1.log =
      st.log ++ [FormSubmission.Effect.preventDefault] ∧
    (FormSubmission.handleSubmit st env).2 = false := by
  unfold FormSubmission.handleSubmit
  simp [FormSubmission.SubmitState.record, hbusy]

/-- C24, witness: a second submit while one is under way. -/
theorem handleSubmit_overlapping_call_dropped_witness :
    (FormSubmission.handleSubmit busySubmitState probeFailsEnv).1.log =
      [FormSubmission.Effect.preventDefault] ∧
    (FormSubmission.handleSubmit busySubmitState probeFailsEnv).1.storage = emptyStorage :=
  have h := handleSubmit_overlapping_call_dropped busySubmitState probeFailsEnv rfl
  ⟨h.2.2.2.1, h.2.2.1⟩

/-- C27: a call of `handleSubmit` that starts with `isSubmitting` false, on a form
with its submit button, ends with `isSubmitting` false and the button enabled, its
text the one it had when the call started and the spinner gone, whatever the
outcome of the probe and of the `POST`: saved locally, accepted, rejected by the
server, or an error thrown. -/
theorem handleSubmit_restores_button_and_flag (st : FormSubmission.SubmitState)
    (env : FormSubmission.SubmitEnv) (submitBtn : FormSubmission.SubmitButton)
    (hidle : st.isSubmitting = false) (hbtn : st.submitBtn = some submitBtn) :
    (FormSubmission.handleSubmit st env).1.isSubmitting = false ∧
    (FormSubmission.handleSubmit st env).1.submitBtn =
      some { disabled := false, textContent := submitBtn.textContent, spinner := false } ∧
    (FormSubmission.handleSubmit st env).2 = false := by
  unfold FormSubmission.handleSubmit
  simp [FormSubmission.SubmitState.record, hidle, hbtn, FormSubmission.setSubmitButtonLoading]

/-- C27, witness: the probe fails and the submission is saved locally. -/
theorem handleSubmit_restores_button_and_flag_witness :
    (FormSubmission.handleSubmit idleSubmitState probeFailsEnv).1.isSubmitting = false ∧
    (FormSubmission.handleSubmit idleSubmitState probeFailsEnv).1.submitBtn =
      some freshSubmitButton :=
  have h := handleSubmit_restores_button_and_flag idleSubmitState probeFailsEnv
    freshSubmitButton rfl rfl
  ⟨h.1, h.2.1⟩

/-- On a form without a submit button the call stops before its `try`: the promise
is rejected and `isSubmitting` stays true. -/
theorem handleSubmit_without_button (st : FormSubmission.SubmitState)
    (env : FormSubmission.SubmitEnv) (hidle : st.isSubmitting = false)
    (hbtn : st.submitBtn = none) :
    (FormSubmission.handleSubmit st env).1.isSubmitting = true ∧
    (FormSubmission.handleSubmit st env).2 = true := by
  unfold FormSubmission.handleSubmit
  simp [FormSubmission.SubmitState.record, hidle, hbtn]

/-! ### Saving a submission locally -/

theorem lookup_map_assign {β : Type} (object : List (String × β)) (key : String) (value : β)
    (key2 : String) :
    (object.map (fun kv => if kv.1 = key then (key, value) else kv)).lookup key2 =
      if key2 = key then
        (if object.any (fun kv => decide (kv.1 = key)) then some value else none)
      else object.lookup key2 := by
  induction object with
  | nil => simp
  | cons entry rest ih =>
    obtain ⟨k, v⟩ := entry
    by_cases hk : k = key
    · subst hk
      by_cases h2 : key2 = k
      · subst h2
        simp [List.lookup_cons]
      · have hb : (key2 == k) = false := by simpa using h2
        simp [List.lookup_cons, hb, ih, h2]
    · by_cases h2 : key2 = key
      · subst h2
        have hb : (key2 == k) = false := by simpa using fun e : key2 = k => hk e.symm
        have hd : decide (k = key2) = false := by simpa using hk
        simp only [List.map_cons, hk, if_false, List.lookup_cons, hb, ih, if_true,
          List.any_cons, hd, Bool.false_or, decide_False]
      · by_cases h3 : key2 = k
        · subst h3
          simp [List.lookup_cons, hk, h2]
        · have hb : (key2 == k) = false := by simpa using h3
          simp [List.lookup_cons, hb, ih, hk, h2]

theorem lookup_append_assign {β : Type} (object : List (String × β)) (key : String)
    (value : β) (key2 : String)
    (hnew : object.any (fun kv => decide (kv.1 = key)) = false) :
    (object ++ [(key, value)]).lookup key2 =
      if key2 = key then some value else object.lookup key2 := by
  induction object with
  | nil =>
    by_cases h2 : key2 = key
    · subst h2
      simp [List.lookup_cons]
    · have hb : (key2 == key) = false := by simpa using h2
      simp [List.lookup_cons, hb, h2]
  | cons entry rest ih =>
    obtain ⟨k, v⟩ := entry
    simp only [List.any_cons, Bool.or_eq_false_iff, decide_eq_false_iff_not] at hnew
    have hrest := ih hnew.2
    by_cases h3 : key2 = k
    · subst h3
      have hne : ¬ key2 = key := hnew.1
      simp [List.lookup_cons, hne]
    · have hb : (key2 == k) = false := by simpa using h3
      simp only [List.cons_append, List.lookup_cons, hb]
      exact hrest

/-- Reading a property after the assignment `object[key] = value`. -/
theorem lookup_assignProperty {β : Type} (object : List (String × β)) (key : String)
    (value : β) (key2 : String) :
    (assignProperty object key value).lookup key2 =
      if key2 = key then some value else object.lookup key2 := by
  unfold assignProperty
  by_cases hany : object.any (fun kv => decide (kv.1 = key)) = true
  · simp only [hany, if_true]
    rw [lookup_map_assign]
    simp [hany]
  · have hfalse : object.any (fun kv => decide (kv.1 = key)) = false :=
      Bool.eq_false_iff.mpr hany
    simp only [hfalse, Bool.false_eq_true, if_false]
    exact lookup_append_assign object key value key2 hfalse

/-- The record saved locally: the three tags, and every other property of the
mapping with its value. -/
theorem localSubmission_lookup (data : FormMapping) (generatedId now : String) :
    (FormSubmission.localSubmission data generatedId now).lookup "submissionId" =
      some (FormValue.single generatedId) ∧
    (FormSubmission.localSubmission data generatedId now).lookup "submittedAt" =
      some (FormValue.single now) ∧
    (FormSubmission.localSubmission data generatedId now).lookup "status" =
      some (FormValue.single "saved_locally") ∧
    ∀ key : String, key ≠ "submissionId" → key ≠ "submittedAt" → key ≠ "status" →
      (FormSubmission.localSubmission data generatedId now).lookup key = data.lookup key := by
  unfold FormSubmission.localSubmission
  refine ⟨?_, ?_, ?_, ?_⟩
  · simp [lookup_assignProperty]
  · simp [lookup_assignProperty]
  · simp [lookup_assignProperty]
  · intro key h1 h2 h3
    simp [lookup_assignProperty, h1, h2, h3]

/-- C22 (as stated, refuted): (1) the probe reaches the server and the `POST` is
rejected by the network: the mapping was posted, the error is shown, and nothing is
added to the saved submissions; (2) the probe fails and the mapping holds a field
named `status` with the value "Draft": the record saved holds "saved_locally" under
`status`, not the value of the form. -/
theorem local_save_counterexample :
    ((FormSubmission.handleSubmit idleSubmitState postFailsEnv).1.storage.submissions =
        idleSubmitState.storage.submissions ∧
      (FormSubmission.handleSubmit idleSubmitState postFailsEnv).1.log =
        [FormSubmission.Effect.preventDefault, FormSubmission.Effect.readFormData,
         FormSubmission.Effect.healthProbe, FormSubmission.Effect.post statusFormData,
         FormSubmission.Effect.showError "Failed to fetch"]) ∧
    (statusFormData.lookup "status" = some (FormValue.single "Draft") ∧
      (FormSubmission.handleSubmit idleSubmitState probeFailsEnv).1.storage.submissions =
        [[("organizationcompanyname", FormValue.single "Earlier Ltd")],
         [("organizationcompanyname", FormValue.single "Acme"),
          ("status", FormValue.single "saved_locally"),
          ("submissionId", FormValue.single "lq1abcd"),
          ("submittedAt", FormValue.single "2024-05-01T10:00:00.000Z")]]) := by
  decide

/-- C22 (amended): a call of `handleSubmit` that starts with `isSubmitting` false on
a form with its submit button saves the submission locally exactly when the health
probe fails (a rejected request or a response that is not ok): the record is added
after the submissions saved before, it holds the generated `submissionId`, the
`submittedAt` time and the status "saved_locally", and every property of the form
mapping not named as one of these three tags with its value unchanged.  When the
probe succeeds nothing is added to the saved submissions, whatever the `POST`
does. -/
theorem handleSubmit_saves_locally_when_probe_fails (st : FormSubmission.SubmitState)
    (env : FormSubmission.SubmitEnv) (submitBtn : FormSubmission.SubmitButton)
    (hidle : st.isSubmitting = false) (hbtn : st.submitBtn = some submitBtn) :
    (FormSubmission.checkServerHealth env.health = false →
      (FormSubmission.handleSubmit st env).1.storage.submissions =
        st.storage.submissions ++
          [FormSubmission.localSubmission env.formData env.generatedId env.now] ∧
      (FormSubmission.localSubmission env.formData env.generatedId env.now).lookup
        "submissionId" = some (FormValue.single env.generatedId) ∧
      (FormSubmission.localSubmission env.formData env.generatedId env.now).lookup
        "submittedAt" = some (FormValue.single env.now) ∧
      (FormSubmission.localSubmission env.formData env.generatedId env.now).lookup
        "status" = some (FormValue.single "saved_locally") ∧
      ∀ (key : String) (value : FormValue),
        key ≠ "submissionId" → key ≠ "submittedAt" → key ≠ "status" →
        env.formData.lookup key = some value →
        (FormSubmission.localSubmission env.formData env.generatedId env.now).lookup key =
          some value) ∧
    (FormSubmission.checkServerHealth env.health = true →
      (FormSubmission.handleSubmit st env).1.storage.submissions =
        st.storage.submissions) := by
  have hrec := localSubmission_lookup env.formData env.generatedId env.now
  constructor
  · intro hprobe
    refine ⟨?_, hrec.1, hrec.2.1, hrec.2.2.1, ?_⟩
    · unfold FormSubmission.handleSubmit
      simp [FormSubmission.SubmitState.record, hidle, hbtn, hprobe,
        FormSubmission.handleOfflineSubmission]
    · intro key value h1 h2 h3 hval
      rw [hrec.2.2.2 key h1 h2 h3, hval]
  · intro hprobe
    unfold FormSubmission.handleSubmit
    simp only [FormSubmission.SubmitState.record, hidle, hbtn, hprobe]
    unfold FormSubmission.handleOnlineSubmission
    cases env.post with
    | rejected message => simp [FormSubmission.SubmitState.record]
    | notJson => simp [FormSubmission.SubmitState.record]
    | invalidJson message => simp [FormSubmission.SubmitState.record]
    | result success submissionId clearLocalStorage error =>
      cases success <;> cases clearLocalStorage <;> cases error <;>
        simp [FormSubmission.SubmitState.record]

/-- C22 (amended), witness: the probe fails on the idle module: the record is added
after the one saved earlier and keeps the organisation name of the form. -/
theorem handleSubmit_saves_locally_when_probe_fails_witness :
    (FormSubmission.handleSubmit idleSubmitState probeFailsEnv).1.storage.submissions =
      idleSubmitState.storage.submissions ++
        [FormSubmission.localSubmission statusFormData "lq1abcd"
          "2024-05-01T10:00:00.000Z"] ∧
    (FormSubmission.localSubmission statusFormData "lq1abcd"
      "2024-05-01T10:00:00.000Z").lookup "organizationcompanyname" =
      some (FormValue.single "Acme") :=
  have h := (handleSubmit_saves_locally_when_probe_fails idleSubmitState probeFailsEnv
    freshSubmitButton rfl rfl).1 rfl
  ⟨h.1, h.2.2.2.2 "organizationcompanyname" (FormValue.single "Acme") (by decide)
    (by decide) (by decide) rfl⟩

/-! ### The submission endpoint -/

/-- No field is missing exactly when the filter of the handler keeps none. -/
theorem missingFields_eq_nil_iff (formData : Server.RequestBody) :
    Server.requiredFields.filter (fun field => Server.isMissing formData field) = [] ↔
      ∀ field ∈ Server.requiredFields, Server.isMissing formData field = false := by
  rw [List.filter_eq_nil_iff]
  constructor
  · intro h field hf
    simpa using h field hf
  · intro h field hf
    simp [h field hf]

/-- C23 (as stated, refuted): the body holds every required field, yet writing the
submission file fails: the endpoint answers 500 without success and without a
`submissionId`, although no required field is missing. -/
theorem submit_endpoint_write_failure_counterexample :
    Server.requiredFields.filter (fun field => Server.isMissing completeBody field) = [] ∧
    (Server.submitForm completeBody "lq1abcd" false true).response =
      { status := 500, success := false, error := some "Failed to process submission",
        missingFields := none, message := none, submissionId := none,
        clearLocalStorage := none } := by
  decide

/-- C23 (amended): of the 14 required names the endpoint takes as missing those that
are absent from the body or hold a falsy value.  It answers 400 exactly when one is
missing, then reporting the missing names in the order of the required list and
writing nothing.  When none is missing and the submission file is written it
answers with success and the generated `submissionId`; when none is missing and
writing the file fails it answers 500, "Failed to process submission". -/
theorem submit_endpoint_validation (formData : Server.RequestBody) (generatedId : String)
    (writeFileOk csvOk : Bool) :
    Server.requiredFields.length = 14 ∧
    (∀ field, Server.isMissing formData field = true ↔
      (formData.lookup field = none ∨
        ∃ v, formData.lookup field = some v ∧ v.truthy = false)) ∧
    ((Server.submitForm formData generatedId writeFileOk csvOk).response.status = 400 ↔
      ∃ field ∈ Server.requiredFields, Server.isMissing formData field = true) ∧
    ((∃ field ∈ Server.requiredFields, Server.isMissing formData field = true) →
      (Server.submitForm formData generatedId writeFileOk csvOk).response.success = false ∧
      (Server.submitForm formData generatedId writeFileOk csvOk).response.missingFields =
        some (Server.requiredFields.filter (fun field => Server.isMissing formData field)) ∧
      (Server.submitForm formData generatedId writeFileOk csvOk).written = []) ∧
    ((∀ field ∈ Server.requiredFields, Server.isMissing formData field = false) →
      writeFileOk = true →
      (Server.submitForm formData generatedId writeFileOk csvOk).response.success = true ∧
      (Server.submitForm formData generatedId writeFileOk csvOk).response.status = 200 ∧
      (Server.submitForm formData generatedId writeFileOk csvOk).response.submissionId =
        some generatedId ∧
      "submission-" ++ generatedId ++ ".json" ∈
        (Server.submitForm formData generatedId writeFileOk csvOk).written) ∧
    ((∀ field ∈ Server.requiredFields, Server.isMissing formData field = false) →
      writeFileOk = false →
      (Server.submitForm formData generatedId writeFileOk csvOk).response.success = false ∧
      (Server.submitForm formData generatedId writeFileOk csvOk).response.status = 500 ∧
      (Server.submitForm formData generatedId writeFileOk csvOk).response.missingFields =
        none ∧
      (Server.submitForm formData generatedId writeFileOk csvOk).written = []) := by
  have hnil := missingFields_eq_nil_iff formData
  have hsome : (∃ field ∈ Server.requiredFields, Server.isMissing formData field = true) ↔
      (Server.requiredFields.filter
        (fun field => Server.isMissing formData field)).length > 0 := by
    rw [gt_iff_lt, List.length_pos, ne_eq, hnil]
    constructor
    · rintro ⟨field, hf, hm⟩ hall
      rw [hall field hf] at hm
      exact Bool.noConfusion hm
    · intro h
      by_contra hno
      apply h
      intro field hf
      cases hm : Server.isMissing formData field with
      | false => rfl
      | true => exact absurd ⟨field, hf, hm⟩ hno
  refine ⟨rfl, ?_, ?_, ?_, ?_, ?_⟩
  · intro field
    unfold Server.isMissing
    cases formData.lookup field with
    | none => simp
    | some v => simp
  · rw [hsome]
    unfold Server.submitForm
    by_cases hpos : (Server.requiredFields.filter
        (fun field => Server.isMissing formData field)).length > 0
    · simp [hpos]
    · cases writeFileOk <;> simp [hpos]
  · intro hmiss
    have hpos := hsome.mp hmiss
    unfold Server.submitForm
    simp [hpos]
  · intro hall hw
    have hpos : ¬ (Server.requiredFields.filter
        (fun field => Server.isMissing formData field)).length > 0 := by
      rw [hnil.mpr hall]
      simp
    unfold Server.submitForm
    subst hw
    cases csvOk <;> simp [hpos]
  · intro hall hw
    have hpos : ¬ (Server.requiredFields.filter
        (fun field => Server.isMissing formData field)).length > 0 := by
      rw [hnil.mpr hall]
      simp
    unfold Server.submitForm
    subst hw
    simp [hpos]

/-- C23 (amended), witness: a body without a budget range and with an empty problem
category is answered with 400 and these two names, in the order of the required
list. -/
theorem submit_endpoint_validation_witness :
    (Server.submitForm incompleteBody "lq1abcd" true true).response.missingFields =
      some ["problemcategory", "budgetrange"] ∧
    (Server.submitForm incompleteBody "lq1abcd" true true).written = [] :=
  have h := (submit_endpoint_validation incompleteBody "lq1abcd" true true).2.2.2.1
    ⟨"budgetrange", by decide, by decide⟩
  ⟨h.2.1.trans (by decide), h.2.2⟩

/-! ### The catalog parser: comma-joined rows -/

theorem joinChars_cons (sep : Char) (x : List Char) (rest : List (List Char))
    (h : rest ≠ []) : joinChars sep (x :: rest) = x ++ sep :: joinChars sep rest := by
  cases rest with
  | nil => exact absurd rfl h
  | cons y rest2 => rfl

theorem jsJoin_data (sep : String) (c : Char) (hsep : sep.data = [c]) (xs : List String) :
    (jsJoin sep xs).data = joinChars c (xs.map String.data) := by
  induction xs with
  | nil => rfl
  | cons x rest ih =>
    cases rest with
    | nil => rfl
    | cons y rest2 =>
      simp only [jsJoin, List.map_cons, joinChars, String.data_append, hsep] at ih ⊢
      rw [ih]
      simp

theorem mem_joinChars (sep c : Char) (pieces : List (List Char))
    (h : c ∈ joinChars sep pieces) : c = sep ∨ ∃ p ∈ pieces, c ∈ p := by
  induction pieces with
  | nil => simp [joinChars] at h
  | cons x rest ih =>
    by_cases hrest : rest = []
    · subst hrest
      exact Or.inr ⟨x, List.mem_cons_self _ _, h⟩
    · rw [joinChars_cons sep x rest hrest, List.mem_append, List.mem_cons] at h
      rcases h with h | h | h
      · exact Or.inr ⟨x, List.mem_cons_self _ _, h⟩
      · exact Or.inl h
      · rcases ih h with h2 | ⟨p, hp, hc⟩
        · exact Or.inl h2
        · exact Or.inr ⟨p, List.mem_cons_of_mem _ hp, hc⟩

theorem mem_joinChars_of_mem (sep c : Char) (pieces : List (List Char)) (p : List Char)
    (hp : p ∈ pieces) (hc : c ∈ p) : c ∈ joinChars sep pieces := by
  induction pieces with
  | nil => simp at hp
  | cons x rest ih =>
    by_cases hrest : rest = []
    · subst hrest
      simp only [List.mem_singleton] at hp
      subst hp
      exact hc
    · rw [joinChars_cons sep x rest hrest, List.mem_append, List.mem_cons]
      rcases List.mem_cons.mp hp with h | h
      · subst h
        exact Or.inl hc
      · exact Or.inr (Or.inr (ih h))

theorem splitChars_of_not_mem (sep : Char) (p : List Char) (hp : sep ∉ p) :
    splitChars sep p = [p] := by
  induction p with
  | nil => rfl
  | cons c cs ih =>
    have hc : c ≠ sep := fun e => hp (by rw [e]; exact List.mem_cons_self _ _)
    have hcs : sep ∉ cs := fun hm => hp (List.mem_cons_of_mem _ hm)
    simp [splitChars, hc, ih hcs]

theorem splitChars_append_sep (sep : Char) (p rest : List Char) (hp : sep ∉ p) :
    splitChars sep (p ++ sep :: rest) = p :: splitChars sep rest := by
  induction p with
  | nil => simp [splitChars]
  | cons c cs ih =>
    have hc : c ≠ sep := fun e => hp (by rw [e]; exact List.mem_cons_self _ _)
    have hcs : sep ∉ cs := fun hm => hp (List.mem_cons_of_mem _ hm)
    simp [splitChars, hc, ih hcs]

theorem splitChars_joinChars (sep : Char) (pieces : List (List Char)) (hne : pieces ≠ [])
    (hp : ∀ p ∈ pieces, sep ∉ p) : splitChars sep (joinChars sep pieces) = pieces := by
  induction pieces with
  | nil => exact absurd rfl hne
  | cons x rest ih =>
    by_cases hrest : rest = []
    · subst hrest
      exact splitChars_of_not_mem sep x (hp x (List.mem_cons_self _ _))
    · rw [joinChars_cons sep x rest hrest,
        splitChars_append_sep sep x _ (hp x (List.mem_cons_self _ _)),
        ih hrest (fun p h => hp p (List.mem_cons_of_mem _ h))]

theorem jsTrimChars_eq_self (l : List Char)
    (hhead : ∀ c, l.head? = some c → isJsWhitespace c = false)
    (hlast : ∀ c, l.getLast? = some c → isJsWhitespace c = false) : jsTrimChars l = l := by
  have h1 : ∀ m : List Char, (∀ c, m.head? = some c → isJsWhitespace c = false) →
      m.dropWhile isJsWhitespace = m := by
    intro m hm
    cases m with
    | nil => rfl
    | cons c cs => simp [List.dropWhile, hm c rfl]
  unfold jsTrimChars
  rw [h1 l hhead, h1 l.reverse (by
    intro c hc
    rw [List.head?_reverse] at hc
    exact hlast c hc), List.reverse_reverse]

theorem head?_joinChars_of_ne_nil (sep : Char) (x : List Char) (rest : List (List Char))
    (hx : x ≠ []) : (joinChars sep (x :: rest)).head? = x.head? := by
  cases x with
  | nil => exact absurd rfl hx
  | cons c cs => cases rest <;> simp [joinChars]

theorem head?_joinChars (sep c : Char) (pieces : List (List Char))
    (h : (joinChars sep pieces).head? = some c) :
    c = sep ∨ ∃ p ∈ pieces, p.head? = some c := by
  cases pieces with
  | nil => simp [joinChars] at h
  | cons x rest =>
    by_cases hx : x = []
    · subst hx
      cases rest with
      | nil => simp [joinChars] at h
      | cons y rest2 =>
        simp only [joinChars, List.nil_append, List.head?_cons, Option.some.injEq] at h
        exact Or.inl h.symm
    · rw [head?_joinChars_of_ne_nil sep x rest hx] at h
      exact Or.inr ⟨x, List.mem_cons_self _ _, h⟩

theorem getLast?_joinChars_of_ne_nil (sep : Char) (pieces : List (List Char)) (z : List Char)
    (hz : pieces.getLast? = some z) (hne : z ≠ []) :
    (joinChars sep pieces).getLast? = z.getLast? := by
  induction pieces with
  | nil => simp at hz
  | cons x rest ih =>
    cases rest with
    | nil =>
      simp only [List.getLast?_singleton, Option.some.injEq] at hz
      subst hz
      rfl
    | cons y rest2 =>
      rw [List.getLast?_cons_cons] at hz
      have hih := ih hz
      have hjoin : joinChars sep (y :: rest2) ≠ [] := by
        intro hnil
        rw [hnil] at hih
        cases z with
        | nil => exact hne rfl
        | cons c cs => simp [List.getLast?_cons] at hih
      rw [joinChars_cons sep x (y :: rest2) (by simp),
        List.getLast?_append_of_ne_nil _ (by simp)]
      cases hj : joinChars sep (y :: rest2) with
      | nil => exact absurd hj hjoin
      | cons c cs =>
        rw [List.getLast?_cons_cons, ← hj]
        exact hih

theorem getLast?_joinChars (sep c : Char) (pieces : List (List Char))
    (h : (joinChars sep pieces).getLast? = some c) :
    c = sep ∨ ∃ p ∈ pieces, p.getLast? = some c := by
  induction pieces with
  | nil => simp [joinChars] at h
  | cons x rest ih =>
    by_cases hrest : rest = []
    · subst hrest
      exact Or.inr ⟨x, List.mem_cons_self _ _, h⟩
    · rw [joinChars_cons sep x rest hrest, List.getLast?_append_of_ne_nil _ (by simp)] at h
      cases hj : joinChars sep rest with
      | nil =>
        rw [hj] at h
        simp only [List.getLast?_singleton, Option.some.injEq] at h
        exact Or.inl h.symm
      | cons d ds =>
        rw [hj, List.getLast?_cons_cons, ← hj] at h
        rcases ih h with h2 | ⟨p, hp, hc⟩
        · exact Or.inl h2
        · exact Or.inr ⟨p, List.mem_cons_of_mem _ hp, hc⟩

theorem replaceCRLF_of_not_mem (l : List Char) (h : '\r' ∉ l) : replaceCRLF l = l := by
  induction l with
  | nil => rfl
  | cons c rest ih =>
    cases rest with
    | nil => rfl
    | cons d rest2 =>
      have hc : c ≠ '\r' := fun e => h (by rw [e]; exact List.mem_cons_self _ _)
      simp only [replaceCRLF, hc, false_and, if_false]
      rw [ih (fun hm => h (List.mem_cons_of_mem _ hm))]

theorem replaceCR_of_not_mem (l : List Char) (h : '\r' ∉ l) : replaceCR l = l := by
  induction l with
  | nil => rfl
  | cons c rest ih =>
    have hc : c ≠ '\r' := fun e => h (by rw [e]; exact List.mem_cons_self _ _)
    have hrest := ih (fun hm => h (List.mem_cons_of_mem _ hm))
    unfold replaceCR at hrest ⊢
    simp [hc, hrest]

theorem joinChars_append_singleton (init : List (List Char)) (z : List Char) :
    joinChars ',' (init ++ [z]) = joinSegments init z := by
  induction init with
  | nil => rfl
  | cons x rest ih =>
    rw [List.cons_append, joinChars_cons ',' x _ (by simp), ih]
    rfl

theorem mk_data_eq (s : String) : String.mk s.data = s := rfl

theorem isCleanText_spec (s : String) (h : isCleanText s = true) :
    ',' ∉ s.data ∧ '\n' ∉ s.data ∧ '\r' ∉ s.data ∧
    (∀ c, s.data.head? = some c → isJsWhitespace c = false) ∧
    (∀ c, s.data.getLast? = some c → isJsWhitespace c = false) := by
  unfold isCleanText at h
  simp only [Bool.and_eq_true, decide_eq_true_eq] at h
  obtain ⟨⟨⟨⟨h1, h2⟩, h3⟩, h4⟩, h5⟩ := h
  refine ⟨h1, h2, h3, ?_, ?_⟩
  · intro c hc
    rw [hc] at h4
    simpa using h4
  · intro c hc
    rw [hc] at h5
    simpa using h5

theorem jsTrimChars_clean (s : String) (h : isCleanText s = true) :
    jsTrimChars s.data = s.data :=
  jsTrimChars_eq_self _ (isCleanText_spec s h).2.2.2.1 (isCleanText_spec s h).2.2.2.2

theorem joined_line_head (values : List String)
    (hclean : ∀ v ∈ values, isCleanText v = true) (c : Char)
    (hc : (joinChars ',' (values.map String.data)).head? = some c) :
    isJsWhitespace c = false := by
  rcases head?_joinChars ',' c _ hc with h | ⟨p, hp, hpc⟩
  · subst h
    decide
  · obtain ⟨v, hv, rfl⟩ := List.mem_map.mp hp
    exact (isCleanText_spec v (hclean v hv)).2.2.2.1 c hpc

theorem joined_line_last (values : List String)
    (hclean : ∀ v ∈ values, isCleanText v = true) (c : Char)
    (hc : (joinChars ',' (values.map String.data)).getLast? = some c) :
    isJsWhitespace c = false := by
  rcases getLast?_joinChars ',' c _ hc with h | ⟨p, hp, hpc⟩
  · subst h
    decide
  · obtain ⟨v, hv, rfl⟩ := List.mem_map.mp hp
    exact (isCleanText_spec v (hclean v hv)).2.2.2.2 c hpc

/-- A comma-joined line of clean values is not changed by trimming. -/
theorem jsTrimChars_joined_line (values : List String)
    (hclean : ∀ v ∈ values, isCleanText v = true) :
    jsTrimChars (joinChars ',' (values.map String.data)) =
      joinChars ',' (values.map String.data) :=
  jsTrimChars_eq_self _ (joined_line_head values hclean) (joined_line_last values hclean)

theorem not_mem_joined_line (c : Char) (values : List String) (hc : c ≠ ',')
    (h : ∀ v ∈ values, c ∉ v.data) : c ∉ joinChars ',' (values.map String.data) := by
  intro hmem
  rcases mem_joinChars ',' c _ hmem with h1 | ⟨p, hp, hpc⟩
  · exact hc h1
  · obtain ⟨v, hv, rfl⟩ := List.mem_map.mp hp
    exact h v hv hpc

/-- A comma-joined line of values, one of them not empty, is not empty. -/
theorem joined_line_ne_nil (values : List String) (h : ∃ v ∈ values, v ≠ "") :
    joinChars ',' (values.map String.data) ≠ [] := by
  obtain ⟨v, hv, hne⟩ := h
  cases hd : v.data with
  | nil =>
    exact absurd (String.ext hd) hne
  | cons c cs =>
    intro hnil
    have hmem : c ∈ joinChars ',' (values.map String.data) :=
      mem_joinChars_of_mem ',' c _ v.data (List.mem_map_of_mem _ hv)
        (by rw [hd]; exact List.mem_cons_self _ _)
    rw [hnil] at hmem
    simp at hmem

/-- The values `parseCSV` reads from a comma-joined line of as many clean values as
there are columns are those values. -/
theorem lineValues_joined_line (values : List String) (hne : values ≠ [])
    (hclean : ∀ v ∈ values, isCleanText v = true) :
    lineValues values.length (joinChars ',' (values.map String.data)) = values := by
  obtain ⟨init, z, rfl⟩ : ∃ init z, values = init ++ [z] :=
    ⟨values.dropLast, values.getLast hne, (List.dropLast_append_getLast hne).symm⟩
  rw [List.map_append, List.map_singleton, joinChars_append_singleton,
    lineValues_joinSegments _ _ _
      (by
        intro seg hseg
        obtain ⟨v, hv, rfl⟩ := List.mem_map.mp hseg
        exact (isCleanText_spec v (hclean v (List.mem_append_left _ hv))).1)
      (by simp)
      (by
        intro h
        simp at h)]
  have hmap : (init.map String.data).map (fun seg => String.mk (jsTrimChars seg)) = init := by
    rw [List.map_map]
    conv_rhs => rw [← List.map_id init]
    apply List.map_congr_left
    intro v hv
    simp only [Function.comp, id]
    rw [jsTrimChars_clean v (hclean v (List.mem_append_left _ hv))]
  rw [hmap, jsTrimChars_clean z (hclean z (by simp))]
  simp [padValues, mk_data_eq]

/-! ### The catalog parser: rows of distinct headers -/

theorem setProperty_new (row : FieldConfig) (key value : String) (hproto : key ≠ "__proto__")
    (hnew : ∀ kv ∈ row, kv.1 ≠ key) : setProperty row key value = row ++ [(key, value)] := by
  unfold setProperty
  have hany : row.any (fun kv => decide (kv.1 = key)) = false := by
    rw [List.any_eq_false]
    intro kv hkv
    simpa using hnew kv hkv
  simp [hproto, hany]

theorem foldl_setProperty_fresh (values headers : List String) (k : Nat) (acc : FieldConfig)
    (hnodup : headers.Nodup) (hproto : "__proto__" ∉ headers)
    (hfresh : ∀ kv ∈ acc, kv.1 ∉ headers) :
    (indexedFrom k headers).foldl
        (fun row ih => setProperty row ih.2 ((values[ih.1]?).getD "")) acc =
      acc ++ (indexedFrom k headers).map (fun ih => (ih.2, (values[ih.1]?).getD "")) := by
  induction headers generalizing k acc with
  | nil => simp [indexedFrom]
  | cons h t ih =>
    simp only [indexedFrom, List.foldl_cons, List.map_cons]
    rw [setProperty_new acc h _
      (fun e => hproto (by rw [← e]; exact List.mem_cons_self _ _))
      (fun kv hkv e => hfresh kv hkv (by rw [e]; exact List.mem_cons_self _ _))]
    rw [ih (k + 1) _ (List.nodup_cons.mp hnodup).2
      (fun hm => hproto (List.mem_cons_of_mem _ hm)) ?_]
    · simp
    · intro kv hkv hmem
      rcases List.mem_append.mp hkv with h1 | h1
      · exact hfresh kv h1 (List.mem_cons_of_mem _ hmem)
      · simp only [List.mem_singleton] at h1
        subst h1
        exact (List.nodup_cons.mp hnodup).1 hmem

theorem indexedFrom_map_zip (values headers : List String) (k : Nat)
    (hlen : k + headers.length ≤ values.length) :
    (indexedFrom k headers).map (fun ih => (ih.2, (values[ih.1]?).getD "")) =
      headers.zip (values.drop k) := by
  induction headers generalizing k with
  | nil => simp [indexedFrom]
  | cons h t ih =>
    have hk : k < values.length := by
      simp only [List.length_cons] at hlen
      omega
    rw [List.drop_eq_getElem_cons hk]
    simp only [indexedFrom, List.map_cons, List.zip_cons_cons]
    rw [ih (k + 1) (by simp only [List.length_cons] at hlen; omega)]
    simp [List.getElem?_eq_getElem hk]

/-- For distinct headers, none of them `__proto__`, the row built from as many values
pairs each header with its value, in the order of the headers. -/
theorem buildRow_eq_zip (headers values : List String) (hnodup : headers.Nodup)
    (hproto : "__proto__" ∉ headers) (hlen : values.length = headers.length) :
    buildRow headers values = headers.zip values := by
  unfold buildRow
  rw [foldl_setProperty_fresh values headers 0 [] hnodup hproto (by simp),
    indexedFrom_map_zip values headers 0 (by omega)]
  simp

theorem parseDataLines_joined_rows (headers : List String) (rows : List (List String))
    (hne : headers ≠ []) (hnodup : headers.Nodup) (hproto : "__proto__" ∉ headers)
    (hlen : ∀ r ∈ rows, r.length = headers.length)
    (hclean : ∀ r ∈ rows, ∀ v ∈ r, isCleanText v = true)
    (hrow : ∀ r ∈ rows, ∃ v ∈ r, v ≠ "") :
    parseDataLines headers (rows.map (fun r => joinChars ',' (r.map String.data))) =
      rows.map (fun r => headers.zip r) := by
  induction rows with
  | nil => rfl
  | cons r rest ih =>
    have hr : r ∈ r :: rest := List.mem_cons_self _ _
    have hrne : r ≠ [] := by
      intro e
      have := hlen r hr
      rw [e] at this
      exact hne (List.length_eq_zero.mp this.symm)
    have hvalues := lineValues_joined_line r hrne (hclean r hr)
    rw [hlen r hr] at hvalues
    simp only [List.map_cons, parseDataLines]
    rw [jsTrimChars_joined_line r (hclean r hr), if_neg (joined_line_ne_nil r (hrow r hr)),
      hvalues, buildRow_eq_zip headers r hnodup hproto (hlen r hr),
      ih (fun r2 h => hlen r2 (List.mem_cons_of_mem _ h))
        (fun r2 h => hclean r2 (List.mem_cons_of_mem _ h))
        (fun r2 h => hrow r2 (List.mem_cons_of_mem _ h))]

/-- The lines of a catalog text of clean data are its header line and its rows. -/
theorem csvLines_catalogText (headers : List String) (rows : List (List String))
    (hheaders : ∀ h ∈ headers, isCleanText h = true)
    (hfirst : ∃ h ∈ headers, h ≠ "")
    (hclean : ∀ r ∈ rows, ∀ v ∈ r, isCleanText v = true)
    (hrow : ∀ r ∈ rows, ∃ v ∈ r, v ≠ "") :
    csvLines (catalogText headers rows) =
      joinChars ',' (headers.map String.data) ::
        rows.map (fun r => joinChars ',' (r.map String.data)) := by
  have hdata : (catalogText headers rows).data =
      joinChars '\n' (joinChars ',' (headers.map String.data) ::
        rows.map (fun r => joinChars ',' (r.map String.data))) := by
    unfold catalogText
    rw [jsJoin_data "\n" '\n' rfl, List.map_cons, jsJoin_data "," ',' rfl, List.map_map]
    congr 2
    apply List.map_congr_left
    intro r _
    exact jsJoin_data "," ',' rfl r
  have hline : ∀ line ∈ joinChars ',' (headers.map String.data) ::
      rows.map (fun r => joinChars ',' (r.map String.data)),
      ∃ values : List String, line = joinChars ',' (values.map String.data) ∧
        (∀ v ∈ values, isCleanText v = true) ∧ ∃ v ∈ values, v ≠ "" := by
    intro line hmem
    rcases List.mem_cons.mp hmem with h | h
    · exact ⟨headers, h, hheaders, hfirst⟩
    · obtain ⟨r, hr, rfl⟩ := List.mem_map.mp h
      exact ⟨r, rfl, hclean r hr, hrow r hr⟩
  have hnocr : '\r' ∉ (catalogText headers rows).data := by
    rw [hdata]
    intro hmem
    rcases mem_joinChars '\n' '\r' _ hmem with h | ⟨line, hl, hc⟩
    · exact absurd h (by decide)
    · obtain ⟨values, rfl, hv, _⟩ := hline line hl
      exact not_mem_joined_line '\r' values (by decide)
        (fun v h => (isCleanText_spec v (hv v h)).2.2.1) hc
  have htrim : jsTrimChars (catalogText headers rows).data =
      (catalogText headers rows).data := by
    apply jsTrimChars_eq_self
    · intro c hc
      rw [hdata, head?_joinChars_of_ne_nil '\n' _ _ (joined_line_ne_nil headers hfirst)] at hc
      exact joined_line_head headers hheaders c hc
    · intro c hc
      obtain ⟨z, hz⟩ : ∃ z, (joinChars ',' (headers.map String.data) ::
          rows.map (fun r => joinChars ',' (r.map String.data))).getLast? = some z := by
        rw [List.getLast?_cons]
        exact ⟨_, rfl⟩
      obtain ⟨values, rfl, hv, hne⟩ := hline z (List.mem_of_getLast?_eq_some hz)
      rw [hdata, getLast?_joinChars_of_ne_nil '\n' _ _ hz (joined_line_ne_nil values hne)] at hc
      exact joined_line_last values hv c hc
  unfold csvLines
  rw [htrim, replaceCRLF_of_not_mem _ hnocr, replaceCR_of_not_mem _ hnocr, hdata]
  apply splitChars_joinChars '\n' _ (by simp)
  intro line hl
  obtain ⟨values, rfl, hv, _⟩ := hline line hl
  exact not_mem_joined_line '\n' values (by decide)
    (fun v h => (isCleanText_spec v (hv v h)).2.1)

/-- The headers read from the comma-joined line of clean header names are those
names. -/
theorem csvHeaders_joined_line (headers : List String) (hne : headers ≠ [])
    (hheaders : ∀ h ∈ headers, isCleanText h = true) :
    csvHeaders (joinChars ',' (headers.map String.data)) = headers := by
  unfold csvHeaders
  rw [splitChars_joinChars ',' _ (by simpa using hne)
    (by
      intro p hp
      obtain ⟨v, hv, rfl⟩ := List.mem_map.mp hp
      exact (isCleanText_spec v (hheaders v hv)).1), List.map_map]
  conv_rhs => rw [← List.map_id headers]
  apply List.map_congr_left
  intro v hv
  simp only [Function.comp, id]
  rw [jsTrimChars_clean v (hheaders v hv)]

/-- On clean data without a header `__proto__`, `parseCSV` inverts comma-joining: for
distinct, non-empty header names and rows of as many values, none entirely empty,
no header or value holding a comma, a line break or white space at either end, the
text of the header line and the rows parses to those rows in order, each pairing
every header with its value. -/
theorem parseCSV_catalogText (headers : List String) (rows : List (List String))
    (hne : headers ≠ []) (hnodup : headers.Nodup) (hproto : "__proto__" ∉ headers)
    (hnonempty : ∀ h ∈ headers, h ≠ "")
    (hheaders : ∀ h ∈ headers, isCleanText h = true)
    (hlen : ∀ r ∈ rows, r.length = headers.length)
    (hclean : ∀ r ∈ rows, ∀ v ∈ r, isCleanText v = true)
    (hrow : ∀ r ∈ rows, ∃ v ∈ r, v ≠ "") :
    parseCSV (catalogText headers rows) = rows.map (fun r => headers.zip r) := by
  have hfirst : ∃ h ∈ headers, h ≠ "" := by
    cases headers with
    | nil => exact absurd rfl hne
    | cons h t => exact ⟨h, List.mem_cons_self _ _, hnonempty h (List.mem_cons_self _ _)⟩
  unfold parseCSV
  rw [csvLines_catalogText headers rows hheaders hfirst hclean hrow]
  simp only
  rw [csvHeaders_joined_line headers hne hheaders]
  exact parseDataLines_joined_rows headers rows hne hnodup hproto hlen hclean hrow

/-- The round trip on a catalog of two columns and two rows. -/
theorem parseCSV_catalogText_two_rows :
    parseCSV (catalogText ["label", "kind"] [["Budget", "select"], ["Notes", ""]]) =
      [[("label", "Budget"), ("kind", "select")], [("label", "Notes"), ("kind", "")]] :=
  parseCSV_catalogText ["label", "kind"] [["Budget", "select"], ["Notes", ""]]
    (by decide) (by decide) (by decide) (by decide) (by decide) (by decide) (by decide)
    (by decide)

/-- C30: the headers `__proto__` and `a` are distinct, non-empty and clean, and so is
the row of the values "x" and "y"; `parseCSV` (in `utils.js` and in `FormGenerator`)
of the text "__proto__,a\nx,y" returns a row that maps `a` to "y" and has no value
for the header `__proto__`. -/
theorem parseCSV_does_not_invert_proto_header :
    catalogText ["__proto__", "a"] [["x", "y"]] = "__proto__,a\nx,y" ∧
    (["__proto__", "a"].all isCleanText && ["x", "y"].all isCleanText) = true ∧
    parseCSV (catalogText ["__proto__", "a"] [["x", "y"]]) = [[("a", "y")]] ∧
    FormGenerator.parseCSV (catalogText ["__proto__", "a"] [["x", "y"]]) = [[("a", "y")]] ∧
    (parseCSV (catalogText ["__proto__", "a"] [["x", "y"]])).map
      (fun row => row.get "__proto__") = [none] := by
  decide


/-! ### The form mapping: names that are not inherited, values that are not empty -/

theorem valuesOf_append_same (done : List (String × String)) (key value : String) :
    valuesOf (done ++ [(key, value)]) key = valuesOf done key ++ [value] := by
  simp [valuesOf, List.filter_append]

theorem valuesOf_append_ne (done : List (String × String)) (key value name : String)
    (h : name ≠ key) : valuesOf (done ++ [(key, value)]) name = valuesOf done name := by
  have hk : ¬ key = name := fun e => h e.symm
  simp [valuesOf, List.filter_append, hk]

/-- One entry more keeps the mapping the collection of the values read so far, the
name not being inherited and no value read before being empty. -/
theorem getFormDataStep_collects (done : List (String × String)) (data : FormMapping)
    (key value : String) (hkey : key ∉ ComplexityCalculator.objectPrototypeKeys)
    (hdone : ∀ e ∈ done, e.2 ≠ "")
    (hinv : ∀ name, data.lookup name = collectedValue (valuesOf done name)) (name : String) :
    (FormSubmission.getFormDataStep data key value).lookup name =
      collectedValue (valuesOf (done ++ [(key, value)]) name) := by
  have hstep : ∀ v : FormValue, (assignProperty data key v).lookup name =
      if name = key then some v else collectedValue (valuesOf done name) := by
    intro v
    rw [lookup_assignProperty, hinv name]
  by_cases hname : name = key
  · subst hname
    rw [valuesOf_append_same]
    unfold FormSubmission.getFormDataStep
    have hlook := hinv name
    cases hvs : valuesOf done name with
    | nil =>
      rw [hvs] at hlook
      simp only [collectedValue] at hlook
      simp only [hlook, hkey, if_false, hstep, if_true, List.nil_append, collectedValue]
    | cons s rest =>
      cases rest with
      | nil =>
        rw [hvs] at hlook
        simp only [collectedValue] at hlook
        have hs : s ≠ "" := by
          have hmem : s ∈ valuesOf done name := by rw [hvs]; exact List.mem_cons_self _ _
          obtain ⟨e, he, rfl⟩ := List.mem_map.mp hmem
          exact hdone e (List.mem_of_mem_filter he)
        simp [hlook, hs, hstep, collectedValue]
      | cons t rest2 =>
        rw [hvs] at hlook
        simp only [collectedValue] at hlook
        simp [hlook, hstep, collectedValue]
  · rw [valuesOf_append_ne done key value name hname]
    unfold FormSubmission.getFormDataStep
    cases data.lookup key with
    | none =>
      simp only [hkey, if_false, hstep, hname]
    | some v =>
      cases v with
      | single s =>
        by_cases hs : s = ""
        · simp only [hs, if_true, hstep, hname, if_false]
        · simp only [hs, if_false, hstep, hname]
      | list items => simp only [hstep, hname, if_false]

theorem foldl_getFormDataStep_collects (rest done : List (String × String))
    (data : FormMapping)
    (hkeys : ∀ e ∈ rest, e.1 ∉ ComplexityCalculator.objectPrototypeKeys)
    (hvalues : ∀ e ∈ done ++ rest, e.2 ≠ "")
    (hinv : ∀ name, data.lookup name = collectedValue (valuesOf done name)) (name : String) :
    (rest.foldl (fun data e => FormSubmission.getFormDataStep data e.1 e.2) data).lookup name =
      collectedValue (valuesOf (done ++ rest) name) := by
  induction rest generalizing done data with
  | nil => simpa using hinv name
  | cons e rest2 ih =>
    have happ : done ++ e :: rest2 = (done ++ [e]) ++ rest2 := by simp
    rw [List.foldl_cons, happ]
    apply ih (done ++ [e])
    · exact fun e2 h => hkeys e2 (List.mem_cons_of_mem _ h)
    · rw [← happ]
      exact hvalues
    · intro name2
      exact getFormDataStep_collects done data e.1 e.2 (hkeys e (List.mem_cons_self _ _))
        (fun e2 h => hvalues e2 (List.mem_append_left _ h)) hinv name2

/-- For entries whose names are not inherited from `Object.prototype` and whose
values are not empty, `getFormData` returns a mapping in which a name occurring
once maps to its value and a name occurring more than once maps to the list of
its values in entry order. -/
theorem getFormData_collects (entries : List (String × String))
    (hproto : ∀ e ∈ entries, e.1 ≠ "__proto__")
    (hkeys : ∀ e ∈ entries, e.1 ∉ ComplexityCalculator.objectPrototypeKeys)
    (hvalues : ∀ e ∈ entries, e.2 ≠ "") :
    ∃ data, FormSubmission.getFormData entries = some data ∧
      ∀ name, data.lookup name = collectedValue (valuesOf entries name) := by
  have hany : entries.any (fun e => decide (e.1 = "__proto__")) = false := by
    rw [List.any_eq_false]
    intro e he
    simpa using hproto e he
  refine ⟨_, by unfold FormSubmission.getFormData; rw [hany]; rfl, ?_⟩
  intro name
  have h := foldl_getFormDataStep_collects entries [] [] hkeys (by simpa using hvalues)
    (by intro n; rfl) name
  simpa using h

end TalentHub
